import Mathlib

/-!
# android-camera-hal: a shallow embedding of the capture core

The definitions below follow the C++ sources function by function:

* `ImageConverter.cpp`  : `splitRunWait`, `UYVYToRGBA`, `YUY2ToRGBA`, `UYVYToJPEG`,
                          `YUY2ToJPEG`
* `V4l2Device.cpp`      : the constructor, `availableResolutions`, `sensorResolution`,
                          `setResolution`, `connect`, `disconnect`, `setStreaming`,
                          `dequeueBuffer`, `queueBuffer`, `readLock`, `unlock`
* `Camera.cpp`          : `configureStreams`, `processCaptureRequest`,
                          `notifyShutter`, `processCaptureResult`, and the size of
                          the JPEG buffer from `staticCharacteristics`
* `Workers.cpp`         : `start`, `stop`, `queueTask`, `Thread::threadLoop`,
                          `Task::execute`, `Task::waitForCompletion`
* `Yuv422UyvyToJpegEncoder.cpp` : `deinterleave`

Conventions.

* `unsigned` / `uint32_t` values are naturals reduced modulo `2 ^ 32` where the
  source computes with them; `size_t` values are reduced modulo `2 ^ bits`,
  `bits` being the width of `size_t` on the target (32 or 64).
* Pointers are natural numbers (addresses), `0` is `NULL`.
* Calls into collaborators that are not part of the sources (the kernel, the
  gralloc mapper, fences, the JPEG codec, the framework callbacks) are recorded
  as events; what they answer is supplied by an environment record.
* `assert(...)` lines are preconditions of the C++ functions; they do not
  change the result and appear as hypotheses where a property needs them.
-/

namespace android

/-! ## Machine integers -/

/-- Value of a C `unsigned` (32 bit) expression. -/
def u32 (n : Nat) : Nat := n % 2 ^ 32

/-- Value of a `size_t` expression on a target whose `size_t` has `bits` bits. -/
def usize (bits n : Nat) : Nat := n % 2 ^ bits

/-- The `size_t` difference `a - b` (wraps around when `b > a`). -/
def usizeSub (bits a b : Nat) : Nat :=
  (usize bits a + 2 ^ bits - usize bits b) % 2 ^ bits

/-- The cast `(uint64_t)x` of a signed 64 bit value. -/
def toUInt64 (x : Int) : Nat := (x % 2 ^ 64).toNat

/-- The cast `(int)x` of a 32 bit unsigned value. -/
def toInt32 (n : Nat) : Int :=
  if u32 n < 2 ^ 31 then (u32 n : Int) else (u32 n : Int) - 2 ^ 32

/-! ## ImageConverter.cpp -/

namespace ImageConverter

/-- The macro `WORKERS_TASKS_NUM`. -/
def WORKERS_TASKS_NUM : Nat := 30

/-- The struct `ImageConverter::ConvertTask::Data`; `src` and `dst` are addresses. -/
structure ConvertTaskData where
  src : Nat
  dst : Nat
  width : Nat
  linesNum : Nat
  deriving DecidableEq, Repr

/-- The constant `linesPerTask` of `splitRunWait`:
`(height + WORKERS_TASKS_NUM - 1) / WORKERS_TASKS_NUM`, computed in `unsigned`. -/
def linesPerTask (height : Nat) : Nat :=
  u32 (u32 height + WORKERS_TASKS_NUM - 1) / WORKERS_TASKS_NUM

/-- The value stored in `tasks[i].data.linesNum` by the body of the first loop
of `splitRunWait`: `linesPerTask`, overwritten by `height - i * linesPerTask`
(a `size_t` subtraction) when `(i + 1) * linesPerTask >= height`. -/
def linesNum (bits height i : Nat) : Nat :=
  if usize bits ((i + 1) * linesPerTask height) ≥ usize bits (u32 height) then
    usizeSub bits (u32 height) (usize bits (i * linesPerTask height))
  else
    linesPerTask height

/-- The first loop of `splitRunWait` from index `i` on, `n` iterations left:
the task data queued for each index and the final value of `dstPtr`. -/
def splitLoop (bits width height : Nat) : Nat → Nat → Nat → Nat → List ConvertTaskData × Nat
  | 0, _, _, dstPtr => ([], dstPtr)
  | n + 1, i, srcPtr, dstPtr =>
    let task : ConvertTaskData :=
      { src := srcPtr, dst := dstPtr, width := u32 width, linesNum := linesNum bits height i }
    let rest := splitLoop bits width height n (i + 1)
      (srcPtr + usize bits (linesPerTask height * u32 width * 2))
      (dstPtr + usize bits (linesPerTask height * u32 width * 4))
    (task :: rest.1, rest.2)

/-- The function `ImageConverter::splitRunWait`: the data of the
`WORKERS_TASKS_NUM` queued tasks, in queueing order, and the returned pointer. -/
def splitRunWait (bits src dst width height : Nat) : List ConvertTaskData × Nat :=
  splitLoop bits width height WORKERS_TASKS_NUM 0 src dst

/-- The first frame row converted by the task queued for index `i`: its `src`
lies `i * linesPerTask` rows of `width * 2` bytes behind the frame start. -/
def bandStart (height i : Nat) : Nat := i * linesPerTask height

/-- Whether the task queued for index `i` converts frame row `r`: the task
function runs over `linesNum` consecutive rows from its `src` on. -/
def inBand (bits height i r : Nat) : Bool :=
  decide (bandStart height i ≤ r) && decide (r < bandStart height i + linesNum bits height i)

/-- A byte store `(address, value)`. -/
abbrev Store := Nat × Nat

/-- The call `stream.copyTo(dst)`: byte `j` of the stream goes to `dst + j`. -/
def copyTo (dst : Nat) : List Nat → List Store
  | [] => []
  | b :: bs => (dst, b) :: copyTo (dst + 1) bs

/-- The external JPEG codec: the bytes `encoder.encode` appends to the stream
for a source address, a width, a height and a quality. -/
abbrev Codec := Nat → Nat → Nat → Nat → List Nat

/-- The function `ImageConverter::YUY2ToJPEG`; `encoder` stands for
`Yuv422IToJpegEncoder::encode`. The result is the returned pointer together
with the bytes stored through `dst`. -/
def YUY2ToJPEG (encoder : Codec) (src dst width height dstLen quality : Nat) : Nat × List Store :=
  let stream := encoder src width height quality
  if stream.length > dstLen then
    (dst, [])
  else
    (dst + stream.length, copyTo dst stream)

/-- The function `ImageConverter::UYVYToJPEG`; `encoder` stands for
`Yuv422UyvyToJpegEncoder::encode`. The result is the returned pointer together
with the bytes stored through `dst`. -/
def UYVYToJPEG (encoder : Codec) (src dst width height dstLen quality : Nat) : Nat × List Store :=
  let stream := encoder src width height quality
  if stream.length > dstLen then
    (dst, [])
  else
    (dst + stream.length, copyTo dst stream)

/-- The memory seen by the conversion tasks: a byte for every address. -/
abbrev Memory := Nat → Nat

/-- The row routines of libyuv that the task functions call; they are not part
of the sources. `toUV422 row width` is what `UYVYToUV422Row_NEON` (or
`YUY2ToUV422Row_NEON`) leaves in `rowu` and `rowv` for the `width * 2` source
bytes `row`, `toY row width` what `UYVYToYRow_NEON` (or `YUY2ToYRow_NEON`)
leaves in `rowy`, and `toABGR rowy rowu rowv width` the `width * 4` bytes that
`I422ToABGRRow_NEON` stores. -/
structure RowRoutines where
  toUV422 : List Nat → Nat → List Nat × List Nat
  toY : List Nat → Nat → List Nat
  toABGR : List Nat → List Nat → List Nat → Nat → List Nat

/-- The `n` bytes of memory from address `addr` on. -/
def readBytes (mem : Memory) (addr n : Nat) : List Nat :=
  (List.range n).map (fun j => mem (addr + j))

/-- The memory after `n` bytes of `bytes` are stored from address `addr` on. -/
def writeBytes (mem : Memory) (addr n : Nat) (bytes : List Nat) : Memory :=
  fun a => if addr ≤ a ∧ a < addr + n then bytes.getD (a - addr) 0 else mem a

/-- The three row calls of one round of the task function: the row at `src` is
read and its conversion is stored at `dst`. -/
def convertRow (r : RowRoutines) (mem : Memory) (src dst width : Nat) : Memory :=
  let row := readBytes mem src (width * 2)
  let uv := r.toUV422 row width
  let rowy := r.toY row width
  writeBytes mem dst (width * 4) (r.toABGR rowy uv.1 uv.2 width)

/-- The `for` loop of the task function of `UYVYToRGBA` and `YUY2ToRGBA` with
`n` rounds left; after each row `d->src` advances by `d->width * 2` and
`d->dst` by `d->width * 4` (`size_t` products). -/
def taskLoop (bits : Nat) (r : RowRoutines) : Nat → Memory → Nat → Nat → Nat → Memory
  | 0, mem, _, _, _ => mem
  | n + 1, mem, src, dst, width =>
    taskLoop bits r n (convertRow r mem src dst width)
      (src + usize bits (width * 2)) (dst + usize bits (width * 4)) width

/-- The task function run on the data of one task. -/
def runTask (bits : Nat) (r : RowRoutines) (mem : Memory) (d : ConvertTaskData) : Memory :=
  taskLoop bits r d.linesNum mem d.src d.dst d.width

/-- The memory after the tasks have been executed in the given order. -/
def runTasks (bits : Nat) (r : RowRoutines) (mem : Memory) (order : List ConvertTaskData) : Memory :=
  order.foldl (runTask bits r) mem

/-- Whether address `a` lies in the source rows of the task. -/
def ConvertTaskData.reads (d : ConvertTaskData) (a : Nat) : Prop :=
  d.src ≤ a ∧ a < d.src + d.linesNum * (d.width * 2)

/-- Whether address `a` lies in the destination rows of the task. -/
def ConvertTaskData.writes (d : ConvertTaskData) (a : Nat) : Prop :=
  d.dst ≤ a ∧ a < d.dst + d.linesNum * (d.width * 4)

/-- The source rows of every task end before the destination rows of any task
begin, or the other way round: no task stores into a byte that a task reads. -/
def sourceFixed (tasks : List ConvertTaskData) : Prop :=
  ∀ d ∈ tasks, ∀ e ∈ tasks,
    d.dst + d.linesNum * (d.width * 4) ≤ e.src ∨ e.src + e.linesNum * (e.width * 2) ≤ d.dst

/-- The byte that the conversion of the frame at `src` puts at address `a` of
the destination at `dst`: `a` lies in destination row `(a - dst) / (width * 4)`,
which is converted from the source row of the same index. -/
def converted (r : RowRoutines) (mem : Memory) (src dst width a : Nat) : Nat :=
  let row := readBytes mem (src + (a - dst) / (width * 4) * (width * 2)) (width * 2)
  (r.toABGR (r.toY row width) (r.toUV422 row width).1 (r.toUV422 row width).2 width).getD
    ((a - dst) % (width * 4)) 0

end ImageConverter

/-! ## V4l2Device.h, V4l2Device.cpp -/

/-- The macro `V4L2DEVICE_BUF_COUNT` (default of `V4l2Device.h`). -/
def V4L2DEVICE_BUF_COUNT : Nat := 4

/-- The `errno` value `EAGAIN` (Linux). -/
def EAGAIN : Int := 11

/-- The `errno` value `EINVAL` (Linux). -/
def EINVAL : Int := 22

/-- The struct `V4l2Device::Resolution`. -/
structure V4l2Device.Resolution where
  width : Nat
  height : Nat
  deriving DecidableEq, Repr

/-- The class `V4l2Device::VBuffer`: `buf` is the mapped address (`0` is `NULL`). -/
structure V4l2Device.VBuffer where
  buf : Nat
  len : Nat
  pixFmt : Nat
  deriving DecidableEq, Repr

/-- The constructor `VBuffer(): buf(NULL), len(0)`. -/
instance : Inhabited V4l2Device.VBuffer := ⟨⟨0, 0, 0⟩⟩

/-- The fields of `struct v4l2_format` that the sources read or write. -/
structure v4l2_format where
  type : Nat
  pixelformat : Nat
  width : Nat
  height : Nat
  deriving DecidableEq, Repr

/-- The data members of the class `V4l2Device`. -/
structure V4l2Device where
  mFd : Int
  mConnected : Bool
  mStreaming : Bool
  mAvailableResolutions : List V4l2Device.Resolution
  mForcedResolution : V4l2Device.Resolution
  mFormat : v4l2_format
  mBuf : List V4l2Device.VBuffer
  mPFdFd : Int
  deriving DecidableEq, Repr

namespace V4l2Device

/-- A request sent to the kernel on behalf of the device object. -/
inductive DevCall where
  | QBUF (index : Nat)
  | DQBUF
  | STREAMON
  | STREAMOFF
  | openDev
  | closeDev (fd : Int)
  | ENUM_FRAMESIZES (index : Nat)
  | S_FMT (width height : Nat)
  | REQBUFS (count : Nat)
  | QUERYBUF (index : Nat)
  | mmap (offset len : Nat)
  | munmap (addr len : Nat)
  deriving DecidableEq, Repr

/-- What the kernel answers to one round of the loop of `dequeueBuffer`:
the value of `poll`, the value of `ioctl(VIDIOC_DQBUF)`, `errno` after the
`ioctl` (`0` when it was left alone) and `bufInfo.index` after it. -/
structure DqAttempt where
  poll : Int
  ret : Int
  errno : Int
  index : Nat
  deriving DecidableEq, Repr

/-- The member `isConnected`. -/
def isConnected (d : V4l2Device) : Bool := decide (d.mFd ≥ 0)

/-- The member `isStreaming`. -/
def isStreaming (d : V4l2Device) : Bool := d.mStreaming

/-- The member `resolution`. -/
def resolution (d : V4l2Device) : Resolution :=
  { width := d.mFormat.width, height := d.mFormat.height }

/-- The member `queueBuffer(id)`; `ret` is what `ioctl(mFd, VIDIOC_QBUF, ..)`
returns. The result is the returned flag and the request issued. -/
def queueBuffer (_d : V4l2Device) (ret : Int) (id : Nat) : Bool × List DevCall :=
  if ret < 0 then (false, [DevCall.QBUF id]) else (true, [DevCall.QBUF id])

/-- The member `dequeueBuffer` in a build without `V4L2DEVICE_FPS_LIMIT`;
`usePoll` tells whether `V4L2DEVICE_USE_POLL` is defined. The list holds the
answers of the kernel to the successive rounds of the `do ... while` loop;
`none` means that the loop has not ended within these answers. -/
def dequeueBuffer (usePoll : Bool) : List DqAttempt → Option Int
  | [] => none
  | a :: rest =>
    if usePoll && decide (a.poll ≤ 0) then
      some (-1)
    else if decide (a.ret < 0) && (decide (a.errno = EINVAL) || decide (a.errno = EAGAIN)) then
      dequeueBuffer usePoll rest
    else if a.errno ≠ 0 then
      some (-1)
    else
      some (toInt32 a.index)

/-- The member `readLock`. The returned pointer `&mBuf[id]` is given as the
index `id`; the inner `none` is `NULL`, the outer `none` means that
`dequeueBuffer` is still waiting. -/
def readLock (_d : V4l2Device) (usePoll : Bool) (answers : List DqAttempt) : Option (Option Nat) :=
  match dequeueBuffer usePoll answers with
  | none => none
  | some id => if id < 0 then some none else some (some id.toNat)

/-- The object `mBuf[id]` a pointer returned by `readLock` refers to. -/
def frameAt (d : V4l2Device) (id : Nat) : VBuffer := d.mBuf.getD id default

/-- The loop of `unlock` from index `i` on, `n` iterations left; `target` is
`buf->buf`. -/
def unlockLoop (d : V4l2Device) (ret : Int) (target : Nat) : Nat → Nat → Bool × List DevCall
  | 0, _ => (false, [])
  | n + 1, i =>
    if (d.mBuf.getD i default).buf = target then
      queueBuffer d ret i
    else
      unlockLoop d ret target n (i + 1)

/-- The member `unlock(buf)`: `buf` is `none` for `NULL` and otherwise the
object pointed to; `ret` is what the kernel returns to the `VIDIOC_QBUF` request
if one is made. The result is the object afterwards, the returned flag and the
requests issued. -/
def unlock (d : V4l2Device) (ret : Int) (buf : Option VBuffer) : V4l2Device × Bool × List DevCall :=
  match buf with
  | none => (d, false, [])
  | some b =>
    let r := unlockLoop d ret b.buf V4L2DEVICE_BUF_COUNT 0
    (d, r.1, r.2)

/-- The round ends in the `poll` timeout (`errno = ETIME; return -1`). -/
def DqAttempt.timedOut (usePoll : Bool) (a : DqAttempt) : Bool :=
  usePoll && decide (a.poll ≤ 0)

/-- The round is repeated: `VIDIOC_DQBUF` failed with `EINVAL` or `EAGAIN`. -/
def DqAttempt.again (usePoll : Bool) (a : DqAttempt) : Bool :=
  !a.timedOut usePoll && (decide (a.ret < 0) && (decide (a.errno = EINVAL) || decide (a.errno = EAGAIN)))

/-- The round leaves the loop with `errno` equal to 0: a buffer was dequeued. -/
def DqAttempt.dequeued (usePoll : Bool) (a : DqAttempt) : Bool :=
  !a.timedOut usePoll && !a.again usePoll && decide (a.errno = 0)

end V4l2Device

/-! ## Constants of the Android headers used by Camera.cpp -/

/-- The status `NO_ERROR` of `utils/Errors.h`. -/
def NO_ERROR : Int := 0

/-- The status `BAD_VALUE` of `utils/Errors.h` (`-EINVAL`). -/
def BAD_VALUE : Int := -22

/-- The status `NO_INIT` of `utils/Errors.h` (`-ENODEV`). -/
def NO_INIT : Int := -19

/-- The status `NOT_ENOUGH_DATA` of `utils/Errors.h` (`-ENODATA`). -/
def NOT_ENOUGH_DATA : Int := -61

/-- The status `TIMED_OUT` of `utils/Errors.h` (`-ETIMEDOUT`). -/
def TIMED_OUT : Int := -110

/-- The stream type `CAMERA3_STREAM_OUTPUT`. -/
def CAMERA3_STREAM_OUTPUT : Int := 0

/-- The stream type `CAMERA3_STREAM_INPUT`. -/
def CAMERA3_STREAM_INPUT : Int := 1

/-- The stream type `CAMERA3_STREAM_BIDIRECTIONAL`. -/
def CAMERA3_STREAM_BIDIRECTIONAL : Int := 2

/-- The pixel format `HAL_PIXEL_FORMAT_RGBA_8888`. -/
def HAL_PIXEL_FORMAT_RGBA_8888 : Int := 1

/-- The pixel format `HAL_PIXEL_FORMAT_BLOB`. -/
def HAL_PIXEL_FORMAT_BLOB : Int := 33

/-- The pixel format `HAL_PIXEL_FORMAT_IMPLEMENTATION_DEFINED`. -/
def HAL_PIXEL_FORMAT_IMPLEMENTATION_DEFINED : Int := 34

/-- The usage flag `GRALLOC_USAGE_SW_READ_OFTEN`. -/
def GRALLOC_USAGE_SW_READ_OFTEN : Nat := 0x3

/-- The usage flag `GRALLOC_USAGE_SW_WRITE_OFTEN`. -/
def GRALLOC_USAGE_SW_WRITE_OFTEN : Nat := 0x30

/-- The usage mask `GRALLOC_USAGE_HW_CAMERA_ZSL`. -/
def GRALLOC_USAGE_HW_CAMERA_ZSL : Nat := 0x60000

/-- The buffer status `CAMERA3_BUFFER_STATUS_OK`. -/
def CAMERA3_BUFFER_STATUS_OK : Int := 0

/-- The marker `CAMERA3_JPEG_BLOB_ID`. -/
def CAMERA3_JPEG_BLOB_ID : Nat := 0x00FF

/-- The size `sizeof(camera3_jpeg_blob)`. -/
def sizeofJpegBlob : Nat := 8

/-- The fourcc `V4L2_PIX_FMT_UYVY`. -/
def V4L2_PIX_FMT_UYVY : Nat := 0x59565955

/-- The metadata tag `ANDROID_JPEG_QUALITY`. -/
def ANDROID_JPEG_QUALITY : Nat := 0x70004

/-- The metadata tag `ANDROID_SENSOR_TIMESTAMP`. -/
def ANDROID_SENSOR_TIMESTAMP : Nat := 0xE0010

/-- The metadata tag `ANDROID_SYNC_FRAME_NUMBER`. -/
def ANDROID_SYNC_FRAME_NUMBER : Nat := 0x170000

/-! ## CameraMetadata -/

/-- The content of a `camera_metadata_t` block: tagged entries in order. The
payload of an entry is kept as a list of integers. -/
abbrev camera_metadata_t := List (Nat × List Int)

/-- Modelled from the spec: the settings snapshot is "an opaque, ordered
key→value metadata blob". The class `CameraMetadata` of the Android framework
is not among the sources; it is taken as the ordered list of its entries, an
unallocated block and a block without entries both being the empty list. -/
structure CameraMetadata where
  mBuffer : camera_metadata_t
  deriving DecidableEq, Repr

namespace CameraMetadata

/-- The member `isEmpty`. -/
def isEmpty (m : CameraMetadata) : Bool := m.mBuffer.isEmpty

/-- The first entry carrying `tag` in a block. -/
def findEntry (tag : Nat) : camera_metadata_t → Option (List Int)
  | [] => none
  | e :: es => if e.1 = tag then some e.2 else findEntry tag es

/-- The member `find(tag)`: the payload of the entry, if there is one. -/
def find (m : CameraMetadata) (tag : Nat) : Option (List Int) := findEntry tag m.mBuffer

/-- The member `exists(tag)`. -/
def existsEntry (m : CameraMetadata) (tag : Nat) : Bool := (m.find tag).isSome

/-- Replace the payload of the entry carrying `tag`, or append a new entry. -/
def updateEntry (tag : Nat) (data : List Int) : camera_metadata_t → camera_metadata_t
  | [] => [(tag, data)]
  | e :: es => if e.1 = tag then (tag, data) :: es else e :: updateEntry tag data es

/-- The member `update(tag, data, count)`. -/
def update (m : CameraMetadata) (tag : Nat) (data : List Int) : CameraMetadata :=
  { mBuffer := updateEntry tag data m.mBuffer }

end CameraMetadata

/-! ## Camera.h, Camera.cpp -/

/-- The fields of `camera3_stream_t`; `width` and `height` are `uint32_t`
fields and hold values below `2 ^ 32`. -/
structure camera3_stream where
  stream_type : Int
  width : Nat
  height : Nat
  format : Int
  usage : Nat
  max_buffers : Nat
  deriving DecidableEq, Repr

/-- The fields of `camera3_stream_buffer`; `stream` is the stream pointed to,
`buffer` the buffer handle. -/
structure camera3_stream_buffer where
  stream : camera3_stream
  buffer : Nat
  status : Int
  acquire_fence : Int
  release_fence : Int
  deriving DecidableEq, Repr

instance : Inhabited camera3_stream_buffer := ⟨⟨⟨0, 0, 0, 0, 0, 0⟩, 0, 0, 0, 0⟩⟩

/-- The fields of `camera3_capture_request_t`; `settings` and `input_buffer`
are `none` for `NULL`, `num_output_buffers` is the length of `output_buffers`. -/
structure camera3_capture_request where
  frame_number : Nat
  settings : Option camera_metadata_t
  input_buffer : Option camera3_stream_buffer
  output_buffers : List camera3_stream_buffer
  deriving DecidableEq, Repr

/-- The data members of the class `Camera` that request processing uses. -/
structure Camera where
  mLastRequestSettings : CameraMetadata
  mJpegBufferSize : Nat
  deriving DecidableEq, Repr

namespace Camera

/-- A call that `configureStreams` makes on the device `mDev`. -/
inductive ConfigEvent where
  | setStreaming (enable : Bool)
  | setResolution (width height : Nat)
  deriving DecidableEq, Repr

/-- What the device answers during `configureStreams`. -/
structure ConfigEnv where
  streamOff : Bool
  setResolution : Nat → Nat → Bool
  streamOn : Bool

/-- The state of the stream loop of `configureStreams` when it ends: whether it
ran to its end, the streams as the loop left them, and `width`, `height`. -/
structure ConfigScan where
  ok : Bool
  streams : List camera3_stream
  width : Nat
  height : Nat
  deriving DecidableEq, Repr

/-- The `switch(newStream->stream_type)` of `configureStreams`. -/
def streamUsage (s : camera3_stream) : Nat :=
  if s.stream_type = CAMERA3_STREAM_OUTPUT then GRALLOC_USAGE_SW_WRITE_OFTEN
  else if s.stream_type = CAMERA3_STREAM_INPUT then GRALLOC_USAGE_SW_READ_OFTEN
  else if s.stream_type = CAMERA3_STREAM_BIDIRECTIONAL then
    GRALLOC_USAGE_SW_WRITE_OFTEN ||| GRALLOC_USAGE_SW_READ_OFTEN
  else s.usage

/-- The stream loop of `configureStreams`; `inStream` tells whether the pointer
`inStream` is set. -/
def configureLoop : List camera3_stream → Bool → Nat → Nat → ConfigScan
  | [], _, width, height => { ok := true, streams := [], width := width, height := height }
  | newStream :: rest, inStream, width, height =>
    let isInput := decide (newStream.stream_type = CAMERA3_STREAM_INPUT)
      || decide (newStream.stream_type = CAMERA3_STREAM_BIDIRECTIONAL)
    if isInput && inStream then
      { ok := false, streams := newStream :: rest, width := width, height := height }
    else
      let s1 : camera3_stream :=
        if newStream.format = HAL_PIXEL_FORMAT_IMPLEMENTATION_DEFINED then
          { newStream with format := HAL_PIXEL_FORMAT_RGBA_8888 }
        else newStream
      if s1.usage &&& GRALLOC_USAGE_HW_CAMERA_ZSL ≠ 0 then
        { ok := false, streams := s1 :: rest, width := width, height := height }
      else
        let s2 : camera3_stream := { s1 with usage := streamUsage s1, max_buffers := 1 }
        let bigger := decide (u32 (s2.width * s2.height) > u32 (width * height))
        let r := configureLoop rest (inStream || isInput)
          (if bigger then s2.width else width) (if bigger then s2.height else height)
        { ok := r.ok, streams := s2 :: r.streams, width := r.width, height := r.height }

/-- The result of `configureStreams`: the returned status, the streams as the
call left them and the calls made on the device. -/
structure ConfigOutcome where
  status : Int
  streams : List camera3_stream
  events : List ConfigEvent
  deriving DecidableEq, Repr

/-- The member `Camera::configureStreams`. -/
def configureStreams (env : ConfigEnv) (streamList : List camera3_stream) : ConfigOutcome :=
  let scan := configureLoop streamList false 0 0
  if !scan.ok then
    { status := BAD_VALUE, streams := scan.streams, events := [] }
  else if !env.streamOff then
    { status := NO_INIT, streams := scan.streams, events := [ConfigEvent.setStreaming false] }
  else if !env.setResolution scan.width scan.height then
    { status := NO_INIT, streams := scan.streams,
      events := [ConfigEvent.setStreaming false, ConfigEvent.setResolution scan.width scan.height] }
  else if !env.streamOn then
    { status := NO_INIT, streams := scan.streams,
      events := [ConfigEvent.setStreaming false, ConfigEvent.setResolution scan.width scan.height,
        ConfigEvent.setStreaming true] }
  else
    { status := NO_ERROR, streams := scan.streams,
      events := [ConfigEvent.setStreaming false, ConfigEvent.setResolution scan.width scan.height,
        ConfigEvent.setStreaming true] }

/-- A call that `processCaptureRequest` makes on a collaborator, or a write
that it makes itself into a mapped output buffer. `toRGBA` is the call of
`UYVYToRGBA` or `YUY2ToRGBA`: the calling thread stores nothing, it hands the
conversion to the worker pool and waits (`splitRunWait`); when the tasks
store is set out in `Camera.threadSteps` and `Camera.processStep`. `memcpy`,
`toJPEG` and `jpegBlob` are stores of the calling thread. -/
inductive Event where
  | notifyShutter (frame_number : Nat) (timestamp : Nat)
  | readLock (frame : Option V4l2Device.VBuffer)
  | fenceWait (i : Nat) (acquire_fence : Int)
  | mapperLock (i : Nat) (buffer : Nat)
  | mapperUnlock (i : Nat) (buffer : Nat)
  | toRGBA (uyvy : Bool) (src dst width height : Nat)
  | memcpy (dst src n : Nat)
  | toJPEG (uyvy : Bool) (src dst width height dstLen quality : Nat) (stores : List ImageConverter.Store)
  | jpegBlob (addr jpeg_blob_id jpeg_size : Nat)
  | unlock (frame : V4l2Device.VBuffer)
  | processCaptureResult (frame_number : Nat) (result : camera_metadata_t)
      (buffers : List camera3_stream_buffer)
  deriving DecidableEq, Repr

/-- What the collaborators answer during one `processCaptureRequest`:
`mDev->resolution()`, `systemTime()`, `mDev->readLock()`, for the output buffer
of index `i` the status of `acquireFence->wait(1000)`, the status of the
mapper's `lock` and the address it stores in `buf`, and the two JPEG encoders. -/
structure CaptureEnv where
  resolution : V4l2Device.Resolution
  timestamp : Int
  frame : Option V4l2Device.VBuffer
  fenceWait : Nat → Int
  lockStatus : Nat → Int
  lockAddr : Nat → Nat
  encodeYUY2 : ImageConverter.Codec
  encodeUYVY : ImageConverter.Codec

/-- The result of `processCaptureRequest`: the returned status, the object and
the request afterwards, and the calls and writes made, in order. -/
structure CaptureOutcome where
  status : Int
  camera : Camera
  request : camera3_capture_request
  events : List Event
  deriving DecidableEq, Repr

/-- The statement `do unlock(*request->output_buffers[i].buffer); while(i--);`
of the abort path. -/
def abortUnlock (request : camera3_capture_request) : Nat → List Event
  | 0 => [Event.mapperUnlock 0 (request.output_buffers.getD 0 default).buffer]
  | i + 1 =>
    Event.mapperUnlock (i + 1) (request.output_buffers.getD (i + 1) default).buffer
      :: abortUnlock request i

/-- The `switch(srcBuf.stream->format)` of the output loop for a mapped buffer
`buf`: the conversion call or the writes made, and the value of `rgbaBuffer`
afterwards. For the RGBA conversion the event is the call alone; the stores
are made by the worker threads that execute its tasks. -/
def convertOutput (bits : Nat) (c : Camera) (env : CaptureEnv) (cm : CameraMetadata)
    (frame : V4l2Device.VBuffer) (srcBuf : camera3_stream_buffer) (buf rgbaBuffer : Nat) :
    List Event × Nat :=
  let res := env.resolution
  if srcBuf.stream.format = HAL_PIXEL_FORMAT_RGBA_8888 then
    if rgbaBuffer = 0 then
      ([Event.toRGBA (decide (frame.pixFmt = V4L2_PIX_FMT_UYVY)) frame.buf buf res.width res.height], buf)
    else
      ([Event.memcpy buf rgbaBuffer (u32 (u32 (srcBuf.stream.width * srcBuf.stream.height) * 4))],
        rgbaBuffer)
  else if srcBuf.stream.format = HAL_PIXEL_FORMAT_BLOB then
    let maxImageSize := usizeSub bits c.mJpegBufferSize sizeofJpegBlob
    let jpegQuality : Nat :=
      if cm.existsEntry ANDROID_JPEG_QUALITY then
        ((((cm.find ANDROID_JPEG_QUALITY).getD []).headD 0) % 256).toNat
      else 95
    let uyvy := decide (frame.pixFmt = V4L2_PIX_FMT_UYVY)
    let r :=
      if uyvy then
        ImageConverter.UYVYToJPEG env.encodeUYVY frame.buf buf res.width res.height maxImageSize jpegQuality
      else
        ImageConverter.YUY2ToJPEG env.encodeYUY2 frame.buf buf res.width res.height maxImageSize jpegQuality
    let bufEnd := r.1
    let encode := Event.toJPEG uyvy frame.buf buf res.width res.height maxImageSize jpegQuality r.2
    if bufEnd ≠ buf then
      ([encode, Event.jpegBlob (buf + maxImageSize) CAMERA3_JPEG_BLOB_ID (u32 (bufEnd - buf))], rgbaBuffer)
    else
      ([encode], rgbaBuffer)
  else
    ([], rgbaBuffer)

/-- The first loop over `request->output_buffers`, from index `i` on: `true`
when it ran to its end, `false` when it returned `NO_INIT`, with the calls and
writes made. -/
def outputLoop (bits : Nat) (c : Camera) (env : CaptureEnv) (cm : CameraMetadata)
    (frame : V4l2Device.VBuffer) (request : camera3_capture_request) :
    List camera3_stream_buffer → Nat → Nat → Bool × List Event
  | [], _, _ => (true, [])
  | srcBuf :: rest, i, rgbaBuffer =>
    let e := env.fenceWait i
    if e = NO_ERROR then
      let e := env.lockStatus i
      let buf := env.lockAddr i
      if e ≠ NO_ERROR then
        (false, Event.fenceWait i srcBuf.acquire_fence :: Event.mapperLock i srcBuf.buffer
          :: abortUnlock request i)
      else
        let w := convertOutput bits c env cm frame srcBuf buf rgbaBuffer
        let r := outputLoop bits c env cm frame request rest (i + 1) w.2
        (r.1, Event.fenceWait i srcBuf.acquire_fence :: Event.mapperLock i srcBuf.buffer :: (w.1 ++ r.2))
    else
      (false, Event.fenceWait i srcBuf.acquire_fence :: abortUnlock request i)

/-- The second loop over `request->output_buffers`, from index `i` on: the
unmapping calls and the entries pushed to `buffers`. -/
def releaseLoop : List camera3_stream_buffer → Nat → List Event × List camera3_stream_buffer
  | [], _ => ([], [])
  | srcBuf :: rest, i =>
    let r := releaseLoop rest (i + 1)
    (Event.mapperUnlock i srcBuf.buffer :: r.1,
      { srcBuf with acquire_fence := -1, release_fence := -1, status := CAMERA3_BUFFER_STATUS_OK } :: r.2)

/-- The value of `cm` after `if(!request->settings) cm.acquire(mLastRequestSettings);
else cm = request->settings;`. -/
def requestSettings (c : Camera) (request : camera3_capture_request) : CameraMetadata :=
  match request.settings with
  | none => c.mLastRequestSettings
  | some settings => { mBuffer := settings }

/-- The object after that statement: `acquire` moves the block out of
`mLastRequestSettings` and leaves the member empty. -/
def afterAcquire (c : Camera) (request : camera3_capture_request) : Camera :=
  match request.settings with
  | none => { c with mLastRequestSettings := { mBuffer := [] } }
  | some _ => c

/-- The request after `request->input_buffer->release_fence = -1`. -/
def ignoreInput (request : camera3_capture_request) : camera3_capture_request :=
  { request with input_buffer := request.input_buffer.map (fun b => { b with release_fence := -1 }) }

/-- The block `cm` after the two `cm.update` calls that stamp the result. -/
def stamp (cm : CameraMetadata) (timestamp : Int) (frame_number : Nat) : CameraMetadata :=
  (cm.update ANDROID_SENSOR_TIMESTAMP [timestamp]).update ANDROID_SYNC_FRAME_NUMBER [(frame_number : Int)]

/-- The member `Camera::processCaptureRequest`; `bits` is the width of `size_t`. -/
def processCaptureRequest (bits : Nat) (c : Camera) (env : CaptureEnv)
    (request : camera3_capture_request) : CaptureOutcome :=
  let timestamp := env.timestamp
  if request.settings.isNone && c.mLastRequestSettings.isEmpty then
    { status := BAD_VALUE, camera := c, request := request, events := [] }
  else
    let request1 := ignoreInput request
    let cm := requestSettings c request
    let c1 := afterAcquire c request
    let shutter := Event.notifyShutter request.frame_number (toUInt64 timestamp)
    match env.frame with
    | none =>
      { status := NOT_ENOUGH_DATA, camera := c1, request := request1,
        events := [shutter, Event.readLock none] }
    | some frame =>
      let out := outputLoop bits c1 env cm frame request1 request1.output_buffers 0 0
      if !out.1 then
        { status := NO_INIT, camera := c1, request := request1,
          events := shutter :: Event.readLock (some frame) :: out.2 }
      else
        let rel := releaseLoop request1.output_buffers 0
        let cm2 := stamp cm timestamp request.frame_number
        { status := NO_ERROR,
          camera := { c1 with mLastRequestSettings := cm2 },
          request := request1,
          events := shutter :: Event.readLock (some frame) :: (out.2 ++ rel.1 ++
            [Event.unlock frame, Event.processCaptureResult request.frame_number cm2.mBuffer rel.2]) }

/-- Whether the event fills a mapped output buffer: a write of the calling
thread, or the call of the RGBA conversion, whose stores the worker threads
make. -/
def Event.isWrite : Event → Bool
  | Event.toRGBA _ _ _ _ _ => true
  | Event.memcpy _ _ _ => true
  | Event.toJPEG _ _ _ _ _ _ _ _ => true
  | Event.jpegBlob _ _ _ => true
  | _ => false

/-- Whether the event belongs to the handling of one output buffer in the
first loop: the fence wait, the mapping, the conversion call or a write. -/
def Event.isBufferStep : Event → Bool
  | Event.fenceWait _ _ => true
  | Event.mapperLock _ _ => true
  | e => e.isWrite

/-- Whether the event is an unmapping of an output buffer. -/
def Event.isUnmap : Event → Bool
  | Event.mapperUnlock _ _ => true
  | _ => false

/-- Whether the event is the result callback. -/
def Event.isResult : Event → Bool
  | Event.processCaptureResult _ _ _ => true
  | _ => false

/-- The entry pushed to `buffers` for an output buffer: fences reset to -1,
status `CAMERA3_BUFFER_STATUS_OK`. -/
def resultBuffer (srcBuf : camera3_stream_buffer) : camera3_stream_buffer :=
  { srcBuf with acquire_fence := -1, release_fence := -1, status := CAMERA3_BUFFER_STATUS_OK }

end Camera

/-! ## V4l2Device.cpp: construction, enumeration, connection -/

/-- The macro `V4L2DEVICE_PIXEL_FORMAT` (default of `V4l2Device.h`). -/
def V4L2DEVICE_PIXEL_FORMAT : Nat := V4L2_PIX_FMT_UYVY

/-- The buffer type `V4L2_BUF_TYPE_VIDEO_CAPTURE`. -/
def V4L2_BUF_TYPE_VIDEO_CAPTURE : Nat := 1

/-- The pointer `MAP_FAILED`, `(void *) -1`, on a target with pointers of `bits` bits. -/
def MAP_FAILED (bits : Nat) : Nat := 2 ^ bits - 1

namespace V4l2Device

/-- What the kernel answers to a plain `ioctl`: its return value and `errno`
afterwards (`0` when the call left it alone). -/
structure IoctlAnswer where
  ret : Int
  errno : Int
  deriving DecidableEq, Repr

/-- The answer to `VIDIOC_S_FMT`, with the format structure as the driver
leaves it. -/
structure SFmtAnswer where
  ret : Int
  errno : Int
  format : v4l2_format
  deriving DecidableEq, Repr

/-- The answer to `VIDIOC_REQBUFS`, with `bufRequest.count` afterwards. -/
structure ReqBufsAnswer where
  ret : Int
  errno : Int
  count : Nat
  deriving DecidableEq, Repr

/-- The answer to `VIDIOC_QUERYBUF`, with `bufInfo.m.offset` and
`bufInfo.length` afterwards (for a call that did not return 0, `offset` is the
value that the variable `offset` happens to hold). -/
structure QueryBufAnswer where
  ret : Int
  errno : Int
  offset : Nat
  length : Nat
  deriving DecidableEq, Repr

/-- What the kernel answers during one call of a member function: the value of
`open`, the discrete frame sizes that `VIDIOC_ENUM_FRAMESIZES` reports for the
indices 0, 1, ... before it fails, the answers to `VIDIOC_S_FMT` for a width
and height, to `VIDIOC_REQBUFS` for a count, to `VIDIOC_QUERYBUF` and
`VIDIOC_QBUF` for an index, the address returned by `mmap` for an offset and a
length, and the answers to `VIDIOC_STREAMON` and `VIDIOC_STREAMOFF`. -/
structure Kernel where
  openFd : Int
  frameSizes : List Resolution
  sFmt : Nat → Nat → SFmtAnswer
  reqBufs : Nat → ReqBufsAnswer
  queryBuf : Nat → QueryBufAnswer
  mmap : Nat → Nat → Nat
  qbuf : Nat → Int
  streamOn : IoctlAnswer
  streamOff : IoctlAnswer

/-- The outcome of a member function: the returned value, the object
afterwards and the requests sent to the kernel, in order. -/
structure Out (α : Type) where
  val : α
  dev : V4l2Device
  calls : List DevCall
  deriving DecidableEq, Repr

/-- The body of the `while` loop of `availableResolutions` for the sizes that
the kernel still reports, `index` being `frmSize.index`: the sizes added to
`formats` and the requests sent, the last of which fails. -/
def enumLoop : List Resolution → Nat → List Resolution × List DevCall
  | [], index => ([], [DevCall.ENUM_FRAMESIZES index])
  | size :: rest, index =>
    let r := enumLoop rest (index + 1)
    if size.width > 1920 || size.height > 1080 then
      (r.1, DevCall.ENUM_FRAMESIZES index :: r.2)
    else
      ({ width := size.width, height := size.height } :: r.1, DevCall.ENUM_FRAMESIZES index :: r.2)

/-- The member `availableResolutions`; the value is the vector returned. -/
def availableResolutions (d : V4l2Device) (k : Kernel) : Out (List Resolution) :=
  if !d.mAvailableResolutions.isEmpty then
    { val := d.mAvailableResolutions, dev := d, calls := [] }
  else if d.mForcedResolution.width > 0 && d.mForcedResolution.height > 0 then
    { val := d.mAvailableResolutions ++ [d.mForcedResolution],
      dev := { d with mAvailableResolutions := d.mAvailableResolutions ++ [d.mForcedResolution] },
      calls := [] }
  else
    let fdNeedsClose := decide (d.mFd < 0)
    let fd := if d.mFd ≥ 0 then d.mFd else k.openFd
    let opened := if fdNeedsClose then [DevCall.openDev] else []
    if fd < 0 then
      { val := d.mAvailableResolutions, dev := d, calls := opened }
    else
      let r := enumLoop k.frameSizes 0
      let closed := if fdNeedsClose then [DevCall.closeDev fd] else []
      { val := r.1, dev := { d with mAvailableResolutions := r.1 }, calls := opened ++ r.2 ++ closed }

/-- The loop of `sensorResolution` over the remaining formats. -/
def sensorLoop : List Resolution → Resolution → Resolution
  | [], max => max
  | f :: rest, max =>
    sensorLoop rest
      { width := if f.width > max.width then f.width else max.width,
        height := if f.height > max.height then f.height else max.height }

/-- The member `sensorResolution`. -/
def sensorResolution (d : V4l2Device) (k : Kernel) : Out Resolution :=
  let formats := availableResolutions d k
  { val := sensorLoop formats.val { width := 0, height := 0 }, dev := formats.dev,
    calls := formats.calls }

/-- The member `VBuffer::unmap` applied to `mBuf[i]`. -/
def unmapAt (bufs : List VBuffer) (i : Nat) : List VBuffer × List DevCall :=
  let b := bufs.getD i default
  if b.buf ≠ 0 then
    (bufs.set i { b with buf := 0, len := 0 }, [DevCall.munmap b.buf b.len])
  else
    (bufs, [])

/-- The loop `for(i = 0; i < V4L2DEVICE_BUF_COUNT; ++i) mBuf[i].unmap()` from
index `i` on, `n` rounds left. -/
def unmapAll (bufs : List VBuffer) : Nat → Nat → List VBuffer × List DevCall
  | 0, _ => (bufs, [])
  | n + 1, i =>
    let r := unmapAt bufs i
    let r2 := unmapAll r.1 n (i + 1)
    (r2.1, r.2 ++ r2.2)

/-- The loop `while(i--) mBuf[i].unmap()` entered with `i = n`: the buffers
`n - 1`, ..., `0` are unmapped. The loop `do mBuf[i].unmap(); while(i--)`
entered with `i` is `unmapDown bufs (i + 1)`. -/
def unmapDown (bufs : List VBuffer) : Nat → List VBuffer × List DevCall
  | 0 => (bufs, [])
  | n + 1 =>
    let r := unmapAt bufs n
    let r2 := unmapDown r.1 n
    (r2.1, r.2 ++ r2.2)

/-- The member `iocStreamOn`. -/
def iocStreamOn (d : V4l2Device) (k : Kernel) : Out Bool :=
  { val := decide (k.streamOn.errno = 0),
    dev := if k.streamOn.ret = 0 then { d with mStreaming := true } else d,
    calls := [DevCall.STREAMON] }

/-- The member `iocStreamOff`. -/
def iocStreamOff (d : V4l2Device) (k : Kernel) : Out Bool :=
  { val := decide (k.streamOff.errno = 0),
    dev := if k.streamOff.ret = 0 then { d with mStreaming := false } else d,
    calls := [DevCall.STREAMOFF] }

/-- The member `iocSFmt(width, height)`. -/
def iocSFmt (d : V4l2Device) (k : Kernel) (width height : Nat) : Out Bool :=
  { val := decide ((k.sFmt width height).errno = 0),
    dev := if (k.sFmt width height).ret = 0 then { d with mFormat := (k.sFmt width height).format } else d,
    calls := [DevCall.S_FMT width height] }

/-- The member `setStreaming(enable)`; `openOnce` tells whether
`V4L2DEVICE_OPEN_ONCE` is defined. -/
def setStreaming (openOnce : Bool) (d : V4l2Device) (k : Kernel) (enable : Bool) : Out Bool :=
  if enable = d.mStreaming then
    { val := true, dev := d, calls := [] }
  else if !d.isConnected then
    { val := !enable, dev := d, calls := [] }
  else if enable then
    let r := iocStreamOn d k
    if !r.val then
      { val := false, dev := r.dev, calls := r.calls }
    else
      { val := true, dev := { r.dev with mStreaming := enable }, calls := r.calls }
  else if openOnce then
    { val := true, dev := d, calls := [] }
  else
    let r := iocStreamOff d k
    if !r.val then
      { val := false, dev := r.dev, calls := r.calls }
    else
      { val := true, dev := { r.dev with mStreaming := enable }, calls := r.calls }

/-- The member `cleanup`. -/
def cleanup (d : V4l2Device) : Out Unit :=
  let r := unmapAll d.mBuf V4L2DEVICE_BUF_COUNT 0
  { val := (),
    dev := { d with mBuf := r.1, mFd := -1, mPFdFd := -1, mConnected := false },
    calls := r.2 ++ [DevCall.closeDev d.mFd] }

/-- The member `disconnect`. -/
def disconnect (openOnce : Bool) (d : V4l2Device) (k : Kernel) : Out Bool :=
  if !d.isConnected then
    { val := false, dev := d, calls := [] }
  else
    let s := setStreaming openOnce d k false
    if openOnce then
      { val := true, dev := s.dev, calls := s.calls }
    else
      let c := cleanup s.dev
      { val := true, dev := c.dev, calls := s.calls ++ c.calls }

/-- The `for` loop of `setResolutionAndAllocateBuffers` from index `i` on, `n`
rounds left: whether it ran to its end, the ring buffers and the requests. A
failed `mmap` leaves `MAP_FAILED` in `buf`. When the kernel grants more than
`V4L2DEVICE_BUF_COUNT` buffers the source stores behind the end of `mBuf`;
here such a store has no effect. -/
def allocLoop (bits : Nat) (d : V4l2Device) (k : Kernel) (bufs : List VBuffer) :
    Nat → Nat → Bool × List VBuffer × List DevCall
  | 0, _ => (true, bufs, [])
  | n + 1, i =>
    let q := k.queryBuf i
    if q.errno ≠ 0 then
      (false, bufs, [DevCall.QUERYBUF i])
    else
      let b := bufs.getD i default
      let len := if q.ret = 0 then q.length else 0
      let addr := k.mmap q.offset len
      if addr = MAP_FAILED bits then
        let u := unmapDown (bufs.set i { b with buf := addr }) i
        (false, u.1, [DevCall.QUERYBUF i, DevCall.mmap q.offset len] ++ u.2)
      else
        let mapped := bufs.set i { buf := addr, len := len, pixFmt := V4L2DEVICE_PIXEL_FORMAT }
        let qb := queueBuffer d (k.qbuf i) i
        if !qb.1 then
          let u := unmapDown mapped (i + 1)
          (false, u.1, [DevCall.QUERYBUF i, DevCall.mmap q.offset len] ++ qb.2 ++ u.2)
        else
          let r := allocLoop bits d k mapped n (i + 1)
          (r.1, r.2.1, [DevCall.QUERYBUF i, DevCall.mmap q.offset len] ++ qb.2 ++ r.2.2)

/-- The member `setResolutionAndAllocateBuffers(width, height)`. -/
def setResolutionAndAllocateBuffers (bits : Nat) (d : V4l2Device) (k : Kernel) (width height : Nat) :
    Out Bool :=
  let u := unmapAll d.mBuf V4L2DEVICE_BUF_COUNT 0
  let d1 := { d with mBuf := u.1 }
  let f := iocSFmt d1 k width height
  if !f.val then
    { val := false, dev := f.dev, calls := u.2 ++ f.calls }
  else
    let rq := k.reqBufs V4L2DEVICE_BUF_COUNT
    let bufCount := if rq.ret = 0 then rq.count else V4L2DEVICE_BUF_COUNT
    if rq.errno ≠ 0 then
      { val := false, dev := f.dev, calls := u.2 ++ f.calls ++ [DevCall.REQBUFS V4L2DEVICE_BUF_COUNT] }
    else
      let a := allocLoop bits f.dev k f.dev.mBuf bufCount 0
      { val := a.1, dev := { f.dev with mBuf := a.2.1 },
        calls := u.2 ++ f.calls ++ [DevCall.REQBUFS V4L2DEVICE_BUF_COUNT] ++ a.2.2 }

/-- The member `connect`. -/
def connect (bits : Nat) (d : V4l2Device) (k : Kernel) : Out Bool :=
  if d.isConnected then
    { val := false, dev := d, calls := [] }
  else
    let d1 := { d with mFd := k.openFd }
    if d1.mFd < 0 then
      { val := false, dev := d1, calls := [DevCall.openDev] }
    else if d1.mFormat.type ≠ 0 then
      let s := setResolutionAndAllocateBuffers bits d1 k d1.mFormat.width d1.mFormat.height
      if !s.val then
        { val := false, dev := { s.dev with mFd := -1 },
          calls := [DevCall.openDev] ++ s.calls ++ [DevCall.closeDev s.dev.mFd] }
      else
        { val := true, dev := { s.dev with mPFdFd := s.dev.mFd, mConnected := true },
          calls := [DevCall.openDev] ++ s.calls }
    else
      let resolutions := availableResolutions d1 k
      match resolutions.val with
      | [] =>
        { val := false, dev := { resolutions.dev with mFd := -1 },
          calls := [DevCall.openDev] ++ resolutions.calls ++ [DevCall.closeDev resolutions.dev.mFd] }
      | defaultRes :: _ =>
        let s := setResolutionAndAllocateBuffers bits resolutions.dev k defaultRes.width defaultRes.height
        if !s.val then
          { val := false, dev := { s.dev with mFd := -1 },
            calls := [DevCall.openDev] ++ resolutions.calls ++ s.calls ++ [DevCall.closeDev s.dev.mFd] }
        else
          { val := true, dev := { s.dev with mPFdFd := s.dev.mFd, mConnected := true },
            calls := [DevCall.openDev] ++ resolutions.calls ++ s.calls }

/-- The member `setResolution(width, height)`. -/
def setResolution (openOnce : Bool) (bits : Nat) (d : V4l2Device) (k : Kernel) (width height : Nat) :
    Out Bool :=
  if d.mFormat.width = u32 width && d.mFormat.height = u32 height then
    { val := true, dev := d, calls := [] }
  else if d.isConnected then
    if openOnce then
      { val := true, dev := d, calls := [] }
    else
      let dc := disconnect openOnce d k
      let d1 := { dc.dev with
        mFormat := { type := V4L2_BUF_TYPE_VIDEO_CAPTURE, pixelformat := V4L2DEVICE_PIXEL_FORMAT,
                     width := u32 width, height := u32 height } }
      let c := connect bits d1 k
      { val := true, dev := c.dev, calls := dc.calls ++ c.calls }
  else
    { val := true,
      dev := { d with
        mFormat := { type := V4L2_BUF_TYPE_VIDEO_CAPTURE, pixelformat := V4L2DEVICE_PIXEL_FORMAT,
                     width := u32 width, height := u32 height } },
      calls := [] }

/-- The C library function `isspace` in the "C" locale. -/
def isspace (c : Char) : Bool := c.toNat = 32 || (decide (9 ≤ c.toNat) && decide (c.toNat ≤ 13))

/-- The C library function `isdigit`. -/
def isdigit (c : Char) : Bool := decide (48 ≤ c.toNat) && decide (c.toNat ≤ 57)

/-- The digit loop of `strtoul` in base 10: the value of the leading digits. -/
def digitsValue : List Char → Nat → Nat
  | [], acc => acc
  | c :: cs, acc => if isdigit c then digitsValue cs (acc * 10 + (c.toNat - 48)) else acc

/-- The C library call `strtoul(s, NULL, 10)` for an `unsigned long` of `bits`
bits: white space is skipped, a sign is taken, the leading digits are
converted and the rest is ignored. The result is the returned value and
whether `errno` was set (to `ERANGE`, when the value does not fit); a string
without digits gives 0 and leaves `errno` alone. -/
def strtoul (bits : Nat) (s : List Char) : Nat × Bool :=
  let s1 := s.dropWhile isspace
  let neg := decide (s1.head? = some (Char.ofNat 45))
  let s2 := match s1 with
    | c :: t => if c = Char.ofNat 45 ∨ c = Char.ofNat 43 then t else s1
    | [] => []
  let v := digitsValue s2 0
  if v ≥ 2 ^ bits then (2 ^ bits - 1, true)
  else if neg then ((2 ^ bits - v) % 2 ^ bits, false)
  else (v, false)

/-- The parsing block of the constructor for a property value `resStr` that is
not empty. `strchr(resStr, 'x')` splits the value at its first `x`; without an
`x` the pointer `heightStr` is `NULL` and `strtoul(heightStr, NULL, 10)`
reads through a null pointer, for which the result is `none`. -/
def parseForced (bits : Nat) (resStr : List Char) : Option Resolution :=
  let widthStr := resStr.takeWhile (fun c => c ≠ Char.ofNat 120)
  match resStr.dropWhile (fun c => c ≠ Char.ofNat 120) with
  | [] => none
  | _ :: heightStr =>
    let w := strtoul bits widthStr
    let h := strtoul bits heightStr
    if w.2 || h.2 then some { width := 0, height := 0 }
    else some { width := u32 w.1, height := u32 h.1 }

/-- The object as the constructor sets it up before `connect` may run: no file
descriptor, not streaming, nothing cached, a zeroed format, unmapped ring
buffers (whose `pixFmt`, which the source leaves unassigned, is taken as 0),
and `forced` in `mForcedResolution`. -/
def initial (forced : Resolution) : V4l2Device :=
  { mFd := -1, mConnected := false, mStreaming := false, mAvailableResolutions := [],
    mForcedResolution := forced,
    mFormat := { type := 0, pixelformat := 0, width := 0, height := 0 },
    mBuf := List.replicate V4L2DEVICE_BUF_COUNT default, mPFdFd := -1 }

/-- The constructor `V4l2Device::V4l2Device(devNode)`. `resStr` is the value of
the property `ro.camera.v4l2device.resolution` (empty when it is not set) and
`uninit` the content of the member `mForcedResolution` before the constructor
body runs: no initialiser is given for it. The result is `none` when the
constructor does not return. -/
def ctor (openOnce : Bool) (bits : Nat) (k : Kernel) (uninit : Resolution) (resStr : List Char) :
    Option (Out Unit) :=
  let forced := if resStr.length > 0 then parseForced bits resStr else some uninit
  match forced with
  | none => none
  | some f =>
    if openOnce then
      let c := connect bits (initial f) k
      some { val := (), dev := c.dev, calls := c.calls }
    else
      some { val := (), dev := initial f, calls := [] }

/-- The decimal numeral of `n`, as `printf` writes it. -/
def decimal (n : Nat) : List Char := Nat.toDigits 10 n

/-- The calls `VIDIOC_S_FMT` among the requests: the sizes negotiated. -/
def negotiated : List DevCall → List (Nat × Nat)
  | [] => []
  | DevCall.S_FMT width height :: rest => (width, height) :: negotiated rest
  | _ :: rest => negotiated rest

end V4l2Device

/-! ## Workers.h, Workers.cpp

The pool is a transition system. A step is one critical section of a thread:
the members of `Workers` are only touched under `Workers::mMutex`, and
`Task::execute` and `Task::waitForCompletion` hold the mutex of the task, so
the sections are atomic with respect to each other. `Condition::wait` releases
the mutex and ends the section. Tasks are named by the address of the `Task`
object (a number). -/

namespace Workers

/-- Where a worker thread is in `Thread::threadLoop`: about to take
`workers->mMutex` at the top of the `for(;;)` loop, blocked in
`workers->mCond.wait` inside the `while` loop, about to call
`task->execute()` for the task it popped, or past the `break`. -/
inductive Pc where
  | top
  | waiting
  | execute (task : Nat)
  | exited
  deriving DecidableEq, Repr

/-- Where the caller of `Task::waitForCompletion` of a task is: not inside the
call, blocked in `mCond.wait`, blocked there with the signal of `execute`
delivered, or returned. -/
inductive Waiter where
  | idle
  | blocked
  | signalled
  | returned
  deriving DecidableEq, Repr

/-- The members `mRunning`, `mExitRequest` and `mTasks` of `Workers`; the
vector `mThreads` as the number of threads and the position of thread `i`; for
every task its member `mCompleted` and the position of the caller waiting for
it; and the tasks whose function `mFn(mData)` has been called, in order. -/
structure State where
  mRunning : Bool
  mExitRequest : Bool
  mTasks : List Nat
  threads : Nat
  pc : Nat → Pc
  mCompleted : Nat → Bool
  waiter : Nat → Waiter
  executed : List Nat

/-- The pool after the constructor `Workers()`, with tasks as the constructor
`Task(fn, data)` leaves them and nobody waiting. -/
def initial : State :=
  { mRunning := false, mExitRequest := false, mTasks := [], threads := 0,
    pc := fun _ => Pc.exited, mCompleted := fun _ => false, waiter := fun _ => Waiter.idle,
    executed := [] }

/-- The member `start`; `cpus` is `sysconf(_SC_NPROCESSORS_ONLN)`. Every thread
created starts at the top of its loop. -/
def start (cpus : Nat) (s : State) : State :=
  if s.mRunning then s
  else { s with threads := cpus, pc := fun _ => Pc.top, mRunning := true }

/-- The member `queueTask(task)`. The `mCond.signal()` lets a waiting thread go
on; a waiting thread may go on at any time in this model. -/
def queueTask (cpus : Nat) (s : State) (task : Nat) : State :=
  let s1 := if !s.mRunning then start cpus s else s
  { s1 with mTasks := s1.mTasks ++ [task] }

/-- The first part of the member `stop`: the test of `mRunning` and the block
that sets `mExitRequest` under the mutex and broadcasts. -/
def stopSignal (s : State) : State :=
  if !s.mRunning then s else { s with mExitRequest := true }

/-- The second part of the member `stop`: the `join` loop returns once every
thread has left `threadLoop`; then `mThreads` is cleared and the two flags are
reset. Before that the caller stays blocked in `join`. -/
def stopJoined (s : State) : State :=
  if s.mExitRequest && (List.range s.threads).all (fun i => decide (s.pc i = Pc.exited)) then
    { s with threads := 0, mRunning := false, mExitRequest := false }
  else s

/-- The member `Task::execute` of task `task`: under the mutex of the task,
`mFn(mData)` is called, `mCompleted` is set and `mCond.signal()` reaches the
caller blocked in `waitForCompletion`, if there is one. -/
def execute (s : State) (task : Nat) : State :=
  { s with
    executed := s.executed ++ [task],
    mCompleted := fun t => if t = task then true else s.mCompleted t,
    waiter := fun t =>
      if t = task then (if s.waiter t = Waiter.blocked then Waiter.signalled else s.waiter t)
      else s.waiter t }

/-- One step of thread `i` in `Thread::threadLoop`. From the top of the loop,
or when its `mCond.wait` returns, the thread holds `mMutex` and tests
`mTasks.empty() && !mExitRequest`: it waits, or leaves at `mExitRequest`, or
pops the first task. With a popped task it calls `task->execute()` and goes
back to the top. -/
def threadLoop (s : State) (i : Nat) : State :=
  if i < s.threads then
    match s.pc i with
    | Pc.exited => s
    | Pc.execute task =>
      let s1 := execute s task
      { s1 with pc := fun j => if j = i then Pc.top else s1.pc j }
    | _ =>
      if s.mTasks.isEmpty && !s.mExitRequest then
        { s with pc := fun j => if j = i then Pc.waiting else s.pc j }
      else if s.mExitRequest then
        { s with pc := fun j => if j = i then Pc.exited else s.pc j }
      else
        match s.mTasks with
        | [] => s
        | task :: rest =>
          { s with mTasks := rest, pc := fun j => if j = i then Pc.execute task else s.pc j }
  else s

/-- The member `Task::waitForCompletion` of task `task` up to its
`mCond.wait`: with `mCompleted` set the caller returns at once, otherwise it
blocks in `mCond.wait(mMutex)`. -/
def waitForCompletion (s : State) (task : Nat) : State :=
  if s.waiter task = Waiter.idle then
    { s with waiter := fun t =>
        if t = task then (if !s.mCompleted task then Waiter.blocked else Waiter.returned)
        else s.waiter t }
  else s

/-- The rest of `Task::waitForCompletion` after `mCond.wait` has returned
because of the signal: the flag is not tested again (`if`, not `while`), the
mutex is released and the call returns. -/
def wake (s : State) (task : Nat) : State :=
  if s.waiter task = Waiter.signalled then
    { s with waiter := fun t => if t = task then Waiter.returned else s.waiter t }
  else s

/-- The same when `mCond.wait` returns without a signal: `Condition::wait` is
`pthread_cond_wait`, for which POSIX allows spurious wake-ups. -/
def spuriousWake (s : State) (task : Nat) : State :=
  if s.waiter task = Waiter.blocked then
    { s with waiter := fun t => if t = task then Waiter.returned else s.waiter t }
  else s

/-- The steps of the threads that use the pool. -/
inductive Action where
  | queueTask (task : Nat)
  | stopSignal
  | stopJoined
  | thread (i : Nat)
  | waitForCompletion (task : Nat)
  | wake (task : Nat)
  | spuriousWake (task : Nat)
  deriving DecidableEq, Repr

/-- The state after one step. -/
def step (cpus : Nat) (s : State) : Action → State
  | Action.queueTask task => queueTask cpus s task
  | Action.stopSignal => stopSignal s
  | Action.stopJoined => stopJoined s
  | Action.thread i => threadLoop s i
  | Action.waitForCompletion task => waitForCompletion s task
  | Action.wake task => wake s task
  | Action.spuriousWake task => spuriousWake s task

/-- The state after a schedule, a sequence of steps. -/
def run (cpus : Nat) (s : State) (schedule : List Action) : State :=
  schedule.foldl (step cpus) s

end Workers

/-! ## Camera.cpp: the size of the JPEG buffer -/

/-- The macro `PAGE_SIZE` of the C library, 4096 on the targets of Android. -/
def PAGE_SIZE : Nat := 4096

/-- The two statements of `staticCharacteristics` that compute
`mJpegBufferSize` from `sensorRes`. The product is computed in `unsigned`, the
sums in `size_t`. `maskBits` is the width of the type of `PAGE_SIZE - 1u`,
whose complement is the mask: 32 where `PAGE_SIZE` is an `int` constant,
`bits` where it is an `unsigned long`. -/
def Camera.jpegBufferSize (bits maskBits : Nat) (sensorRes : V4l2Device.Resolution) : Nat :=
  let first := usize bits (u32 (u32 (sensorRes.width * sensorRes.height) * 9) + sizeofJpegBlob)
  usize bits (first + PAGE_SIZE - 1) &&& (2 ^ maskBits - 1 - (PAGE_SIZE - 1))

/-! ## Yuv422UyvyToJpegEncoder.cpp

The `int` parameters and variables of `deinterleave` hold values that are not
negative here and are naturals; an `int` expression whose value does not fit
`int` has no defined result, and the functions return `none` for it. The
source image and the three row arrays are separate objects: a byte of `yuv`
is named by its offset, a byte of a row array by its index. -/

namespace Yuv422UyvyToJpegEncoder

/-- The arrays `yRows`, `uRows` and `vRows`. -/
structure Planes where
  yRows : Nat → Nat
  uRows : Nat → Nat
  vRows : Nat → Nat

/-- Whether a value fits `int`. -/
def intFits (n : Nat) : Bool := decide (n < 2 ^ 31)

/-- The array after the assignment `rows[index] = value`. -/
def store (rows : Nat → Nat) (index value : Nat) : Nat → Nat :=
  fun j => if j = index then value else rows j

/-- The inner loop of `deinterleave` for the row `row`, with `n` rounds left;
`i` is the loop variable and `yuvSeg` the offset of the pointer `yuvSeg`. -/
def pairLoop (yuv : Nat → Nat) (row width : Nat) : Nat → Nat → Nat → Planes → Option Planes
  | 0, _, _, p => some p
  | n + 1, i, yuvSeg, p =>
    let indexY := row * width + (i <<< 1)
    let indexU := row * (width >>> 1) + i
    if intFits (indexY + 1) && intFits indexU then
      pairLoop yuv row width n (i + 1) (yuvSeg + 4)
        { yRows := store (store p.yRows indexY (yuv (yuvSeg + 1))) (indexY + 1) (yuv (yuvSeg + 3)),
          uRows := store p.uRows indexU (yuv yuvSeg),
          vRows := store p.vRows indexU (yuv (yuvSeg + 2)) }
    else none

/-- The outer loop of `deinterleave`, with `n` rounds left; `row` is the loop
variable and `stride` is `fStrides[0]`. -/
def rowLoop (stride : Nat) (yuv : Nat → Nat) (rowIndex width : Nat) : Nat → Nat → Planes → Option Planes
  | 0, _, p => some p
  | n + 1, row, p =>
    if intFits ((rowIndex + row) * stride) then
      match pairLoop yuv row width (width >>> 1) 0 ((rowIndex + row) * stride) p with
      | none => none
      | some p1 => rowLoop stride yuv rowIndex width n (row + 1) p1
    else none

/-- The member `deinterleave`; `stride` is `fStrides[0]`, `p` holds the row
arrays before the call. For `rowIndex > height` the `int` difference is
negative and the loop does not run, as for the difference 0. -/
def deinterleave (stride : Nat) (yuv : Nat → Nat) (p : Planes) (rowIndex width height : Nat) :
    Option Planes :=
  let numRows := if height - rowIndex > 16 then 16 else height - rowIndex
  rowLoop stride yuv rowIndex width numRows 0 p

/-- Byte `j` of row `r` of the image obtained by interleaving the row arrays
again in the order U, Y0, V, Y1. -/
def reinterleave (p : Planes) (width r j : Nat) : Nat :=
  if j % 4 = 0 then p.uRows (r * (width / 2) + j / 4)
  else if j % 4 = 1 then p.yRows (r * width + 2 * (j / 4))
  else if j % 4 = 2 then p.vRows (r * (width / 2) + j / 4)
  else p.yRows (r * width + 2 * (j / 4) + 1)

end Yuv422UyvyToJpegEncoder

/-! ## Camera.cpp, ImageConverter.cpp: the request thread and the worker pool

A conversion call of `processCaptureRequest` does not store: `splitRunWait`
queues the conversion tasks on the pool `gWorkers` and waits for each of them.
The definitions below put the steps of the request thread and the steps of the
pool on one time line. -/

namespace Camera

/-- A step of the thread that runs `processCaptureRequest`: a call or write of
the trace, or, inside a conversion call, a request of `splitRunWait` to the
pool. A task is named by its index in the array `tasks` of `splitRunWait`. -/
inductive ThreadStep where
  | call (e : Event)
  | queueTask (task : Nat)
  | waitForCompletion (task : Nat)
  deriving DecidableEq, Repr

/-- The two loops of `splitRunWait`: `gWorkers.queueTask(&tasks[i].task)` for
the indices 0 .. `WORKERS_TASKS_NUM - 1`, then
`tasks[i].task.waitForCompletion()` for the same indices. -/
def splitRunWaitSteps : List ThreadStep :=
  (List.range ImageConverter.WORKERS_TASKS_NUM).map ThreadStep.queueTask
    ++ (List.range ImageConverter.WORKERS_TASKS_NUM).map ThreadStep.waitForCompletion

/-- The steps of the request thread for a trace of `processCaptureRequest`, in
program order: every event of the trace and, after a conversion call, the
steps of `splitRunWait` that the call takes before it returns. -/
def threadSteps : List Event → List ThreadStep
  | [] => []
  | Event.toRGBA uyvy src dst width height :: rest =>
    ThreadStep.call (Event.toRGBA uyvy src dst width height) :: (splitRunWaitSteps ++ threadSteps rest)
  | e :: rest => ThreadStep.call e :: threadSteps rest

/-- What happens in the process, in order of time: a call or write of the
request thread, or a worker thread calling the function of a conversion task
(`mFn(mData)` in `Task::execute`), which stores the rows of the task into the
destination of the conversion. -/
inductive Occurrence where
  | call (e : Event)
  | execute (task : Nat)
  deriving DecidableEq, Repr

/-- The request thread and the pool: the state of the pool, the steps that the
request thread has still to take, and what has happened so far. -/
structure Process where
  pool : Workers.State
  todo : List ThreadStep
  log : List Occurrence

/-- Who takes the next step: the request thread, the worker thread `i`, or the
`mCond.wait` in `waitForCompletion` of a task, which returns after the signal
(`wake`) or without one (`spuriousWake`). -/
inductive Turn where
  | request
  | thread (i : Nat)
  | wake (task : Nat)
  | spuriousWake (task : Nat)
  deriving DecidableEq, Repr

/-- One step of the process. The request thread takes the first of its
remaining steps: a call is logged, `queueTask` goes to the pool, and
`waitForCompletion` is entered when it has not been entered yet, is left when
it has returned, and otherwise blocks the thread. A worker thread takes a step
of `threadLoop`; when that step is the execution of a task, it is logged. -/
def processStep (cpus : Nat) (p : Process) : Turn → Process
  | Turn.request =>
    match p.todo with
    | [] => p
    | ThreadStep.call e :: rest => { p with todo := rest, log := p.log ++ [Occurrence.call e] }
    | ThreadStep.queueTask task :: rest =>
      { p with pool := Workers.queueTask cpus p.pool task, todo := rest }
    | ThreadStep.waitForCompletion task :: rest =>
      if p.pool.waiter task = Workers.Waiter.idle then
        { p with pool := Workers.waitForCompletion p.pool task }
      else if p.pool.waiter task = Workers.Waiter.returned then
        { p with todo := rest }
      else p
  | Turn.thread i =>
    { p with
      pool := Workers.threadLoop p.pool i,
      log := p.log ++
        (if i < p.pool.threads then
          match p.pool.pc i with
          | Workers.Pc.execute task => [Occurrence.execute task]
          | _ => []
        else []) }
  | Turn.wake task => { p with pool := Workers.wake p.pool task }
  | Turn.spuriousWake task => { p with pool := Workers.spuriousWake p.pool task }

/-- The process after a sequence of steps. -/
def runProcess (cpus : Nat) (p : Process) (turns : List Turn) : Process :=
  turns.foldl (processStep cpus) p

/-- The process at the entry of `processCaptureRequest`: the pool has been
started by `openDevice` (`gWorkers.start()`), and the request thread has the
steps of the trace before it. -/
def processStart (cpus : Nat) (events : List Event) : Process :=
  { pool := Workers.start cpus Workers.initial, todo := threadSteps events, log := [] }

end Camera

end android

/-! ## Sample inputs -/

namespace android

namespace Sample

/-- A mapped UYVY frame as `readLock` hands it out. -/
def frame : V4l2Device.VBuffer := { buf := 0x10000, len := 1920 * 1080 * 2, pixFmt := V4L2_PIX_FMT_UYVY }

/-- A 1920x1080 RGBA output stream. -/
def rgbaStream : camera3_stream :=
  { stream_type := CAMERA3_STREAM_OUTPUT, width := 1920, height := 1080,
    format := HAL_PIXEL_FORMAT_RGBA_8888, usage := GRALLOC_USAGE_SW_WRITE_OFTEN, max_buffers := 1 }

/-- An output buffer of `rgbaStream` with handle 501 and acquire fence 9. -/
def rgbaBuffer : camera3_stream_buffer :=
  { stream := rgbaStream, buffer := 501, status := 0, acquire_fence := 9, release_fence := -1 }

/-- A request for frame 7 with explicit settings and one RGBA output buffer. -/
def request : camera3_capture_request :=
  { frame_number := 7, settings := some [(ANDROID_JPEG_QUALITY, [90])], input_buffer := none,
    output_buffers := [rgbaBuffer] }

/-- A camera object without cached settings. -/
def camera : Camera := { mLastRequestSettings := { mBuffer := [] }, mJpegBufferSize := 18665472 }

/-- A request for frame 8 without settings and the same output buffer. -/
def requestNoSettings : camera3_capture_request :=
  { frame_number := 8, settings := none, input_buffer := none, output_buffers := [rgbaBuffer] }

/-- Collaborators that all succeed: a frame is ready, fences signal, buffers
map at `0x200000 + 0x1000000 * i`, the encoders emit three bytes. -/
def env : Camera.CaptureEnv :=
  { resolution := { width := 1920, height := 1080 }, timestamp := 1000000
    frame := some frame
    fenceWait := fun _ => NO_ERROR
    lockStatus := fun _ => NO_ERROR
    lockAddr := fun i => 0x200000 + 0x1000000 * i
    encodeYUY2 := fun _ _ _ _ => [0xFF, 0xD8, 0xD9]
    encodeUYVY := fun _ _ _ _ => [0xFF, 0xD8, 0xD9] }

/-- The collaborators of `env` at a later time. -/
def envLater : Camera.CaptureEnv := { env with timestamp := 34000000 }

/-- The collaborators of `env`, except that every acquire fence times out. -/
def envFenceTimeout : Camera.CaptureEnv := { env with fenceWait := fun _ => TIMED_OUT }

/-- A 1280x720 RGBA output stream as the framework passes it in. -/
def stream720 : camera3_stream :=
  { stream_type := CAMERA3_STREAM_OUTPUT, width := 1280, height := 720,
    format := HAL_PIXEL_FORMAT_RGBA_8888, usage := 0, max_buffers := 0 }

/-- A 1920x1080 BLOB output stream as the framework passes it in. -/
def stream1080Blob : camera3_stream :=
  { stream_type := CAMERA3_STREAM_OUTPUT, width := 1920, height := 1080,
    format := HAL_PIXEL_FORMAT_BLOB, usage := 0, max_buffers := 0 }

/-- A 65536x65536 output stream: its area is `2 ^ 32`. -/
def stream65536 : camera3_stream :=
  { stream_type := CAMERA3_STREAM_OUTPUT, width := 65536, height := 65536,
    format := HAL_PIXEL_FORMAT_RGBA_8888, usage := 0, max_buffers := 0 }

/-- A device that accepts every call of `configureStreams`. -/
def configEnv : Camera.ConfigEnv :=
  { streamOff := true, setResolution := fun _ _ => true, streamOn := true }

/-- A connected, streaming device with four mapped buffers, as `connect` and
`setStreaming(true)` leave it; `readLock` has not been called on it. -/
def device : V4l2Device :=
  { mFd := 3, mConnected := true, mStreaming := true,
    mAvailableResolutions := [{ width := 1920, height := 1080 }],
    mForcedResolution := { width := 0, height := 0 },
    mFormat := { type := 1, pixelformat := V4L2_PIX_FMT_UYVY, width := 1920, height := 1080 },
    mBuf := [{ buf := 0x10000, len := 4147200, pixFmt := V4L2_PIX_FMT_UYVY },
             { buf := 0x410000, len := 4147200, pixFmt := V4L2_PIX_FMT_UYVY },
             { buf := 0x810000, len := 4147200, pixFmt := V4L2_PIX_FMT_UYVY },
             { buf := 0xC10000, len := 4147200, pixFmt := V4L2_PIX_FMT_UYVY }],
    mPFdFd := 3 }

/-- The answer of a kernel that has buffer `k` ready: `poll` reports one
descriptor, `VIDIOC_DQBUF` returns 0 and fills in index `k`. -/
def ready (k : Nat) : V4l2Device.DqAttempt := { poll := 1, ret := 0, errno := 0, index := k }

/-- A camera object whose cache holds the block stamped for frame 7. -/
def cameraCached : Camera :=
  { mLastRequestSettings :=
      { mBuffer := [(ANDROID_JPEG_QUALITY, [90]), (ANDROID_SENSOR_TIMESTAMP, [1000000]),
                    (ANDROID_SYNC_FRAME_NUMBER, [7])] },
    mJpegBufferSize := 18665472 }

/-- The collaborators of `env`, except that the device has no frame. -/
def envNoFrame : Camera.CaptureEnv := { env with frame := none }

/-- The collaborators of `env`, except that the mapping of every buffer fails. -/
def envLockFails : Camera.CaptureEnv := { env with lockStatus := fun _ => NO_INIT }

/-- A second output buffer of `rgbaStream`, with handle 502 and acquire fence 10. -/
def rgbaBuffer2 : camera3_stream_buffer :=
  { stream := rgbaStream, buffer := 502, status := 0, acquire_fence := 10, release_fence := -1 }

/-- A request for frame 9 with explicit settings and two RGBA output buffers. -/
def requestTwo : camera3_capture_request :=
  { frame_number := 9, settings := some [(ANDROID_JPEG_QUALITY, [90])], input_buffer := none,
    output_buffers := [rgbaBuffer, rgbaBuffer2] }

/-- The collaborators of `env`, except that the acquire fence of output buffer 1
times out. -/
def envSecondFenceTimeout : Camera.CaptureEnv :=
  { env with fenceWait := fun i => if i = 1 then TIMED_OUT else NO_ERROR }

/-- The collaborators of `env`, except that the mapping of output buffer 1 fails. -/
def envSecondLockFails : Camera.CaptureEnv :=
  { env with lockStatus := fun i => if i = 1 then NO_INIT else NO_ERROR }

/-- Row routines that copy: luma and chroma bytes are passed through. -/
def rowRoutines : ImageConverter.RowRoutines :=
  { toUV422 := fun row _ => (row, row), toY := fun row _ => row,
    toABGR := fun rowy rowu _ _ => rowy ++ rowu }

/-- A memory whose byte at address `a` is `a % 251`. -/
def memory : ImageConverter.Memory := fun a => a % 251

/-- A kernel that answers every request with success: three frame sizes, the
requested format, four buffers of 4147200 bytes mapped 4 MiB apart. -/
def kernel : V4l2Device.Kernel :=
  { openFd := 3,
    frameSizes := [{ width := 3840, height := 2160 }, { width := 1920, height := 1080 },
                   { width := 640, height := 480 }],
    sFmt := fun w h =>
      { ret := 0, errno := 0,
        format := { type := 1, pixelformat := V4L2_PIX_FMT_UYVY, width := w, height := h } },
    reqBufs := fun n => { ret := 0, errno := 0, count := n },
    queryBuf := fun i => { ret := 0, errno := 0, offset := 0x400000 * i, length := 4147200 },
    mmap := fun offset _ => 0x10000 + offset,
    qbuf := fun _ => 0,
    streamOn := { ret := 0, errno := 0 },
    streamOff := { ret := 0, errno := 0 } }

/-- The kernel of `kernel`, except that it turns down every format. -/
def kernelNoFormat : V4l2Device.Kernel :=
  { kernel with
    sFmt := fun w h =>
      { ret := -1, errno := 22,
        format := { type := 1, pixelformat := V4L2_PIX_FMT_UYVY, width := w, height := h } } }

/-- What the member `mForcedResolution` holds before the constructor runs, when
the memory of the object happens to be zero. -/
def zeroed : V4l2Device.Resolution := { width := 0, height := 0 }

/-- The property value `1280x720`. -/
def prop1280x720 : List Char := ['1', '2', '8', '0', 'x', '7', '2', '0']

/-- The property value `1280`, without a separator. -/
def prop1280 : List Char := ['1', '2', '8', '0']

/-- The property value `12abx720`, whose width part is not a number. -/
def prop12abx720 : List Char := ['1', '2', 'a', 'b', 'x', '7', '2', '0']

/-- The property value `abcx720`, whose width part is not a number. -/
def propabcx720 : List Char := ['a', 'b', 'c', 'x', '7', '2', '0']

/-- The property value `1280xabc`, whose height part is not a number. -/
def prop1280xabc : List Char := ['1', '2', '8', '0', 'x', 'a', 'b', 'c']

/-- The kernel of `kernel`, except that it rejects `VIDIOC_STREAMON` and
`VIDIOC_STREAMOFF` with `ENODEV`. -/
def kernelStreamFails : V4l2Device.Kernel :=
  { kernel with streamOn := { ret := -1, errno := 19 }, streamOff := { ret := -1, errno := 19 } }

/-- The kernel of `kernel`, except that `VIDIOC_QUERYBUF` fails for index 1. -/
def kernelQueryFails : V4l2Device.Kernel :=
  { kernel with
    queryBuf := fun i =>
      if i = 1 then { ret := -1, errno := 22, offset := 0, length := 0 } else kernel.queryBuf i }

/-- The kernel of `kernel`, except that `mmap` fails for the buffer of index 1. -/
def kernelMmapFails : V4l2Device.Kernel :=
  { kernel with mmap := fun offset len => if offset = 0x400000 then MAP_FAILED 64 else kernel.mmap offset len }

/-- The kernel of `kernel`, except that `VIDIOC_QBUF` fails for index 1. -/
def kernelQueueFails : V4l2Device.Kernel :=
  { kernel with qbuf := fun i => if i = 1 then -1 else 0 }

/-- The object reached from a freshly constructed one by `connect` and
`setStreaming(true)` with the kernel of `kernel`. -/
def streaming : V4l2Device :=
  (V4l2Device.setStreaming false
    (V4l2Device.connect 64 (V4l2Device.initial zeroed) kernel).dev kernel true).dev

/-- A pool of two threads in the middle of `stop`: the exit request is set,
thread 0 is at the top of its loop, thread 1 has popped task 5, and the tasks
6 and 7 are still queued. -/
def stopping : Workers.State :=
  { mRunning := true, mExitRequest := true, mTasks := [6, 7], threads := 2,
    pc := fun i => if i = 0 then Workers.Pc.top else Workers.Pc.execute 5,
    mCompleted := fun _ => false, waiter := fun _ => Workers.Waiter.idle, executed := [] }

/-- The stream `stream720` as `configureStreams` leaves it. -/
def configured720 : camera3_stream :=
  { stream_type := CAMERA3_STREAM_OUTPUT, width := 1280, height := 720,
    format := HAL_PIXEL_FORMAT_RGBA_8888, usage := GRALLOC_USAGE_SW_WRITE_OFTEN, max_buffers := 1 }

/-- The stream `stream1080Blob` as `configureStreams` leaves it. -/
def configured1080Blob : camera3_stream :=
  { stream_type := CAMERA3_STREAM_OUTPUT, width := 1920, height := 1080,
    format := HAL_PIXEL_FORMAT_BLOB, usage := GRALLOC_USAGE_SW_WRITE_OFTEN, max_buffers := 1 }

/-- An output buffer of the 1280x720 RGBA stream, with handle 501. -/
def buffer720 : camera3_stream_buffer :=
  { stream := configured720, buffer := 501, status := 0, acquire_fence := 9, release_fence := -1 }

/-- An output buffer of the 1920x1080 BLOB stream, with handle 502. -/
def bufferBlob : camera3_stream_buffer :=
  { stream := configured1080Blob, buffer := 502, status := 0, acquire_fence := 10, release_fence := -1 }

/-- A request for frame 7 with one buffer of each of the two streams. -/
def requestMixed : camera3_capture_request :=
  { frame_number := 7, settings := some [(ANDROID_JPEG_QUALITY, [90])], input_buffer := none,
    output_buffers := [buffer720, bufferBlob] }

/-- A request for frame 7 with one buffer of the BLOB stream. -/
def requestBlob : camera3_capture_request :=
  { frame_number := 7, settings := some [(ANDROID_JPEG_QUALITY, [90])], input_buffer := none,
    output_buffers := [bufferBlob] }

/-- Row arrays filled with the byte 255. -/
def planes : Yuv422UyvyToJpegEncoder.Planes :=
  { yRows := fun _ => 255, uRows := fun _ => 255, vRows := fun _ => 255 }

/-- The property value `4294967296x720`, whose width is `2 ^ 32`. -/
def prop4294967296x720 : List Char :=
  ['4', '2', '9', '4', '9', '6', '7', '2', '9', '6', 'x', '7', '2', '0']

/-- The property value `4294968576x720`, whose width is `2 ^ 32 + 1280`. -/
def prop4294968576x720 : List Char :=
  ['4', '2', '9', '4', '9', '6', '8', '5', '7', '6', 'x', '7', '2', '0']

/-- What the member `mForcedResolution` holds before the constructor runs, when
the memory of the object is filled with the byte `0xAB`. -/
def filled : V4l2Device.Resolution := { width := 0xABABABAB, height := 0xABABABAB }

/-- A sequence of steps for the sample request on four worker threads: the
request thread runs up to the conversion call and queues the 30 tasks (35
steps); it enters `waitForCompletion` of each task, whose `mCond.wait` returns
without a signal, and leaves it; it runs on to the end of the request (3
steps). No worker thread has run by then. -/
def earlyWakeups : List Camera.Turn :=
  List.replicate 35 Camera.Turn.request
    ++ (List.range 30).foldr
        (fun task rest => Camera.Turn.request :: Camera.Turn.spuriousWake task
          :: Camera.Turn.request :: rest) []
    ++ List.replicate 3 Camera.Turn.request

end Sample

end android

/-! ## Theorems -/

namespace android

/-- C1 (evaluation at height 31, where the claim fails): `linesPerTask` is 2;
the tasks 0..14 get 2 rows each and task 15 the last row, so rows 0..30 are
covered after 16 tasks; task 16 then starts at row 32 and its `linesNum`,
`31 - 32` in `size_t`, is `2 ^ 64 - 1` (`2 ^ 32 - 1` with a 32 bit `size_t`).
Row 34, which is outside `[0, 31)`, is converted by task 16 and by task 17,
and the 30 row counts do not add up to 31. -/
theorem splitRunWait_height_31_wraps :
    ImageConverter.linesPerTask 31 = 2
    ∧ ((ImageConverter.splitRunWait 64 0 0 1 31).1.take 16).map (fun t => t.linesNum)
        = [2, 2, 2, 2, 2, 2, 2, 2, 2, 2, 2, 2, 2, 2, 2, 1]
    ∧ ((ImageConverter.splitRunWait 64 0 0 1 31).1.getD 16 ⟨0, 0, 0, 0⟩).src = 16 * 2 * (1 * 2)
    ∧ ((ImageConverter.splitRunWait 64 0 0 1 31).1.getD 16 ⟨0, 0, 0, 0⟩).linesNum = 2 ^ 64 - 1
    ∧ ((ImageConverter.splitRunWait 32 0 0 1 31).1.getD 16 ⟨0, 0, 0, 0⟩).linesNum = 2 ^ 32 - 1
    ∧ ImageConverter.bandStart 31 16 = 32
    ∧ ImageConverter.inBand 64 31 16 34 = true ∧ ImageConverter.inBand 64 31 17 34 = true
    ∧ ImageConverter.inBand 32 31 16 34 = true ∧ ImageConverter.inBand 32 31 17 34 = true
    ∧ (((ImageConverter.splitRunWait 64 0 0 1 31).1.map (fun t => t.linesNum)).sum ≠ 31)
    ∧ (((ImageConverter.splitRunWait 32 0 0 1 31).1.map (fun t => t.linesNum)).sum ≠ 31) := by
  decide

/-- C2 (evaluation at a request whose acquire fence times out): the call
returns `NO_INIT`; it has taken a frame from `readLock`, and its calls end with
the unmapping of output buffer 0, without any `unlock` of that frame. -/
theorem processCaptureRequest_abort_keeps_frame :
    (Camera.processCaptureRequest 64 Sample.camera Sample.envFenceTimeout Sample.request).status = NO_INIT
    ∧ (Camera.processCaptureRequest 64 Sample.camera Sample.envFenceTimeout Sample.request).events
        = [Camera.Event.notifyShutter 7 1000000, Camera.Event.readLock (some Sample.frame),
           Camera.Event.fenceWait 0 9, Camera.Event.mapperUnlock 0 501]
    ∧ Camera.Event.unlock Sample.frame
        ∉ (Camera.processCaptureRequest 64 Sample.camera Sample.envFenceTimeout Sample.request).events := by
  decide

/-- The stores of `copyTo` carry the stream bytes in order. -/
theorem ImageConverter.copyTo_values (stream : List Nat) (dst : Nat) :
    (ImageConverter.copyTo dst stream).map Prod.snd = stream := by
  induction stream generalizing dst with
  | nil => rfl
  | cons b bs ih => simp [ImageConverter.copyTo, ih]

/-- The stores of `copyTo` go to the addresses `dst`, `dst + 1`, ... -/
theorem ImageConverter.copyTo_addresses (stream : List Nat) (dst : Nat) :
    (ImageConverter.copyTo dst stream).map Prod.fst
      = (List.range stream.length).map (fun j => dst + j) := by
  induction stream generalizing dst with
  | nil => rfl
  | cons b bs ih =>
    simp only [ImageConverter.copyTo, List.map_cons, List.length_cons, List.range_succ_eq_map,
      ih, List.map_map]
    congr 1
    apply List.map_congr_left
    intro j _
    simp only [Function.comp_apply]
    omega

/-- C3: with `n` the length of the encoder output, `UYVYToJPEG` and `YUY2ToJPEG`
return `dst` and store nothing when `n > dstLen`; when `0 < n ≤ dstLen` they
return `dst + n`, which is strictly past `dst`, and store exactly the `n`
encoded bytes, in order, at the addresses `dst .. dst + n - 1`. -/
theorem jpeg_overflow_sentinel (encoder : ImageConverter.Codec)
    (src dst width height dstLen quality : Nat) :
    (dstLen < (encoder src width height quality).length →
      ImageConverter.UYVYToJPEG encoder src dst width height dstLen quality = (dst, [])
      ∧ ImageConverter.YUY2ToJPEG encoder src dst width height dstLen quality = (dst, []))
    ∧ (0 < (encoder src width height quality).length →
       (encoder src width height quality).length ≤ dstLen →
        ∀ r, (r = ImageConverter.UYVYToJPEG encoder src dst width height dstLen quality
              ∨ r = ImageConverter.YUY2ToJPEG encoder src dst width height dstLen quality) →
          r.1 = dst + (encoder src width height quality).length
          ∧ dst < r.1
          ∧ r.2.map Prod.snd = encoder src width height quality
          ∧ r.2.map Prod.fst
              = (List.range (encoder src width height quality).length).map (fun j => dst + j)) := by
  constructor
  · intro h
    simp [ImageConverter.UYVYToJPEG, ImageConverter.YUY2ToJPEG, h]
  · intro hpos hle r hr
    have hnot : ¬ (encoder src width height quality).length > dstLen := by omega
    have hr2 : r = (dst + (encoder src width height quality).length,
        ImageConverter.copyTo dst (encoder src width height quality)) := by
      rcases hr with hr | hr <;>
        simpa [ImageConverter.UYVYToJPEG, ImageConverter.YUY2ToJPEG, hnot] using hr
    subst hr2
    refine ⟨rfl, ?_, ImageConverter.copyTo_values _ _, ImageConverter.copyTo_addresses _ _⟩
    show dst < dst + _
    omega

/-- Witness of C3: an encoder emitting three bytes, once with capacity 2 (too
small) and once with capacity 8. -/
theorem jpeg_overflow_sentinel_witness :
    (ImageConverter.UYVYToJPEG (fun _ _ _ _ => [255, 216, 217]) 0 4096 2 2 2 95 = (4096, [])
      ∧ ImageConverter.YUY2ToJPEG (fun _ _ _ _ => [255, 216, 217]) 0 4096 2 2 2 95 = (4096, []))
    ∧ (ImageConverter.UYVYToJPEG (fun _ _ _ _ => [255, 216, 217]) 0 4096 2 2 8 95).1 = 4096 + 3
    ∧ (ImageConverter.UYVYToJPEG (fun _ _ _ _ => [255, 216, 217]) 0 4096 2 2 8 95).2.map Prod.snd
        = [255, 216, 217] :=
  ⟨(jpeg_overflow_sentinel (fun _ _ _ _ => [255, 216, 217]) 0 4096 2 2 2 95).1 (by decide),
   ((jpeg_overflow_sentinel (fun _ _ _ _ => [255, 216, 217]) 0 4096 2 2 8 95).2 (by decide) (by decide)
      _ (Or.inl rfl)).1,
   ((jpeg_overflow_sentinel (fun _ _ _ _ => [255, 216, 217]) 0 4096 2 2 8 95).2 (by decide) (by decide)
      _ (Or.inl rfl)).2.2.1⟩

/-- While only repeated rounds have been answered, `dequeueBuffer` goes on with
the following answers. -/
theorem V4l2Device.dequeueBuffer_again (usePoll : Bool) (retries rest : List V4l2Device.DqAttempt)
    (h : ∀ x ∈ retries, x.again usePoll = true) :
    V4l2Device.dequeueBuffer usePoll (retries ++ rest) = V4l2Device.dequeueBuffer usePoll rest := by
  induction retries with
  | nil => rfl
  | cons a as ih =>
    have ha := h a (List.mem_cons_self _ _)
    have ih2 := ih (fun x hx => h x (List.mem_cons_of_mem _ hx))
    simp only [V4l2Device.DqAttempt.again, V4l2Device.DqAttempt.timedOut, Bool.and_eq_true,
      Bool.not_eq_true'] at ha
    simp only [List.cons_append, V4l2Device.dequeueBuffer, ha.1, ha.2.1, ha.2.2]
    simpa using ih2

/-- Counterexample to C4 as stated: on one device object the kernel first has
buffer 0 ready and then buffer 1. `readLock` hands out ring buffer 0 and, with
no `unlock` in between, a further `readLock` hands out ring buffer 1, a
different mapping, instead of `NULL`. -/
theorem readLock_second_checkout :
    Sample.device.readLock true [Sample.ready 0] = some (some 0)
    ∧ Sample.device.readLock true [Sample.ready 1] = some (some 1)
    ∧ Sample.device.readLock true [Sample.ready 1] ≠ some none
    ∧ (Sample.device.frameAt 0).buf ≠ (Sample.device.frameAt 1).buf := by
  decide

/-- C4 (amended): `readLock` keeps no record of buffers handed out. Its result
is the same for every state of the object; after any number of repeated rounds
it returns the ring buffer whose index the kernel dequeued (an index below
`2 ^ 31`), and it returns `NULL` when `poll` times out. -/
theorem readLock_follows_device (d d' : V4l2Device) (usePoll : Bool)
    (answers retries rest : List V4l2Device.DqAttempt) (a : V4l2Device.DqAttempt)
    (hretries : ∀ x ∈ retries, x.again usePoll = true) :
    d.readLock usePoll answers = d'.readLock usePoll answers
    ∧ (a.dequeued usePoll = true → a.index < 2 ^ 31 →
        d.readLock usePoll (retries ++ a :: rest) = some (some a.index))
    ∧ (a.timedOut usePoll = true →
        d.readLock usePoll (retries ++ a :: rest) = some none) := by
  refine ⟨rfl, ?_, ?_⟩
  · intro hdq hidx
    simp only [V4l2Device.DqAttempt.dequeued, V4l2Device.DqAttempt.again, Bool.and_eq_true,
      Bool.not_eq_true', decide_eq_true_eq] at hdq
    obtain ⟨⟨hto, hag⟩, herr⟩ := hdq
    have h32 : u32 a.index = a.index := by
      unfold u32
      omega
    have hto2 : (usePoll && decide (a.poll ≤ 0)) = false := hto
    rw [hto] at hag
    simp only [Bool.not_false, Bool.true_and] at hag
    rw [herr] at hag
    simp only [V4l2Device.readLock, V4l2Device.dequeueBuffer_again usePoll retries _ hretries,
      V4l2Device.dequeueBuffer, hto2, hag, herr, toInt32, h32, if_pos hidx]
    simp
  · intro hto
    have hto2 : (usePoll && decide (a.poll ≤ 0)) = true := hto
    simp [V4l2Device.readLock, V4l2Device.dequeueBuffer_again usePoll retries _ hretries,
      V4l2Device.dequeueBuffer, hto2]

/-- Witness of C4 (amended): one `EAGAIN` round, then buffer 1 is dequeued. -/
theorem readLock_follows_device_witness :
    Sample.device.readLock true [] = ({ Sample.device with mStreaming := false }).readLock true []
    ∧ Sample.device.readLock true
        ([{ poll := 1, ret := -1, errno := 11, index := 0 }] ++ Sample.ready 1 :: []) = some (some 1) :=
  ⟨(readLock_follows_device Sample.device { Sample.device with mStreaming := false } true []
      [{ poll := 1, ret := -1, errno := 11, index := 0 }] [] (Sample.ready 1) (by decide)).1,
   (readLock_follows_device Sample.device Sample.device true []
      [{ poll := 1, ret := -1, errno := 11, index := 0 }] [] (Sample.ready 1) (by decide)).2.1
      (by decide) (by decide)⟩

/-- The loop of `unlock` finds nothing when no ring buffer from index `i` on
has the address `target`. -/
theorem V4l2Device.unlockLoop_none (d : V4l2Device) (ret : Int) (target : Nat) (n i : Nat)
    (h : ∀ j, i ≤ j → j < i + n → (d.mBuf.getD j default).buf ≠ target) :
    V4l2Device.unlockLoop d ret target n i = (false, []) := by
  induction n generalizing i with
  | zero => rfl
  | succ n ih =>
    have hi := h i (Nat.le_refl i) (by omega)
    simp only [V4l2Device.unlockLoop, if_neg hi]
    exact ih (i + 1) (fun j h1 h2 => h j (by omega) (by omega))

/-- The loop of `unlock` queues the first ring buffer from index `i` on whose
address is `target`. -/
theorem V4l2Device.unlockLoop_found (d : V4l2Device) (ret : Int) (target : Nat) (n i k : Nat)
    (hik : i ≤ k) (hkn : k < i + n) (hk : (d.mBuf.getD k default).buf = target)
    (hfirst : ∀ j, i ≤ j → j < k → (d.mBuf.getD j default).buf ≠ target) :
    V4l2Device.unlockLoop d ret target n i = V4l2Device.queueBuffer d ret k := by
  induction n generalizing i with
  | zero => omega
  | succ n ih =>
    by_cases hi : i = k
    · subst hi
      simp only [V4l2Device.unlockLoop, if_pos hk]
    · have hne := hfirst i (Nat.le_refl i) (by omega)
      simp only [V4l2Device.unlockLoop, if_neg hne]
      exact ih (i + 1) (by omega) (by omega) (fun j h1 h2 => hfirst j (by omega) h2)

/-- Counterexample to C5 as stated: `readLock` has not been called on the
sample device, so none of its ring buffers is checked out; yet `unlock` of ring
buffer 0 sends `VIDIOC_QBUF` for index 0 to the kernel and returns `true` when
the kernel accepts the request. -/
theorem unlock_of_unlocked_buffer_queues :
    Sample.device.unlock 0 (some (Sample.device.frameAt 0))
      = (Sample.device, true, [V4l2Device.DevCall.QBUF 0]) := by
  decide

/-- C5 (amended): `unlock` never changes the object. It returns `false`
without a request to the kernel when the pointer is `NULL` or when no ring
buffer has the address `buf->buf`. Otherwise, checked out or not, it sends
`VIDIOC_QBUF` for the first ring buffer with that address and returns whether
the kernel accepted the request. -/
theorem unlock_matches_by_address (d : V4l2Device) (ret : Int) (buf : Option V4l2Device.VBuffer) :
    (d.unlock ret buf).1 = d
    ∧ (buf = none → d.unlock ret buf = (d, false, []))
    ∧ (∀ b, buf = some b →
        (∀ j, j < V4L2DEVICE_BUF_COUNT → (d.mBuf.getD j default).buf ≠ b.buf) →
        d.unlock ret buf = (d, false, []))
    ∧ (∀ b k, buf = some b → k < V4L2DEVICE_BUF_COUNT → (d.mBuf.getD k default).buf = b.buf →
        (∀ j, j < k → (d.mBuf.getD j default).buf ≠ b.buf) →
        d.unlock ret buf = (d, decide (0 ≤ ret), [V4l2Device.DevCall.QBUF k])) := by
  refine ⟨?_, ?_, ?_, ?_⟩
  · cases buf <;> rfl
  · intro h
    subst h
    rfl
  · intro b hb hnone
    subst hb
    have hloop := V4l2Device.unlockLoop_none d ret b.buf V4L2DEVICE_BUF_COUNT 0
      (fun j _ h2 => hnone j (by omega))
    simp only [V4l2Device.unlock, hloop]
  · intro b k hb hk hat hfirst
    subst hb
    have hloop := V4l2Device.unlockLoop_found d ret b.buf V4L2DEVICE_BUF_COUNT 0 k
      (Nat.zero_le k) (by omega) hat (fun j _ h2 => hfirst j h2)
    simp only [V4l2Device.unlock, hloop, V4l2Device.queueBuffer]
    by_cases hret : ret < 0
    · have : ¬ (0 ≤ ret) := by omega
      simp [hret, this]
    · have : 0 ≤ ret := by omega
      simp [hret, this]

/-- Witness of C5 (amended): a buffer object with an unknown address is turned
down without a request; ring buffer 2 of the sample device is queued, and the
flag is `false` when the kernel rejects the request. -/
theorem unlock_matches_by_address_witness :
    Sample.device.unlock 0 (some { buf := 0x77000, len := 16, pixFmt := 0 }) = (Sample.device, false, [])
    ∧ Sample.device.unlock (-1) (some (Sample.device.frameAt 2))
        = (Sample.device, decide ((0 : Int) ≤ -1), [V4l2Device.DevCall.QBUF 2]) :=
  ⟨(unlock_matches_by_address Sample.device 0 (some { buf := 0x77000, len := 16, pixFmt := 0 })).2.2.1
      _ rfl (by decide),
   (unlock_matches_by_address Sample.device (-1) (some (Sample.device.frameAt 2))).2.2.2
      _ 2 rfl (by decide) (by decide) (by decide)⟩

/-- One round of the stream loop of `configureStreams` that does not return:
the loop goes on with the size of the stream if its 32 bit area is larger. -/
theorem Camera.configureLoop_cons (x : camera3_stream) (rest : List camera3_stream)
    (inStream : Bool) (w h : Nat)
    (hok : (Camera.configureLoop (x :: rest) inStream w h).ok = true) :
    ∃ b, (Camera.configureLoop (x :: rest) inStream w h).ok
          = (Camera.configureLoop rest b
              (if u32 (x.width * x.height) > u32 (w * h) then x.width else w)
              (if u32 (x.width * x.height) > u32 (w * h) then x.height else h)).ok
      ∧ (Camera.configureLoop (x :: rest) inStream w h).width
          = (Camera.configureLoop rest b
              (if u32 (x.width * x.height) > u32 (w * h) then x.width else w)
              (if u32 (x.width * x.height) > u32 (w * h) then x.height else h)).width
      ∧ (Camera.configureLoop (x :: rest) inStream w h).height
          = (Camera.configureLoop rest b
              (if u32 (x.width * x.height) > u32 (w * h) then x.width else w)
              (if u32 (x.width * x.height) > u32 (w * h) then x.height else h)).height := by
  by_cases hin : ((decide (x.stream_type = CAMERA3_STREAM_INPUT)
      || decide (x.stream_type = CAMERA3_STREAM_BIDIRECTIONAL)) && inStream) = true
  · simp [Camera.configureLoop, hin] at hok
  · by_cases hfmt : x.format = HAL_PIXEL_FORMAT_IMPLEMENTATION_DEFINED
    · by_cases hz : x.usage &&& GRALLOC_USAGE_HW_CAMERA_ZSL = 0
      · refine ⟨inStream || (decide (x.stream_type = CAMERA3_STREAM_INPUT)
          || decide (x.stream_type = CAMERA3_STREAM_BIDIRECTIONAL)), ?_, ?_, ?_⟩ <;>
          simp [Camera.configureLoop, hin, hfmt, hz]
      · simp [Camera.configureLoop, hin, hfmt, hz] at hok
    · by_cases hz : x.usage &&& GRALLOC_USAGE_HW_CAMERA_ZSL = 0
      · refine ⟨inStream || (decide (x.stream_type = CAMERA3_STREAM_INPUT)
          || decide (x.stream_type = CAMERA3_STREAM_BIDIRECTIONAL)), ?_, ?_, ?_⟩ <;>
          simp [Camera.configureLoop, hin, hfmt, hz]
      · simp [Camera.configureLoop, hin, hfmt, hz] at hok

/-- The stream loop of `configureStreams`, when it runs to its end and no area
overflows 32 bits, either keeps `width`, `height` (no stream has a larger area)
or ends with the size of the first stream of largest area. -/
theorem Camera.configureLoop_largest (streams : List camera3_stream) (inStream : Bool) (w h : Nat)
    (hfit : ∀ s ∈ streams, s.width * s.height < 2 ^ 32) (hwh : w * h < 2 ^ 32)
    (hok : (Camera.configureLoop streams inStream w h).ok = true) :
    ((Camera.configureLoop streams inStream w h).width = w
      ∧ (Camera.configureLoop streams inStream w h).height = h
      ∧ ∀ s ∈ streams, s.width * s.height ≤ w * h)
    ∨ ∃ pre s post, streams = pre ++ s :: post
      ∧ (Camera.configureLoop streams inStream w h).width = s.width
      ∧ (Camera.configureLoop streams inStream w h).height = s.height
      ∧ w * h < s.width * s.height
      ∧ (∀ t ∈ pre, t.width * t.height < s.width * s.height)
      ∧ (∀ t ∈ post, t.width * t.height ≤ s.width * s.height) := by
  induction streams generalizing inStream w h with
  | nil =>
    left
    exact ⟨rfl, rfl, fun s hs => absurd hs (List.not_mem_nil s)⟩
  | cons x rest ih =>
    have hx := hfit x (List.mem_cons_self _ _)
    have hrest : ∀ s ∈ rest, s.width * s.height < 2 ^ 32 :=
      fun s hs => hfit s (List.mem_cons_of_mem _ hs)
    have e1 : u32 (x.width * x.height) = x.width * x.height := Nat.mod_eq_of_lt hx
    have e2 : u32 (w * h) = w * h := Nat.mod_eq_of_lt hwh
    obtain ⟨b, hb1, hb2, hb3⟩ := Camera.configureLoop_cons x rest inStream w h hok
    rw [hb1] at hok
    rw [hb2, hb3]
    rw [e1, e2] at hok ⊢
    by_cases hbig : x.width * x.height > w * h
    · rw [if_pos hbig, if_pos hbig] at hok ⊢
      rcases ih b x.width x.height hrest hx hok with
        ⟨hw, hh, hall⟩ | ⟨pre, s, post, hsplit, hw, hh, hlt, hpre, hpost⟩
      · right
        refine ⟨[], x, rest, rfl, hw, hh, hbig, ?_, hall⟩
        intro t ht
        exact absurd ht (List.not_mem_nil t)
      · right
        refine ⟨x :: pre, s, post, by rw [hsplit]; rfl, hw, hh, by omega, ?_, hpost⟩
        intro t ht
        rcases List.mem_cons.mp ht with rfl | ht
        · exact hlt
        · exact hpre t ht
    · rw [if_neg hbig, if_neg hbig] at hok ⊢
      rcases ih b w h hrest hwh hok with
        ⟨hw, hh, hall⟩ | ⟨pre, s, post, hsplit, hw, hh, hlt, hpre, hpost⟩
      · left
        refine ⟨hw, hh, ?_⟩
        intro t ht
        rcases List.mem_cons.mp ht with rfl | ht
        · omega
        · exact hall t ht
      · right
        refine ⟨x :: pre, s, post, by rw [hsplit]; rfl, hw, hh, hlt, ?_, hpost⟩
        intro t ht
        rcases List.mem_cons.mp ht with rfl | ht
        · omega
        · exact hpre t ht

/-- An accepted `configureStreams` has made exactly the three device calls, the
resolution being the one the stream loop ended with. -/
theorem Camera.configureStreams_accepted (env : Camera.ConfigEnv) (streams : List camera3_stream)
    (hacc : (Camera.configureStreams env streams).status = NO_ERROR) :
    (Camera.configureLoop streams false 0 0).ok = true
    ∧ (Camera.configureStreams env streams).events
        = [Camera.ConfigEvent.setStreaming false,
           Camera.ConfigEvent.setResolution (Camera.configureLoop streams false 0 0).width
             (Camera.configureLoop streams false 0 0).height,
           Camera.ConfigEvent.setStreaming true] := by
  have hbad : BAD_VALUE ≠ NO_ERROR := by decide
  have hinit : NO_INIT ≠ NO_ERROR := by decide
  unfold Camera.configureStreams at hacc ⊢
  simp only at hacc ⊢
  split at hacc
  · exact absurd hacc hbad
  · rename_i h1
    split at hacc
    · exact absurd hacc hinit
    · rename_i h2
      split at hacc
      · exact absurd hacc hinit
      · rename_i h3
        split at hacc
        · exact absurd hacc hinit
        · rename_i h4
          rw [if_neg h1, if_neg h2, if_neg h3, if_neg h4]
          simp at h1
          exact ⟨h1, rfl⟩

/-- Counterexample to C6 as stated: the accepted list {65536x65536, 1280x720}
makes `configureStreams` pass 1280x720 to `setResolution`, because the area of
the first stream is 0 in 32 bit arithmetic, although that stream has the
largest area; and for the accepted empty list, which has no stream at all, it
passes 0x0. -/
theorem configureStreams_not_largest :
    (Camera.configureStreams Sample.configEnv [Sample.stream65536, Sample.stream720]).status = NO_ERROR
    ∧ (Camera.configureStreams Sample.configEnv [Sample.stream65536, Sample.stream720]).events
        = [Camera.ConfigEvent.setStreaming false, Camera.ConfigEvent.setResolution 1280 720,
           Camera.ConfigEvent.setStreaming true]
    ∧ Sample.stream720.width * Sample.stream720.height
        < Sample.stream65536.width * Sample.stream65536.height
    ∧ (Camera.configureStreams Sample.configEnv []).status = NO_ERROR
    ∧ (Camera.configureStreams Sample.configEnv []).events
        = [Camera.ConfigEvent.setStreaming false, Camera.ConfigEvent.setResolution 0 0,
           Camera.ConfigEvent.setStreaming true] := by
  decide

/-- C6 (amended): for every stream list that `configureStreams` accepts, in
which every area `width * height` is below `2 ^ 32` and some area is positive,
the resolution passed to `setResolution` is the size of the first listed
stream of largest area, whatever the formats and directions; for an accepted
list of a 1280x720 stream followed by a 1920x1080 stream it is 1920x1080. -/
theorem configureStreams_largest_area (env : Camera.ConfigEnv) (streams : List camera3_stream)
    (hacc : (Camera.configureStreams env streams).status = NO_ERROR) :
    ((∀ s ∈ streams, s.width * s.height < 2 ^ 32) → (∃ s ∈ streams, 0 < s.width * s.height) →
      ∃ pre s post, streams = pre ++ s :: post
        ∧ (Camera.configureStreams env streams).events
            = [Camera.ConfigEvent.setStreaming false,
               Camera.ConfigEvent.setResolution s.width s.height,
               Camera.ConfigEvent.setStreaming true]
        ∧ (∀ t ∈ streams, t.width * t.height ≤ s.width * s.height)
        ∧ (∀ t ∈ pre, t.width * t.height < s.width * s.height))
    ∧ (∀ a b, streams = [a, b] → a.width = 1280 → a.height = 720 → b.width = 1920 →
        b.height = 1080 →
        (Camera.configureStreams env streams).events
            = [Camera.ConfigEvent.setStreaming false, Camera.ConfigEvent.setResolution 1920 1080,
               Camera.ConfigEvent.setStreaming true]) := by
  obtain ⟨hok, hev⟩ := Camera.configureStreams_accepted env streams hacc
  have main : (∀ s ∈ streams, s.width * s.height < 2 ^ 32) →
      (∃ s ∈ streams, 0 < s.width * s.height) →
      ∃ pre s post, streams = pre ++ s :: post
        ∧ (Camera.configureStreams env streams).events
            = [Camera.ConfigEvent.setStreaming false,
               Camera.ConfigEvent.setResolution s.width s.height,
               Camera.ConfigEvent.setStreaming true]
        ∧ (∀ t ∈ streams, t.width * t.height ≤ s.width * s.height)
        ∧ (∀ t ∈ pre, t.width * t.height < s.width * s.height) := by
    intro hfit hpos
    rcases Camera.configureLoop_largest streams false 0 0 hfit (by norm_num) hok with
      ⟨_, _, hall⟩ | ⟨pre, s, post, hsplit, hw, hh, _, hpre, hpost⟩
    · obtain ⟨s, hs, hs0⟩ := hpos
      have := hall s hs
      omega
    · refine ⟨pre, s, post, hsplit, ?_, ?_, hpre⟩
      · rw [hev, hw, hh]
      · intro t ht
        rw [hsplit] at ht
        rcases List.mem_append.mp ht with h1 | h1
        · exact Nat.le_of_lt (hpre t h1)
        · rcases List.mem_cons.mp h1 with rfl | h2
          · exact Nat.le_refl _
          · exact hpost t h2
  refine ⟨main, ?_⟩
  intro a b hab haw hah hbw hbh
  have hfit : ∀ s ∈ streams, s.width * s.height < 2 ^ 32 := by
    intro s hs
    rw [hab] at hs
    simp only [List.mem_cons, List.mem_singleton, List.not_mem_nil, or_false] at hs
    rcases hs with rfl | rfl
    · rw [haw, hah]; norm_num
    · rw [hbw, hbh]; norm_num
  have hpos : ∃ s ∈ streams, 0 < s.width * s.height :=
    ⟨a, by rw [hab]; exact List.mem_cons_self _ _, by rw [haw, hah]; norm_num⟩
  obtain ⟨pre, s, post, hsplit, hevs, hmax, _⟩ := main hfit hpos
  have hb := hmax b (by rw [hab]; simp)
  have hs : s ∈ streams := by rw [hsplit]; simp
  rw [hab] at hs
  simp only [List.mem_cons, List.mem_singleton, List.not_mem_nil, or_false] at hs
  rcases hs with rfl | rfl
  · rw [haw, hah, hbw, hbh] at hb
    omega
  · rw [hevs, hbw, hbh]

/-- Witness of C6 (amended): the accepted list {1280x720 RGBA, 1920x1080 BLOB}
configures the capture resolution 1920x1080. -/
theorem configureStreams_largest_area_witness :
    (Camera.configureStreams Sample.configEnv [Sample.stream720, Sample.stream1080Blob]).status = NO_ERROR
    ∧ (Camera.configureStreams Sample.configEnv [Sample.stream720, Sample.stream1080Blob]).events
        = [Camera.ConfigEvent.setStreaming false, Camera.ConfigEvent.setResolution 1920 1080,
           Camera.ConfigEvent.setStreaming true] :=
  ⟨by decide,
   (configureStreams_largest_area Sample.configEnv [Sample.stream720, Sample.stream1080Blob]
      (by decide)).2 _ _ rfl rfl rfl rfl rfl⟩

/-- The `switch` over the stream format makes writes only. -/
theorem Camera.convertOutput_isWrite (bits : Nat) (c : Camera) (env : Camera.CaptureEnv)
    (cm : CameraMetadata) (frame : V4l2Device.VBuffer) (srcBuf : camera3_stream_buffer)
    (buf rgbaBuffer : Nat) :
    ∀ e ∈ (Camera.convertOutput bits c env cm frame srcBuf buf rgbaBuffer).1, e.isWrite = true := by
  intro e he
  unfold Camera.convertOutput at he
  simp only at he
  split_ifs at he <;> simp only [List.mem_cons, List.mem_singleton, List.not_mem_nil, or_false] at he
  all_goals (rcases he with rfl | rfl <;> rfl)

/-- The abort statement makes unmapping calls only. -/
theorem Camera.abortUnlock_isUnmap (request : camera3_capture_request) (i : Nat) :
    ∀ e ∈ Camera.abortUnlock request i, e.isUnmap = true := by
  induction i with
  | zero =>
    intro e he
    simp [Camera.abortUnlock] at he
    subst he
    rfl
  | succ i ih =>
    intro e he
    simp only [Camera.abortUnlock, List.mem_cons] at he
    rcases he with rfl | he
    · rfl
    · exact ih e he

/-- When the first loop over the output buffers runs to its end, it has made
fence waits, mappings and writes only. -/
theorem Camera.outputLoop_steps (bits : Nat) (c : Camera) (env : Camera.CaptureEnv)
    (cm : CameraMetadata) (frame : V4l2Device.VBuffer) (request : camera3_capture_request)
    (bufs : List camera3_stream_buffer) (i rgbaBuffer : Nat)
    (hok : (Camera.outputLoop bits c env cm frame request bufs i rgbaBuffer).1 = true) :
    ∀ e ∈ (Camera.outputLoop bits c env cm frame request bufs i rgbaBuffer).2,
      e.isBufferStep = true := by
  induction bufs generalizing i rgbaBuffer with
  | nil =>
    intro e he
    simp [Camera.outputLoop] at he
  | cons b rest ih =>
    intro e he
    unfold Camera.outputLoop at hok he
    simp only at hok he
    split at hok
    · rename_i hf
      rw [if_pos hf] at he
      split at hok
      · simp at hok
      · rename_i hl
        rw [if_neg hl] at he
        simp only [List.mem_cons, List.mem_append] at he
        rcases he with rfl | rfl | he | he
        · rfl
        · rfl
        · have hw := Camera.convertOutput_isWrite bits c env cm frame b (env.lockAddr i) rgbaBuffer e he
          cases e <;> simp_all [Camera.Event.isBufferStep, Camera.Event.isWrite]
        · exact ih _ _ hok e he
    · simp at hok

/-- The first loop over the output buffers never calls the result callback. -/
theorem Camera.outputLoop_no_result (bits : Nat) (c : Camera) (env : Camera.CaptureEnv)
    (cm : CameraMetadata) (frame : V4l2Device.VBuffer) (request : camera3_capture_request)
    (bufs : List camera3_stream_buffer) (i rgbaBuffer : Nat) :
    ∀ e ∈ (Camera.outputLoop bits c env cm frame request bufs i rgbaBuffer).2,
      e.isResult = false := by
  induction bufs generalizing i rgbaBuffer with
  | nil =>
    intro e he
    simp [Camera.outputLoop] at he
  | cons b rest ih =>
    intro e he
    unfold Camera.outputLoop at he
    simp only at he
    split at he
    · split at he
      · simp only [List.mem_cons] at he
        rcases he with rfl | rfl | he
        · rfl
        · rfl
        · have hu := Camera.abortUnlock_isUnmap request i e he
          cases e <;> simp_all [Camera.Event.isUnmap, Camera.Event.isResult]
      · simp only [List.mem_cons, List.mem_append] at he
        rcases he with rfl | rfl | he | he
        · rfl
        · rfl
        · have hw := Camera.convertOutput_isWrite bits c env cm frame b (env.lockAddr i) rgbaBuffer e he
          cases e <;> simp_all [Camera.Event.isResult, Camera.Event.isWrite]
        · exact ih _ _ e he
    · simp only [List.mem_cons] at he
      rcases he with rfl | he
      · rfl
      · have hu := Camera.abortUnlock_isUnmap request i e he
        cases e <;> simp_all [Camera.Event.isUnmap, Camera.Event.isResult]

/-- The second loop over the output buffers makes unmapping calls only and
pushes the reset copy of every output buffer, in order. -/
theorem Camera.releaseLoop_spec (bufs : List camera3_stream_buffer) (i : Nat) :
    (∀ e ∈ (Camera.releaseLoop bufs i).1, e.isUnmap = true)
    ∧ (Camera.releaseLoop bufs i).2 = bufs.map Camera.resultBuffer := by
  induction bufs generalizing i with
  | nil => exact ⟨fun e he => by simp [Camera.releaseLoop] at he, rfl⟩
  | cons b rest ih =>
    obtain ⟨h1, h2⟩ := ih (i + 1)
    constructor
    · intro e he
      simp only [Camera.releaseLoop, List.mem_cons] at he
      rcases he with rfl | he
      · rfl
      · exact h1 e he
    · simp only [Camera.releaseLoop, List.map_cons, h2]
      rfl

/-- The shape of a `processCaptureRequest` that returns `NO_ERROR`: a frame was
read, the first loop ran to its end, and the calls are the shutter
notification, `readLock`, the first loop, the second loop, `unlock` of the
frame and the result callback; the stamped block is cached. -/
theorem Camera.processCaptureRequest_success (bits : Nat) (c : Camera) (env : Camera.CaptureEnv)
    (request : camera3_capture_request)
    (h : (Camera.processCaptureRequest bits c env request).status = NO_ERROR) :
    ∃ frame, env.frame = some frame
      ∧ (request.settings.isNone && c.mLastRequestSettings.isEmpty) = false
      ∧ (Camera.outputLoop bits (Camera.afterAcquire c request) env (Camera.requestSettings c request)
          frame (Camera.ignoreInput request) (Camera.ignoreInput request).output_buffers 0 0).1 = true
      ∧ (Camera.processCaptureRequest bits c env request).events
          = Camera.Event.notifyShutter request.frame_number (toUInt64 env.timestamp)
            :: Camera.Event.readLock (some frame)
            :: ((Camera.outputLoop bits (Camera.afterAcquire c request) env
                  (Camera.requestSettings c request) frame (Camera.ignoreInput request)
                  (Camera.ignoreInput request).output_buffers 0 0).2
                ++ (Camera.releaseLoop (Camera.ignoreInput request).output_buffers 0).1
                ++ [Camera.Event.unlock frame,
                    Camera.Event.processCaptureResult request.frame_number
                      (Camera.stamp (Camera.requestSettings c request) env.timestamp
                        request.frame_number).mBuffer
                      (Camera.releaseLoop (Camera.ignoreInput request).output_buffers 0).2])
      ∧ (Camera.processCaptureRequest bits c env request).camera.mLastRequestSettings
          = Camera.stamp (Camera.requestSettings c request) env.timestamp request.frame_number := by
  have hbad : BAD_VALUE ≠ NO_ERROR := by decide
  have hinit : NO_INIT ≠ NO_ERROR := by decide
  have hdata : NOT_ENOUGH_DATA ≠ NO_ERROR := by decide
  unfold Camera.processCaptureRequest at h ⊢
  simp only at h ⊢
  split at h
  · exact absurd h hbad
  · rename_i h1
    rw [if_neg h1]
    split at h
    · exact absurd h hdata
    · rename_i frame hframe
      split at h
      · exact absurd h hinit
      · rename_i h2
        refine ⟨frame, hframe, by simpa using h1, by simpa using h2, ?_, ?_⟩
        · rw [if_neg h2]
        · rw [if_neg h2]

/-- A `processCaptureRequest` that returns an error has not called the result
callback. -/
theorem Camera.processCaptureRequest_failure (bits : Nat) (c : Camera) (env : Camera.CaptureEnv)
    (request : camera3_capture_request)
    (h : (Camera.processCaptureRequest bits c env request).status ≠ NO_ERROR) :
    ∀ e ∈ (Camera.processCaptureRequest bits c env request).events, e.isResult = false := by
  intro e he
  unfold Camera.processCaptureRequest at h he
  simp only at h he
  split at he
  · simp at he
  · rename_i h1
    rw [if_neg h1] at h
    split at he
    · simp only [List.mem_cons, List.mem_singleton, List.not_mem_nil, or_false] at he
      rcases he with rfl | rfl <;> rfl
    · rename_i frame hframe
      simp only [hframe] at h
      split at he
      · simp only [List.mem_cons] at he
        rcases he with rfl | rfl | he
        · rfl
        · rfl
        · exact Camera.outputLoop_no_result _ _ _ _ _ _ _ _ _ e he
      · rename_i h2
        rw [if_neg h2] at h
        exact absurd rfl h

/-- Looking up a tag after `update`: the new payload for the updated tag, the
old answer for every other tag. -/
theorem CameraMetadata.findEntry_updateEntry (tag other : Nat) (data : List Int)
    (m : camera_metadata_t) :
    CameraMetadata.findEntry other (CameraMetadata.updateEntry tag data m)
      = if other = tag then some data else CameraMetadata.findEntry other m := by
  induction m with
  | nil =>
    by_cases h : other = tag
    · subst h
      simp [CameraMetadata.updateEntry, CameraMetadata.findEntry]
    · have h2 : ¬ tag = other := fun e => h e.symm
      simp [CameraMetadata.updateEntry, CameraMetadata.findEntry, h, h2]
  | cons e es ih =>
    by_cases h1 : e.1 = tag
    · subst h1
      by_cases h2 : other = e.1
      · subst h2
        simp [CameraMetadata.updateEntry, CameraMetadata.findEntry]
      · have h3 : ¬ e.1 = other := fun h => h2 h.symm
        simp [CameraMetadata.updateEntry, CameraMetadata.findEntry, h2, h3]
    · by_cases h2 : other = tag
      · subst h2
        simp [CameraMetadata.updateEntry, CameraMetadata.findEntry, h1, ih]
      · by_cases h4 : e.1 = other
        · simp [CameraMetadata.updateEntry, CameraMetadata.findEntry, h1, h2, h4]
        · simp [CameraMetadata.updateEntry, CameraMetadata.findEntry, h1, h2, h4, ih]

/-- The stamped block answers the request's timestamp and frame number for the
two stamped tags and agrees with the unstamped block on every other tag. -/
theorem Camera.stamp_find (cm : CameraMetadata) (timestamp : Int) (frame_number : Nat) :
    CameraMetadata.findEntry ANDROID_SENSOR_TIMESTAMP (Camera.stamp cm timestamp frame_number).mBuffer
      = some [timestamp]
    ∧ CameraMetadata.findEntry ANDROID_SYNC_FRAME_NUMBER (Camera.stamp cm timestamp frame_number).mBuffer
      = some [(frame_number : Int)]
    ∧ ∀ tag, tag ≠ ANDROID_SENSOR_TIMESTAMP → tag ≠ ANDROID_SYNC_FRAME_NUMBER →
        CameraMetadata.findEntry tag (Camera.stamp cm timestamp frame_number).mBuffer
          = CameraMetadata.findEntry tag cm.mBuffer := by
  have hne : ANDROID_SENSOR_TIMESTAMP ≠ ANDROID_SYNC_FRAME_NUMBER := by decide
  refine ⟨?_, ?_, ?_⟩
  · simp only [Camera.stamp, CameraMetadata.update, CameraMetadata.findEntry_updateEntry,
      if_neg hne, if_true]
  · simp only [Camera.stamp, CameraMetadata.update, CameraMetadata.findEntry_updateEntry, if_true]
  · intro tag h1 h2
    simp only [Camera.stamp, CameraMetadata.update, CameraMetadata.findEntry_updateEntry,
      if_neg h1, if_neg h2]

/-- The stamped block is never empty. -/
theorem Camera.stamp_not_empty (cm : CameraMetadata) (timestamp : Int) (frame_number : Nat) :
    (Camera.stamp cm timestamp frame_number).isEmpty = false := by
  have h := (Camera.stamp_find cm timestamp frame_number).1
  cases hb : (Camera.stamp cm timestamp frame_number).mBuffer with
  | nil =>
    rw [hb] at h
    simp [CameraMetadata.findEntry] at h
  | cons e es => simp [CameraMetadata.isEmpty, hb]

/-- C7: a request without settings, received while no settings are cached,
makes `processCaptureRequest` return `BAD_VALUE` with no call made at all (no
shutter notification, no `readLock`, no result callback) and leaves the object,
hence the empty cache, as it was. -/
theorem processCaptureRequest_missing_settings (bits : Nat) (c : Camera) (env : Camera.CaptureEnv)
    (request : camera3_capture_request)
    (hsettings : request.settings = none)
    (hcache : c.mLastRequestSettings.isEmpty = true) :
    (Camera.processCaptureRequest bits c env request).status = BAD_VALUE
    ∧ (Camera.processCaptureRequest bits c env request).events = []
    ∧ (Camera.processCaptureRequest bits c env request).camera = c
    ∧ (Camera.processCaptureRequest bits c env request).camera.mLastRequestSettings.isEmpty = true
    ∧ (Camera.processCaptureRequest bits c env request).request = request := by
  have hcond : (request.settings.isNone && c.mLastRequestSettings.isEmpty) = true := by
    rw [hsettings, hcache]
    rfl
  have hrun : Camera.processCaptureRequest bits c env request
      = { status := BAD_VALUE, camera := c, request := request, events := [] } := by
    unfold Camera.processCaptureRequest
    simp only [hcond, if_true]
  rw [hrun]
  exact ⟨rfl, rfl, rfl, hcache, rfl⟩

/-- Witness of C7: the first request of a fresh camera object carries no
settings. -/
theorem processCaptureRequest_missing_settings_witness :
    (Camera.processCaptureRequest 64 Sample.camera Sample.env Sample.requestNoSettings).status = BAD_VALUE
    ∧ (Camera.processCaptureRequest 64 Sample.camera Sample.env Sample.requestNoSettings).events = [] :=
  ⟨(processCaptureRequest_missing_settings 64 Sample.camera Sample.env Sample.requestNoSettings
      rfl rfl).1,
   (processCaptureRequest_missing_settings 64 Sample.camera Sample.env Sample.requestNoSettings
      rfl rfl).2.1⟩

/-- The result callbacks among the calls of a `processCaptureRequest` that
returns `NO_ERROR`: exactly one, with the stamped block and the reset copies
of the output buffers. -/
theorem Camera.processCaptureRequest_results (bits : Nat) (c : Camera) (env : Camera.CaptureEnv)
    (request : camera3_capture_request)
    (h : (Camera.processCaptureRequest bits c env request).status = NO_ERROR) :
    (Camera.processCaptureRequest bits c env request).events.filter Camera.Event.isResult
      = [Camera.Event.processCaptureResult request.frame_number
          (Camera.stamp (Camera.requestSettings c request) env.timestamp request.frame_number).mBuffer
          (request.output_buffers.map Camera.resultBuffer)] := by
  obtain ⟨frame, _, _, hloop, hev, _⟩ := Camera.processCaptureRequest_success bits c env request h
  have hsteps := Camera.outputLoop_steps _ _ _ _ _ _ _ _ _ hloop
  have hrel := Camera.releaseLoop_spec (Camera.ignoreInput request).output_buffers 0
  have h1 : List.filter Camera.Event.isResult
      (Camera.outputLoop bits (Camera.afterAcquire c request) env (Camera.requestSettings c request)
        frame (Camera.ignoreInput request) (Camera.ignoreInput request).output_buffers 0 0).2 = [] := by
    rw [List.filter_eq_nil_iff]
    intro e he
    have := hsteps e he
    cases e <;> simp_all [Camera.Event.isBufferStep, Camera.Event.isWrite, Camera.Event.isResult]
  have h2 : List.filter Camera.Event.isResult
      (Camera.releaseLoop (Camera.ignoreInput request).output_buffers 0).1 = [] := by
    rw [List.filter_eq_nil_iff]
    intro e he
    have := hrel.1 e he
    cases e <;> simp_all [Camera.Event.isUnmap, Camera.Event.isResult]
  rw [hev]
  simp only [List.filter_cons, List.filter_append, h1, h2, Camera.Event.isResult, List.nil_append,
    List.filter_nil, hrel.2]
  rfl

/-- The cast to `uint64_t` keeps a timestamp that is not negative. -/
theorem toUInt64_of_nonneg (t : Int) (h0 : 0 ≤ t) (h1 : t < 2 ^ 64) : (toUInt64 t : Int) = t := by
  unfold toUInt64
  rw [Int.emod_eq_of_lt h0 h1]
  exact Int.toNat_of_nonneg h0

/-- The calls of every `processCaptureRequest` that returns `NO_ERROR` are, in
this order: the shutter notification, `readLock`, the steps of the first loop
(fence waits, mappings, conversion calls and the writes of the calling
thread), the unmappings, the `unlock` of the frame and last the result
callback. The shutter notification carries the frame number of the request
and the `systemTime()` sample that is stamped into the result as
`ANDROID_SENSOR_TIMESTAMP`. This is the order of the calls; it says nothing
about when the tasks of a conversion call store. -/
theorem Camera.processCaptureRequest_call_order (bits : Nat) (c : Camera) (env : Camera.CaptureEnv)
    (request : camera3_capture_request)
    (hok : (Camera.processCaptureRequest bits c env request).status = NO_ERROR) :
    ∃ frame steps unmaps result buffers,
      (Camera.processCaptureRequest bits c env request).events
        = Camera.Event.notifyShutter request.frame_number (toUInt64 env.timestamp)
          :: Camera.Event.readLock (some frame)
          :: (steps ++ unmaps
              ++ [Camera.Event.unlock frame,
                  Camera.Event.processCaptureResult request.frame_number result buffers])
      ∧ (∀ e ∈ steps, e.isBufferStep = true)
      ∧ (∀ e ∈ unmaps, e.isUnmap = true ∧ e.isWrite = false)
      ∧ CameraMetadata.findEntry ANDROID_SENSOR_TIMESTAMP result = some [env.timestamp]
      ∧ (0 ≤ env.timestamp → env.timestamp < 2 ^ 64 → (toUInt64 env.timestamp : Int) = env.timestamp) := by
  obtain ⟨frame, _, _, hloop, hev, _⟩ := Camera.processCaptureRequest_success bits c env request hok
  refine ⟨frame, _, _, _, _, hev, Camera.outputLoop_steps _ _ _ _ _ _ _ _ _ hloop, ?_,
    (Camera.stamp_find _ _ _).1, toUInt64_of_nonneg env.timestamp⟩
  intro e he
  have hu := (Camera.releaseLoop_spec (Camera.ignoreInput request).output_buffers 0).1 e he
  refine ⟨hu, ?_⟩
  cases e <;> simp_all [Camera.Event.isUnmap, Camera.Event.isWrite]

/-- The call order of the sample request with the sample collaborators. -/
theorem Camera.processCaptureRequest_call_order_sample :
    ∃ frame steps unmaps result buffers,
      (Camera.processCaptureRequest 64 Sample.camera Sample.env Sample.request).events
        = Camera.Event.notifyShutter Sample.request.frame_number (toUInt64 Sample.env.timestamp)
          :: Camera.Event.readLock (some frame)
          :: (steps ++ unmaps
              ++ [Camera.Event.unlock frame,
                  Camera.Event.processCaptureResult Sample.request.frame_number result buffers])
      ∧ (∀ e ∈ steps, e.isBufferStep = true)
      ∧ (∀ e ∈ unmaps, e.isUnmap = true ∧ e.isWrite = false)
      ∧ CameraMetadata.findEntry ANDROID_SENSOR_TIMESTAMP result = some [Sample.env.timestamp]
      ∧ (0 ≤ Sample.env.timestamp → Sample.env.timestamp < 2 ^ 64 →
          (toUInt64 Sample.env.timestamp : Int) = Sample.env.timestamp) :=
  Camera.processCaptureRequest_call_order 64 Sample.camera Sample.env Sample.request (by decide)

/-- C9: a `processCaptureRequest` that returns `NO_ERROR` calls the result
callback exactly once, with the frame number of the request and one entry per
output buffer of the request, in request order, each being that buffer with
acquire fence -1, release fence -1 and status `CAMERA3_BUFFER_STATUS_OK`; a
call that returns an error does not call the result callback. -/
theorem processCaptureRequest_result_once (bits : Nat) (c : Camera) (env : Camera.CaptureEnv)
    (request : camera3_capture_request) :
    ((Camera.processCaptureRequest bits c env request).status = NO_ERROR →
      ∃ result buffers,
        (Camera.processCaptureRequest bits c env request).events.filter Camera.Event.isResult
          = [Camera.Event.processCaptureResult request.frame_number result buffers]
        ∧ buffers = request.output_buffers.map Camera.resultBuffer
        ∧ buffers.length = request.output_buffers.length
        ∧ ∀ i (hi : i < request.output_buffers.length),
            (buffers.getD i default).stream = (request.output_buffers.get ⟨i, hi⟩).stream
            ∧ (buffers.getD i default).buffer = (request.output_buffers.get ⟨i, hi⟩).buffer
            ∧ (buffers.getD i default).acquire_fence = -1
            ∧ (buffers.getD i default).release_fence = -1
            ∧ (buffers.getD i default).status = CAMERA3_BUFFER_STATUS_OK)
    ∧ ((Camera.processCaptureRequest bits c env request).status ≠ NO_ERROR →
        (Camera.processCaptureRequest bits c env request).events.filter Camera.Event.isResult = []) := by
  constructor
  · intro hok
    refine ⟨_, _, Camera.processCaptureRequest_results bits c env request hok, rfl,
      by simp, ?_⟩
    intro i hi
    have hget : (request.output_buffers.map Camera.resultBuffer).getD i default
        = Camera.resultBuffer (request.output_buffers.get ⟨i, hi⟩) := by
      rw [List.getD_eq_getElem _ _ (by simpa using hi)]
      simp
    rw [hget]
    exact ⟨rfl, rfl, rfl, rfl, rfl⟩
  · intro herr
    rw [List.filter_eq_nil_iff]
    intro e he
    have := Camera.processCaptureRequest_failure bits c env request herr e he
    simp [this]

/-- Witness of C9: the sample request succeeds and delivers one result; with a
fence that times out it fails and delivers none. -/
theorem processCaptureRequest_result_once_witness :
    (∃ result buffers,
      (Camera.processCaptureRequest 64 Sample.camera Sample.env Sample.request).events.filter
          Camera.Event.isResult
        = [Camera.Event.processCaptureResult Sample.request.frame_number result buffers]
      ∧ buffers = Sample.request.output_buffers.map Camera.resultBuffer)
    ∧ (Camera.processCaptureRequest 64 Sample.camera Sample.envFenceTimeout Sample.request).events.filter
          Camera.Event.isResult = [] :=
  ⟨(((processCaptureRequest_result_once 64 Sample.camera Sample.env Sample.request).1
      (by decide)).imp fun _ h => h.imp fun _ h2 => ⟨h2.1, h2.2.1⟩),
   (processCaptureRequest_result_once 64 Sample.camera Sample.envFenceTimeout Sample.request).2
      (by decide)⟩

/-- Updating a tag that is present keeps the tags of the block and their order. -/
theorem CameraMetadata.updateEntry_keys (tag : Nat) (data : List Int) (m : camera_metadata_t)
    (h : CameraMetadata.findEntry tag m ≠ none) :
    (CameraMetadata.updateEntry tag data m).map Prod.fst = m.map Prod.fst := by
  induction m with
  | nil => simp [CameraMetadata.findEntry] at h
  | cons e es ih =>
    by_cases h1 : e.1 = tag
    · simp [CameraMetadata.updateEntry, h1]
    · simp only [CameraMetadata.findEntry, if_neg h1] at h
      simp [CameraMetadata.updateEntry, h1, ih h]

/-- Stamping a block that was stamped before keeps its tags and their order. -/
theorem Camera.stamp_stamp_keys (cm : CameraMetadata) (t1 t2 : Int) (n1 n2 : Nat) :
    (Camera.stamp (Camera.stamp cm t1 n1) t2 n2).mBuffer.map Prod.fst
      = (Camera.stamp cm t1 n1).mBuffer.map Prod.fst := by
  have hfind := Camera.stamp_find cm t1 n1
  have hts : CameraMetadata.findEntry ANDROID_SENSOR_TIMESTAMP (Camera.stamp cm t1 n1).mBuffer ≠ none := by
    rw [hfind.1]
    simp
  have hne : ANDROID_SYNC_FRAME_NUMBER ≠ ANDROID_SENSOR_TIMESTAMP := by decide
  have hfn : CameraMetadata.findEntry ANDROID_SYNC_FRAME_NUMBER
      (CameraMetadata.updateEntry ANDROID_SENSOR_TIMESTAMP [t2] (Camera.stamp cm t1 n1).mBuffer) ≠ none := by
    rw [CameraMetadata.findEntry_updateEntry, if_neg hne, hfind.2.1]
    simp
  show (CameraMetadata.updateEntry ANDROID_SYNC_FRAME_NUMBER [(n2 : Int)]
      (CameraMetadata.updateEntry ANDROID_SENSOR_TIMESTAMP [t2] (Camera.stamp cm t1 n1).mBuffer)).map Prod.fst
    = (Camera.stamp cm t1 n1).mBuffer.map Prod.fst
  rw [CameraMetadata.updateEntry_keys _ _ _ hfn, CameraMetadata.updateEntry_keys _ _ _ hts]

/-- C10: when a request with explicit settings `S` succeeds and the next
request, without settings, succeeds too, the second is processed with the
cached block: the metadata delivered for it has the same tags in the same
order as the metadata delivered for the first and the same payload for every
tag except `ANDROID_SENSOR_TIMESTAMP` and `ANDROID_SYNC_FRAME_NUMBER`, which
hold the timestamp and the frame number of each request; on the other tags
both agree with `S`. -/
theorem processCaptureRequest_reuses_settings (bits : Nat) (c : Camera)
    (env1 env2 : Camera.CaptureEnv) (request1 request2 : camera3_capture_request)
    (S : camera_metadata_t)
    (hS : request1.settings = some S) (hnone : request2.settings = none)
    (hok1 : (Camera.processCaptureRequest bits c env1 request1).status = NO_ERROR)
    (hok2 : (Camera.processCaptureRequest bits (Camera.processCaptureRequest bits c env1 request1).camera
              env2 request2).status = NO_ERROR) :
    ∃ md1 md2 buffers1 buffers2,
      (Camera.processCaptureRequest bits c env1 request1).events.filter Camera.Event.isResult
        = [Camera.Event.processCaptureResult request1.frame_number md1 buffers1]
      ∧ (Camera.processCaptureRequest bits (Camera.processCaptureRequest bits c env1 request1).camera
            env2 request2).events.filter Camera.Event.isResult
        = [Camera.Event.processCaptureResult request2.frame_number md2 buffers2]
      ∧ md2 = (Camera.stamp { mBuffer := md1 } env2.timestamp request2.frame_number).mBuffer
      ∧ md2.map Prod.fst = md1.map Prod.fst
      ∧ (∀ tag, tag ≠ ANDROID_SENSOR_TIMESTAMP → tag ≠ ANDROID_SYNC_FRAME_NUMBER →
          CameraMetadata.findEntry tag md2 = CameraMetadata.findEntry tag md1)
      ∧ (∀ tag, tag ≠ ANDROID_SENSOR_TIMESTAMP → tag ≠ ANDROID_SYNC_FRAME_NUMBER →
          CameraMetadata.findEntry tag md1 = CameraMetadata.findEntry tag S)
      ∧ CameraMetadata.findEntry ANDROID_SENSOR_TIMESTAMP md1 = some [env1.timestamp]
      ∧ CameraMetadata.findEntry ANDROID_SYNC_FRAME_NUMBER md1 = some [(request1.frame_number : Int)]
      ∧ CameraMetadata.findEntry ANDROID_SENSOR_TIMESTAMP md2 = some [env2.timestamp]
      ∧ CameraMetadata.findEntry ANDROID_SYNC_FRAME_NUMBER md2 = some [(request2.frame_number : Int)] := by
  have hr1 := Camera.processCaptureRequest_results bits c env1 request1 hok1
  have hr2 := Camera.processCaptureRequest_results bits _ env2 request2 hok2
  obtain ⟨_, _, _, _, _, hcache⟩ := Camera.processCaptureRequest_success bits c env1 request1 hok1
  have hcm1 : Camera.requestSettings c request1 = { mBuffer := S } := by
    simp only [Camera.requestSettings, hS]
  have hcm2 : Camera.requestSettings (Camera.processCaptureRequest bits c env1 request1).camera request2
      = Camera.stamp { mBuffer := S } env1.timestamp request1.frame_number := by
    rw [hcm1] at hcache
    simp only [Camera.requestSettings, hnone, hcache]
  rw [hcm1] at hr1
  rw [hcm2] at hr2
  refine ⟨_, _, _, _, hr1, hr2, rfl, Camera.stamp_stamp_keys _ _ _ _ _,
    (Camera.stamp_find _ _ _).2.2, (Camera.stamp_find _ _ _).2.2,
    (Camera.stamp_find _ _ _).1, (Camera.stamp_find _ _ _).2.1,
    (Camera.stamp_find _ _ _).1, (Camera.stamp_find _ _ _).2.1⟩

/-- Witness of C10: frame 7 with explicit settings, then frame 8 without. -/
theorem processCaptureRequest_reuses_settings_witness :
    ∃ md1 md2 buffers1 buffers2,
      (Camera.processCaptureRequest 64 Sample.camera Sample.env Sample.request).events.filter
          Camera.Event.isResult
        = [Camera.Event.processCaptureResult 7 md1 buffers1]
      ∧ (Camera.processCaptureRequest 64
            (Camera.processCaptureRequest 64 Sample.camera Sample.env Sample.request).camera
            Sample.envLater Sample.requestNoSettings).events.filter Camera.Event.isResult
        = [Camera.Event.processCaptureResult 8 md2 buffers2]
      ∧ CameraMetadata.findEntry ANDROID_JPEG_QUALITY md2 = CameraMetadata.findEntry ANDROID_JPEG_QUALITY md1
      ∧ CameraMetadata.findEntry ANDROID_SENSOR_TIMESTAMP md1 = some [1000000]
      ∧ CameraMetadata.findEntry ANDROID_SENSOR_TIMESTAMP md2 = some [34000000] :=
  (processCaptureRequest_reuses_settings 64 Sample.camera Sample.env Sample.envLater Sample.request
      Sample.requestNoSettings [(ANDROID_JPEG_QUALITY, [90])] rfl rfl (by decide) (by decide)).imp
    fun _ h => h.imp fun _ h => h.imp fun _ h => h.imp fun _ h =>
      ⟨h.1, h.2.1, h.2.2.2.2.1 ANDROID_JPEG_QUALITY (by decide) (by decide),
        h.2.2.2.2.2.2.1, h.2.2.2.2.2.2.2.2.1⟩

/-- C11 (evaluation at failing requests without settings): the cache holds the
block of frame 7. A request without settings that fails because no frame is
available, because its acquire fence times out or because its buffer cannot be
mapped returns with the cache emptied, since `cm.acquire(mLastRequestSettings)`
moved the block into the local `cm`; the next request without settings is then
turned down with `BAD_VALUE`. The same failures of a request with explicit
settings leave the cache as it was. -/
theorem processCaptureRequest_failure_drops_cache :
    Sample.cameraCached.mLastRequestSettings.isEmpty = false
    ∧ (Camera.processCaptureRequest 64 Sample.cameraCached Sample.envNoFrame
        Sample.requestNoSettings).status = NOT_ENOUGH_DATA
    ∧ (Camera.processCaptureRequest 64 Sample.cameraCached Sample.envNoFrame
        Sample.requestNoSettings).camera.mLastRequestSettings.isEmpty = true
    ∧ (Camera.processCaptureRequest 64 Sample.cameraCached Sample.envFenceTimeout
        Sample.requestNoSettings).status = NO_INIT
    ∧ (Camera.processCaptureRequest 64 Sample.cameraCached Sample.envFenceTimeout
        Sample.requestNoSettings).camera.mLastRequestSettings.isEmpty = true
    ∧ (Camera.processCaptureRequest 64 Sample.cameraCached Sample.envLockFails
        Sample.requestNoSettings).status = NO_INIT
    ∧ (Camera.processCaptureRequest 64 Sample.cameraCached Sample.envLockFails
        Sample.requestNoSettings).camera.mLastRequestSettings.isEmpty = true
    ∧ (Camera.processCaptureRequest 64
        (Camera.processCaptureRequest 64 Sample.cameraCached Sample.envNoFrame
          Sample.requestNoSettings).camera
        Sample.env Sample.requestNoSettings).status = BAD_VALUE
    ∧ (Camera.processCaptureRequest 64 Sample.cameraCached Sample.envNoFrame
        Sample.request).camera = Sample.cameraCached
    ∧ (Camera.processCaptureRequest 64 Sample.cameraCached Sample.envFenceTimeout
        Sample.request).camera = Sample.cameraCached := by
  decide

/-- C12 (evaluation at a request with two output buffers): when the acquire
fence of output buffer 1 times out, the call has mapped output buffer 0 only,
yet it unmaps output buffer 1 and then output buffer 0 before it returns
`NO_INIT`; the same happens when the mapping of output buffer 1 fails. With a
single output buffer whose fence times out, nothing was mapped and output
buffer 0 is unmapped all the same. No result is delivered. -/
theorem processCaptureRequest_abort_unmaps_failed_buffer :
    (Camera.processCaptureRequest 64 Sample.camera Sample.envSecondFenceTimeout Sample.requestTwo).status
      = NO_INIT
    ∧ (Camera.processCaptureRequest 64 Sample.camera Sample.envSecondFenceTimeout Sample.requestTwo).events
      = [Camera.Event.notifyShutter 9 1000000, Camera.Event.readLock (some Sample.frame),
         Camera.Event.fenceWait 0 9, Camera.Event.mapperLock 0 501,
         Camera.Event.toRGBA true 0x10000 0x200000 1920 1080,
         Camera.Event.fenceWait 1 10,
         Camera.Event.mapperUnlock 1 502, Camera.Event.mapperUnlock 0 501]
    ∧ ((Camera.processCaptureRequest 64 Sample.camera Sample.envSecondLockFails Sample.requestTwo).events.filter
        Camera.Event.isUnmap)
      = [Camera.Event.mapperUnlock 1 502, Camera.Event.mapperUnlock 0 501]
    ∧ ((Camera.processCaptureRequest 64 Sample.camera Sample.envFenceTimeout Sample.request).events.filter
        (fun e => e.isUnmap || decide (e = Camera.Event.mapperLock 0 501)))
      = [Camera.Event.mapperUnlock 0 501]
    ∧ ((Camera.processCaptureRequest 64 Sample.camera Sample.envSecondFenceTimeout Sample.requestTwo).events.filter
        Camera.Event.isResult) = [] := by
  decide

/-- Reading bytes gives the same list from two memories that agree there. -/
theorem ImageConverter.readBytes_congr (m m' : ImageConverter.Memory) (addr n : Nat)
    (h : ∀ a, addr ≤ a → a < addr + n → m a = m' a) :
    ImageConverter.readBytes m addr n = ImageConverter.readBytes m' addr n := by
  unfold ImageConverter.readBytes
  apply List.map_congr_left
  intro j hj
  have hj2 : j < n := List.mem_range.mp hj
  exact h (addr + j) (by omega) (by omega)

/-- An offset inside row `R` of rows of `Y` bytes has quotient `R`. -/
theorem ImageConverter.row_div (R Y x : Nat) (h1 : R * Y ≤ x) (h2 : x < R * Y + Y) :
    x / Y = R ∧ x % Y = x - R * Y := by
  have hq : x / Y = R := Nat.div_eq_of_lt_le h1 (by rw [Nat.succ_mul]; exact h2)
  refine ⟨hq, ?_⟩
  have := Nat.div_add_mod x Y
  rw [hq, Nat.mul_comm] at this
  omega

/-- The loop of the task function, started at row `R` of a frame whose source
rows it does not overwrite: it stores the converted bytes in the destination
rows `R .. R + n - 1` and leaves every other byte alone. -/
theorem ImageConverter.taskLoop_spec (bits : Nat) (r : ImageConverter.RowRoutines)
    (mem0 : ImageConverter.Memory) (src dst w : Nat)
    (h2 : w * 2 < 2 ^ bits) (h4 : w * 4 < 2 ^ bits) (n : Nat) :
    ∀ (m : ImageConverter.Memory) (R : Nat),
      (∀ a, src + R * (w * 2) ≤ a → a < src + R * (w * 2) + n * (w * 2) → m a = mem0 a) →
      (dst + R * (w * 4) + n * (w * 4) ≤ src + R * (w * 2)
        ∨ src + R * (w * 2) + n * (w * 2) ≤ dst + R * (w * 4)) →
      ∀ a, ImageConverter.taskLoop bits r n m (src + R * (w * 2)) (dst + R * (w * 4)) w a
        = if dst + R * (w * 4) ≤ a ∧ a < dst + R * (w * 4) + n * (w * 4) then
            ImageConverter.converted r mem0 src dst w a
          else m a := by
  induction n with
  | zero =>
    intro m R _ _ a
    have : ¬ (dst + R * (w * 4) ≤ a ∧ a < dst + R * (w * 4) + 0 * (w * 4)) := by omega
    simp only [ImageConverter.taskLoop, if_neg this]
  | succ n ih =>
    intro m R hm hdisj a
    have e2 : usize bits (w * 2) = w * 2 := Nat.mod_eq_of_lt h2
    have e4 : usize bits (w * 4) = w * 4 := Nat.mod_eq_of_lt h4
    have eX : (R + 1) * (w * 2) = R * (w * 2) + w * 2 := by rw [Nat.add_mul, Nat.one_mul]
    have eY : (R + 1) * (w * 4) = R * (w * 4) + w * 4 := by rw [Nat.add_mul, Nat.one_mul]
    have enX : (n + 1) * (w * 2) = n * (w * 2) + w * 2 := by rw [Nat.add_mul, Nat.one_mul]
    have enY : (n + 1) * (w * 4) = n * (w * 4) + w * 4 := by rw [Nat.add_mul, Nat.one_mul]
    rw [enX] at hm hdisj
    rw [enY] at hdisj
    rw [enY]
    have hstep : ImageConverter.taskLoop bits r (n + 1) m (src + R * (w * 2)) (dst + R * (w * 4)) w
        = ImageConverter.taskLoop bits r n
            (ImageConverter.convertRow r m (src + R * (w * 2)) (dst + R * (w * 4)) w)
            (src + (R + 1) * (w * 2)) (dst + (R + 1) * (w * 4)) w := by
      simp only [ImageConverter.taskLoop, e2, e4, eX, eY, Nat.add_assoc]
    rw [hstep]
    have hread : ImageConverter.readBytes m (src + R * (w * 2)) (w * 2)
        = ImageConverter.readBytes mem0 (src + R * (w * 2)) (w * 2) :=
      ImageConverter.readBytes_congr _ _ _ _ (fun b hb1 hb2 => hm b hb1 (by omega))
    have hrow : ∀ b, ImageConverter.convertRow r m (src + R * (w * 2)) (dst + R * (w * 4)) w b
        = if dst + R * (w * 4) ≤ b ∧ b < dst + R * (w * 4) + w * 4 then
            ImageConverter.converted r mem0 src dst w b
          else m b := by
      intro b
      unfold ImageConverter.convertRow ImageConverter.writeBytes
      simp only [hread]
      by_cases hb : dst + R * (w * 4) ≤ b ∧ b < dst + R * (w * 4) + w * 4
      · rw [if_pos hb, if_pos hb]
        obtain ⟨hq, hr⟩ := ImageConverter.row_div R (w * 4) (b - dst) (by omega) (by omega)
        unfold ImageConverter.converted
        simp only [hq, hr]
        have : b - dst - R * (w * 4) = b - (dst + R * (w * 4)) := by omega
        rw [this]
      · rw [if_neg hb, if_neg hb]
    have ih2 := ih (ImageConverter.convertRow r m (src + R * (w * 2)) (dst + R * (w * 4)) w) (R + 1)
      (by
        intro b hb1 hb2
        rw [eX] at hb1 hb2
        rw [hrow b]
        have hnot : ¬ (dst + R * (w * 4) ≤ b ∧ b < dst + R * (w * 4) + w * 4) := by omega
        rw [if_neg hnot]
        exact hm b (by omega) (by omega))
      (by rw [eX, eY]; omega) a
    rw [ih2, hrow a, eY]
    by_cases h1 : dst + R * (w * 4) ≤ a ∧ a < dst + R * (w * 4) + w * 4
    · have hn : ¬ (dst + (R * (w * 4) + w * 4) ≤ a
          ∧ a < dst + (R * (w * 4) + w * 4) + n * (w * 4)) := by omega
      have hp : dst + R * (w * 4) ≤ a ∧ a < dst + R * (w * 4) + (n * (w * 4) + w * 4) := by omega
      rw [if_neg hn, if_pos h1, if_pos hp]
    · rw [if_neg h1]
      by_cases h3 : dst + (R * (w * 4) + w * 4) ≤ a
          ∧ a < dst + (R * (w * 4) + w * 4) + n * (w * 4)
      · have hp : dst + R * (w * 4) ≤ a ∧ a < dst + R * (w * 4) + (n * (w * 4) + w * 4) := by omega
        rw [if_pos h3, if_pos hp]
      · have hp : ¬ (dst + R * (w * 4) ≤ a ∧ a < dst + R * (w * 4) + (n * (w * 4) + w * 4)) := by
          omega
        rw [if_neg h3, if_neg hp]

/-- A task of a frame: it starts at some row `R` of the source at `src` and of
the destination at `dst` and has rows of `w` pixels. -/
theorem ImageConverter.runTask_spec (bits : Nat) (r : ImageConverter.RowRoutines)
    (mem0 m : ImageConverter.Memory) (src dst w : Nat)
    (h2 : w * 2 < 2 ^ bits) (h4 : w * 4 < 2 ^ bits) (d : ImageConverter.ConvertTaskData) (R : Nat)
    (hsrc : d.src = src + R * (w * 2)) (hdst : d.dst = dst + R * (w * 4)) (hwidth : d.width = w)
    (hm : ∀ a, d.reads a → m a = mem0 a)
    (hdisj : d.dst + d.linesNum * (d.width * 4) ≤ d.src ∨ d.src + d.linesNum * (d.width * 2) ≤ d.dst) :
    ∀ a, (d.writes a → ImageConverter.runTask bits r m d a = ImageConverter.converted r mem0 src dst w a)
      ∧ (¬ d.writes a → ImageConverter.runTask bits r m d a = m a) := by
  intro a
  have hspec := ImageConverter.taskLoop_spec bits r mem0 src dst w h2 h4 d.linesNum m R
    (by
      intro b hb1 hb2
      apply hm b
      unfold ImageConverter.ConvertTaskData.reads
      rw [hsrc, hwidth]
      exact ⟨hb1, hb2⟩)
    (by rw [hsrc, hdst, hwidth] at hdisj; exact hdisj) a
  unfold ImageConverter.runTask
  rw [hsrc, hdst, hwidth, hspec]
  unfold ImageConverter.ConvertTaskData.writes
  rw [hdst, hwidth]
  constructor
  · intro h
    rw [if_pos h]
  · intro h
    rw [if_neg h]

/-- Executing tasks of one frame one after the other, in any order and with
repetitions, from a memory in which the tasks `done` have been executed: the
bytes in the destination rows of an executed task hold the conversion of the
frame, all other bytes are those of the initial memory. -/
theorem ImageConverter.runTasks_spec (bits : Nat) (r : ImageConverter.RowRoutines)
    (mem0 : ImageConverter.Memory) (src dst w : Nat)
    (h2 : w * 2 < 2 ^ bits) (h4 : w * 4 < 2 ^ bits) (all : List ImageConverter.ConvertTaskData)
    (hall : ∀ d ∈ all, ∃ R, d.src = src + R * (w * 2) ∧ d.dst = dst + R * (w * 4) ∧ d.width = w)
    (hfixed : ImageConverter.sourceFixed all)
    (ts : List ImageConverter.ConvertTaskData) :
    ∀ (done : List ImageConverter.ConvertTaskData) (m : ImageConverter.Memory),
      (∀ d ∈ ts, d ∈ all) → (∀ d ∈ done, d ∈ all) →
      (∀ a, ((∃ d ∈ done, d.writes a) → m a = ImageConverter.converted r mem0 src dst w a)
        ∧ ((¬ ∃ d ∈ done, d.writes a) → m a = mem0 a)) →
      ∀ a, ((∃ d ∈ done ++ ts, d.writes a) →
              ImageConverter.runTasks bits r m ts a = ImageConverter.converted r mem0 src dst w a)
        ∧ ((¬ ∃ d ∈ done ++ ts, d.writes a) → ImageConverter.runTasks bits r m ts a = mem0 a) := by
  induction ts with
  | nil =>
    intro done m _ _ hm a
    simpa [ImageConverter.runTasks] using hm a
  | cons d rest ih =>
    intro done m hts hdone hm a
    have hd : d ∈ all := hts d (List.mem_cons_self _ _)
    obtain ⟨R, hsrc, hdst, hwidth⟩ := hall d hd
    have hmd : ∀ b, d.reads b → m b = mem0 b := by
      intro b hb
      apply (hm b).2
      rintro ⟨e, he, hwb⟩
      have hsep := hfixed e (hdone e he) d hd
      unfold ImageConverter.ConvertTaskData.reads at hb
      unfold ImageConverter.ConvertTaskData.writes at hwb
      omega
    have hone := ImageConverter.runTask_spec bits r mem0 m src dst w h2 h4 d R hsrc hdst hwidth hmd
      (hfixed d hd d hd)
    have hstep : ImageConverter.runTasks bits r m (d :: rest)
        = ImageConverter.runTasks bits r (ImageConverter.runTask bits r m d) rest := rfl
    rw [hstep]
    have hnext := ih (done ++ [d]) (ImageConverter.runTask bits r m d)
      (fun e he => hts e (List.mem_cons_of_mem _ he))
      (by
        intro e he
        rcases List.mem_append.mp he with h | h
        · exact hdone e h
        · rw [List.mem_singleton.mp h]
          exact hd)
      (by
        intro b
        constructor
        · rintro ⟨e, he, hwb⟩
          by_cases hdb : d.writes b
          · exact (hone b).1 hdb
          · rw [(hone b).2 hdb]
            rcases List.mem_append.mp he with h | h
            · exact (hm b).1 ⟨e, h, hwb⟩
            · rw [List.mem_singleton.mp h] at hwb
              exact absurd hwb hdb
        · intro hno
          have hdb : ¬ d.writes b := fun h => hno ⟨d, by simp, h⟩
          rw [(hone b).2 hdb]
          exact (hm b).2 (fun ⟨e, he, hwb⟩ => hno ⟨e, List.mem_append_left _ he, hwb⟩)) a
    have hlist : done ++ [d] ++ rest = done ++ d :: rest := by simp
    rw [hlist] at hnext
    exact hnext

/-- The tasks queued by the first loop of `splitRunWait` from index `i` on start
a whole number of bands behind its pointers and carry the frame width. -/
theorem ImageConverter.splitLoop_tasks (bits width height : Nat) (n : Nat) :
    ∀ (i srcPtr dstPtr : Nat) (d : ImageConverter.ConvertTaskData),
      d ∈ (ImageConverter.splitLoop bits width height n i srcPtr dstPtr).1 →
      ∃ k, k < n
        ∧ d.src = srcPtr + k * usize bits (ImageConverter.linesPerTask height * u32 width * 2)
        ∧ d.dst = dstPtr + k * usize bits (ImageConverter.linesPerTask height * u32 width * 4)
        ∧ d.width = u32 width
        ∧ d.linesNum = ImageConverter.linesNum bits height (i + k) := by
  induction n with
  | zero =>
    intro i s t d hd
    simp [ImageConverter.splitLoop] at hd
  | succ n ih =>
    intro i s t d hd
    simp only [ImageConverter.splitLoop, List.mem_cons] at hd
    rcases hd with rfl | hd
    · exact ⟨0, Nat.succ_pos n, by simp, by simp, rfl, rfl⟩
    · obtain ⟨k, hk, h1, h2, h3, h4⟩ := ih _ _ _ d hd
      refine ⟨k + 1, by omega, ?_, ?_, h3, ?_⟩
      · rw [h1, Nat.add_mul, Nat.one_mul]
        omega
      · rw [h2, Nat.add_mul, Nat.one_mul]
        omega
      · rw [h4]
        congr 1
        omega

/-- Take the 30 tasks that `splitRunWait` queues for a frame, on a target
where the band stride does not overflow `size_t`, and let no task store into a
byte that a task reads. Then the memory after all tasks have run is the same
for every order of execution. Each task changes no byte outside its own
destination rows, and in the end every byte of a destination row of some task
holds the conversion of the source row of the same index, every other byte its
initial value. The condition on the stores fails at the heights at which a row
count wraps around. -/
theorem ImageConverter.runTasks_order_independent (bits : Nat) (r : ImageConverter.RowRoutines)
    (mem : ImageConverter.Memory) (src dst width height : Nat)
    (order : List ImageConverter.ConvertTaskData)
    (hstride : (ImageConverter.linesPerTask height + 1) * (u32 width * 4) < 2 ^ bits)
    (hfixed : ImageConverter.sourceFixed (ImageConverter.splitRunWait bits src dst width height).1)
    (hperm : order.Perm (ImageConverter.splitRunWait bits src dst width height).1) :
    ImageConverter.runTasks bits r mem order
      = ImageConverter.runTasks bits r mem (ImageConverter.splitRunWait bits src dst width height).1
    ∧ (∀ (m : ImageConverter.Memory) (d : ImageConverter.ConvertTaskData) (a : Nat),
        d ∈ (ImageConverter.splitRunWait bits src dst width height).1 → ¬ d.writes a →
        ImageConverter.runTask bits r m d a = m a)
    ∧ (∀ a,
        ((∃ d ∈ (ImageConverter.splitRunWait bits src dst width height).1, d.writes a) →
          ImageConverter.runTasks bits r mem order a
            = ImageConverter.converted r mem src dst (u32 width) a)
        ∧ ((¬ ∃ d ∈ (ImageConverter.splitRunWait bits src dst width height).1, d.writes a) →
          ImageConverter.runTasks bits r mem order a = mem a)) := by
  have hL : (ImageConverter.linesPerTask height + 1) * (u32 width * 4)
      = ImageConverter.linesPerTask height * (u32 width * 4) + u32 width * 4 := by
    rw [Nat.add_mul, Nat.one_mul]
  rw [hL] at hstride
  have h4 : u32 width * 4 < 2 ^ bits := by omega
  have h2 : u32 width * 2 < 2 ^ bits := by omega
  have hle : ImageConverter.linesPerTask height * (u32 width * 2)
      ≤ ImageConverter.linesPerTask height * (u32 width * 4) :=
    Nat.mul_le_mul_left _ (by omega)
  have hP4 : usize bits (ImageConverter.linesPerTask height * u32 width * 4)
      = ImageConverter.linesPerTask height * (u32 width * 4) := by
    rw [Nat.mul_assoc]
    exact Nat.mod_eq_of_lt (by omega)
  have hP2 : usize bits (ImageConverter.linesPerTask height * u32 width * 2)
      = ImageConverter.linesPerTask height * (u32 width * 2) := by
    rw [Nat.mul_assoc]
    exact Nat.mod_eq_of_lt (by omega)
  have hall : ∀ d ∈ (ImageConverter.splitRunWait bits src dst width height).1,
      ∃ R, d.src = src + R * (u32 width * 2) ∧ d.dst = dst + R * (u32 width * 4)
        ∧ d.width = u32 width := by
    intro d hd
    obtain ⟨k, _, h1, h3, h5, _⟩ := ImageConverter.splitLoop_tasks bits width height _ _ _ _ d hd
    refine ⟨k * ImageConverter.linesPerTask height, ?_, ?_, h5⟩
    · rw [h1, hP2, Nat.mul_assoc]
    · rw [h3, hP4, Nat.mul_assoc]
  have hmem : ∀ d, d ∈ order ↔ d ∈ (ImageConverter.splitRunWait bits src dst width height).1 :=
    fun d => hperm.mem_iff
  have hinit : ∀ a, ((∃ d ∈ ([] : List ImageConverter.ConvertTaskData), d.writes a) →
        mem a = ImageConverter.converted r mem src dst (u32 width) a)
      ∧ ((¬ ∃ d ∈ ([] : List ImageConverter.ConvertTaskData), d.writes a) → mem a = mem a) := by
    intro a
    exact ⟨fun ⟨d, hd, _⟩ => absurd hd (List.not_mem_nil d), fun _ => rfl⟩
  have hord := ImageConverter.runTasks_spec bits r mem src dst (u32 width) h2 h4 _ hall hfixed order
    [] mem (fun d hd => (hmem d).mp hd) (fun d hd => absurd hd (List.not_mem_nil d)) hinit
  have hcan := ImageConverter.runTasks_spec bits r mem src dst (u32 width) h2 h4 _ hall hfixed
    (ImageConverter.splitRunWait bits src dst width height).1
    [] mem (fun d hd => hd) (fun d hd => absurd hd (List.not_mem_nil d)) hinit
  simp only [List.nil_append] at hord hcan
  have hiff : ∀ a, (∃ d ∈ order, d.writes a)
      ↔ ∃ d ∈ (ImageConverter.splitRunWait bits src dst width height).1, d.writes a :=
    fun a => ⟨fun ⟨d, hd, hw⟩ => ⟨d, (hmem d).mp hd, hw⟩, fun ⟨d, hd, hw⟩ => ⟨d, (hmem d).mpr hd, hw⟩⟩
  refine ⟨?_, ?_, ?_⟩
  · funext a
    by_cases hw : ∃ d ∈ (ImageConverter.splitRunWait bits src dst width height).1, d.writes a
    · rw [(hord a).1 ((hiff a).mpr hw), (hcan a).1 hw]
    · rw [(hord a).2 (fun h => hw ((hiff a).mp h)), (hcan a).2 hw]
  · intro m d a hd hnw
    obtain ⟨R, hsrc, hdst, hwidth⟩ := hall d hd
    exact (ImageConverter.runTask_spec bits r m m src dst (u32 width) h2 h4 d R hsrc hdst hwidth
      (fun _ _ => rfl) (hfixed d hd d hd) a).2 hnw
  · intro a
    exact ⟨fun hw => (hord a).1 ((hiff a).mpr hw), fun hw => (hord a).2 (fun h => hw ((hiff a).mp h))⟩

/-- A frame of 2x60 pixels at address 0 is converted to address 100000; the
tasks are run in the reverse of the queueing order. -/
theorem ImageConverter.runTasks_order_independent_sample :
    ImageConverter.runTasks 64 Sample.rowRoutines Sample.memory
        (ImageConverter.splitRunWait 64 0 100000 2 60).1.reverse
      = ImageConverter.runTasks 64 Sample.rowRoutines Sample.memory
        (ImageConverter.splitRunWait 64 0 100000 2 60).1 :=
  (ImageConverter.runTasks_order_independent 64 Sample.rowRoutines Sample.memory 0 100000 2 60
    (ImageConverter.splitRunWait 64 0 100000 2 60).1.reverse
    (by decide) (by unfold ImageConverter.sourceFixed; decide) (List.reverse_perm _)).1

/-- The decimal digit characters are digits with the right value. -/
theorem V4l2Device.digitChar_spec :
    ∀ d, d < 10 → V4l2Device.isdigit (Nat.digitChar d) = true ∧ (Nat.digitChar d).toNat - 48 = d := by
  decide

/-- A digit is neither white space, nor a sign, nor the letter `x`. -/
theorem V4l2Device.isdigit_plain (c : Char) (h : V4l2Device.isdigit c = true) :
    V4l2Device.isspace c = false ∧ c ≠ Char.ofNat 45 ∧ c ≠ Char.ofNat 43 ∧ c ≠ Char.ofNat 120 := by
  simp only [V4l2Device.isdigit, Bool.and_eq_true, decide_eq_true_eq] at h
  refine ⟨?_, ?_, ?_, ?_⟩
  · simp only [V4l2Device.isspace, Bool.or_eq_false_iff, Bool.and_eq_false_iff, decide_eq_false_iff_not,
      beq_eq_false_iff_ne, ne_eq]
    constructor
    · omega
    · right
      omega
  · intro hc
    rw [hc] at h
    revert h
    decide
  · intro hc
    rw [hc] at h
    revert h
    decide
  · intro hc
    rw [hc] at h
    revert h
    decide

/-- The digit loop of `strtoul` over a run of digits. -/
theorem V4l2Device.digitsValue_append (l rest : List Char) (acc : Nat)
    (hl : ∀ c ∈ l, V4l2Device.isdigit c = true) :
    V4l2Device.digitsValue (l ++ rest) acc
      = V4l2Device.digitsValue rest (l.foldl (fun a c => a * 10 + (c.toNat - 48)) acc) := by
  induction l generalizing acc with
  | nil => rfl
  | cons c cs ih =>
    have hc := hl c (List.mem_cons_self _ _)
    simp only [List.cons_append, V4l2Device.digitsValue, hc, if_true, List.foldl_cons]
    exact ih _ (fun x hx => hl x (List.mem_cons_of_mem _ hx))

/-- The numeral written by `toDigitsCore` is a run of digits, not empty, whose
value is the number written. -/
theorem V4l2Device.toDigitsCore_spec (fuel : Nat) :
    ∀ (n : Nat) (ds : List Char), n < fuel →
      ∃ l, Nat.toDigitsCore 10 fuel n ds = l ++ ds ∧ l ≠ []
        ∧ (∀ c ∈ l, V4l2Device.isdigit c = true)
        ∧ l.foldl (fun a c => a * 10 + (c.toNat - 48)) 0 = n := by
  induction fuel with
  | zero =>
    intro n ds h
    omega
  | succ fuel ih =>
    intro n ds h
    have hd := V4l2Device.digitChar_spec (n % 10) (Nat.mod_lt _ (by decide))
    by_cases h0 : n / 10 = 0
    · refine ⟨[Nat.digitChar (n % 10)], ?_, by simp, ?_, ?_⟩
      · simp [Nat.toDigitsCore, h0]
      · intro c hc
        rw [List.mem_singleton.mp hc]
        exact hd.1
      · simp only [List.foldl_cons, List.foldl_nil, hd.2]
        omega
    · obtain ⟨l, hl1, _, hl3, hl4⟩ := ih (n / 10) (Nat.digitChar (n % 10) :: ds) (by omega)
      refine ⟨l ++ [Nat.digitChar (n % 10)], ?_, by simp, ?_, ?_⟩
      · simp only [Nat.toDigitsCore, h0, if_false, hl1]
        simp
      · intro c hc
        rcases List.mem_append.mp hc with h1 | h1
        · exact hl3 c h1
        · rw [List.mem_singleton.mp h1]
          exact hd.1
      · rw [List.foldl_append, hl4]
        simp only [List.foldl_cons, List.foldl_nil, hd.2]
        omega

/-- The library call `strtoul` reads a decimal numeral back. -/
theorem V4l2Device.strtoul_decimal (bits n : Nat) (hn : n < 2 ^ bits) :
    V4l2Device.strtoul bits (V4l2Device.decimal n) = (n, false)
    ∧ (∀ c ∈ V4l2Device.decimal n, c ≠ Char.ofNat 120) := by
  obtain ⟨l, hl1, hl2, hl3, hl4⟩ := V4l2Device.toDigitsCore_spec (n + 1) n [] (Nat.lt_succ_self n)
  have hdec : V4l2Device.decimal n = l := by
    unfold V4l2Device.decimal Nat.toDigits
    rw [hl1, List.append_nil]
  rw [hdec]
  constructor
  · cases l with
    | nil => exact absurd rfl hl2
    | cons c t =>
      have hc := V4l2Device.isdigit_plain c (hl3 c (List.mem_cons_self _ _))
      have hval := V4l2Device.digitsValue_append (c :: t) [] 0 hl3
      rw [List.append_nil, hl4] at hval
      have hhead : (c :: t).head? = some c := rfl
      have hne45 : ¬ (some c = some (Char.ofNat 45)) := fun h => hc.2.1 (Option.some.inj h)
      have hsign : ¬ (c = Char.ofNat 45 ∨ c = Char.ofNat 43) := fun h => h.elim hc.2.1 hc.2.2.1
      have hge : ¬ (n ≥ 2 ^ bits) := by omega
      simp only [V4l2Device.strtoul, List.dropWhile_cons, hc.1, hhead, hne45, hsign, if_false,
        decide_False, hval, V4l2Device.digitsValue, hge, Bool.false_eq_true]
  · intro c hc
    exact (V4l2Device.isdigit_plain c (hl3 c hc)).2.2.2

/-- Splitting `l ++ x :: rest` at the first `x` when `l` has no `x`. -/
theorem V4l2Device.split_at_x (l rest : List Char) (h : ∀ c ∈ l, c ≠ Char.ofNat 120) :
    (l ++ Char.ofNat 120 :: rest).takeWhile (fun c => c ≠ Char.ofNat 120) = l
    ∧ (l ++ Char.ofNat 120 :: rest).dropWhile (fun c => c ≠ Char.ofNat 120) = Char.ofNat 120 :: rest := by
  induction l with
  | nil => simp [List.takeWhile, List.dropWhile]
  | cons c cs ih =>
    have hc := h c (List.mem_cons_self _ _)
    obtain ⟨h1, h2⟩ := ih (fun x hx => h x (List.mem_cons_of_mem _ hx))
    have hdec : decide (c ≠ Char.ofNat 120) = true := decide_eq_true hc
    simp only [List.cons_append, List.takeWhile, List.dropWhile, hdec]
    exact ⟨congrArg (List.cons c) h1, h2⟩

/-- The parsing block of the constructor reads `WIDTHxHEIGHT` back. -/
theorem V4l2Device.parseForced_decimal (bits W H : Nat) (hbits : 32 ≤ bits)
    (hW : W < 2 ^ 32) (hH : H < 2 ^ 32) :
    V4l2Device.parseForced bits (V4l2Device.decimal W ++ Char.ofNat 120 :: V4l2Device.decimal H)
      = some { width := W, height := H } := by
  have hpow : 2 ^ 32 ≤ 2 ^ bits := Nat.pow_le_pow_right (by decide) hbits
  obtain ⟨hw1, hw2⟩ := V4l2Device.strtoul_decimal bits W (by omega)
  obtain ⟨hh1, _⟩ := V4l2Device.strtoul_decimal bits H (by omega)
  obtain ⟨ht, hd⟩ := V4l2Device.split_at_x (V4l2Device.decimal W) (V4l2Device.decimal H) hw2
  have eW : u32 W = W := Nat.mod_eq_of_lt hW
  have eH : u32 H = H := Nat.mod_eq_of_lt hH
  simp only [V4l2Device.parseForced, ht, hd, hw1, hh1, Bool.or_self, Bool.false_eq_true, if_false,
    eW, eH]

/-- With an override in force, `availableResolutions` answers from the override:
no request is sent, and only the cached vector may change. -/
theorem V4l2Device.availableResolutions_forced (d : V4l2Device) (k : V4l2Device.Kernel) (W H : Nat)
    (hW : 0 < W) (hH : 0 < H) (hforced : d.mForcedResolution = { width := W, height := H })
    (hcache : d.mAvailableResolutions = [] ∨ d.mAvailableResolutions = [{ width := W, height := H }]) :
    V4l2Device.availableResolutions d k
      = { val := [{ width := W, height := H }],
          dev := { d with mAvailableResolutions := [{ width := W, height := H }] },
          calls := [] } := by
  obtain ⟨fd, con, str, cache, forced, fmt, bufs, pfd⟩ := d
  simp only at hforced hcache
  subst hforced
  rcases hcache with rfl | rfl
  · simp [V4l2Device.availableResolutions, hW, hH]
  · simp [V4l2Device.availableResolutions]

/-- The member `availableResolutions` changes the cached vector only, and the
vector it leaves is the old one or the one it returns. -/
theorem V4l2Device.availableResolutions_frame (d : V4l2Device) (k : V4l2Device.Kernel) :
    (V4l2Device.availableResolutions d k).dev
        = { d with mAvailableResolutions := (V4l2Device.availableResolutions d k).dev.mAvailableResolutions }
    ∧ ((V4l2Device.availableResolutions d k).dev.mAvailableResolutions = d.mAvailableResolutions
        ∨ (V4l2Device.availableResolutions d k).dev.mAvailableResolutions
            = (V4l2Device.availableResolutions d k).val) := by
  unfold V4l2Device.availableResolutions
  simp only
  split_ifs <;> exact ⟨rfl, by first | exact Or.inl rfl | exact Or.inr rfl⟩

/-- The member `setResolutionAndAllocateBuffers` changes the format and the ring
buffers only. -/
theorem V4l2Device.setResolutionAndAllocateBuffers_frame (bits : Nat) (d : V4l2Device)
    (k : V4l2Device.Kernel) (width height : Nat) :
    ∃ fmt bufs, (V4l2Device.setResolutionAndAllocateBuffers bits d k width height).dev
      = { d with mFormat := fmt, mBuf := bufs } := by
  unfold V4l2Device.setResolutionAndAllocateBuffers V4l2Device.iocSFmt
  simp only
  split_ifs <;> exact ⟨_, _, rfl⟩

/-- The member `connect` keeps the override and the streaming flag, and the
cached vector it leaves is the old one or the one that `availableResolutions`
returns after the device was opened. -/
theorem V4l2Device.connect_frame (bits : Nat) (d : V4l2Device) (k : V4l2Device.Kernel) :
    (V4l2Device.connect bits d k).dev.mForcedResolution = d.mForcedResolution
    ∧ (V4l2Device.connect bits d k).dev.mStreaming = d.mStreaming
    ∧ ((V4l2Device.connect bits d k).dev.mAvailableResolutions = d.mAvailableResolutions
        ∨ (V4l2Device.connect bits d k).dev.mAvailableResolutions
            = (V4l2Device.availableResolutions { d with mFd := k.openFd } k).val) := by
  obtain ⟨hav1, hav2⟩ := V4l2Device.availableResolutions_frame { d with mFd := k.openFd } k
  unfold V4l2Device.connect
  simp only
  split_ifs with h1 h2 h3 h4
  · exact ⟨rfl, rfl, Or.inl rfl⟩
  · exact ⟨rfl, rfl, Or.inl rfl⟩
  · obtain ⟨fmt, bufs, hs⟩ := V4l2Device.setResolutionAndAllocateBuffers_frame bits
      { d with mFd := k.openFd } k d.mFormat.width d.mFormat.height
    rw [hs]
    exact ⟨rfl, rfl, Or.inl rfl⟩
  · obtain ⟨fmt, bufs, hs⟩ := V4l2Device.setResolutionAndAllocateBuffers_frame bits
      { d with mFd := k.openFd } k d.mFormat.width d.mFormat.height
    rw [hs]
    exact ⟨rfl, rfl, Or.inl rfl⟩
  · split
    · rw [hav1]
      exact ⟨rfl, rfl, hav2⟩
    · rename_i r rest hval
      obtain ⟨fmt, bufs, hs⟩ := V4l2Device.setResolutionAndAllocateBuffers_frame bits
        (V4l2Device.availableResolutions { d with mFd := k.openFd } k).dev k r.width r.height
      split_ifs <;> rw [hs, hav1] <;> exact ⟨rfl, rfl, hav2⟩

/-- With an override in force, `connect` keeps the override and caches nothing
but the override. -/
theorem V4l2Device.connect_forced (bits : Nat) (d : V4l2Device) (k : V4l2Device.Kernel) (W H : Nat)
    (hW : 0 < W) (hH : 0 < H) (hforced : d.mForcedResolution = { width := W, height := H })
    (hcache : d.mAvailableResolutions = [] ∨ d.mAvailableResolutions = [{ width := W, height := H }]) :
    (V4l2Device.connect bits d k).dev.mForcedResolution = { width := W, height := H }
    ∧ ((V4l2Device.connect bits d k).dev.mAvailableResolutions = []
        ∨ (V4l2Device.connect bits d k).dev.mAvailableResolutions = [{ width := W, height := H }]) := by
  have hav := V4l2Device.availableResolutions_forced { d with mFd := k.openFd } k W H hW hH hforced hcache
  obtain ⟨h1, _, h3⟩ := V4l2Device.connect_frame bits d k
  rw [hav] at h3
  refine ⟨h1.trans hforced, ?_⟩
  rcases h3 with h | h
  · rw [h]
    exact hcache
  · exact Or.inr h

/-- C14 (amended): when the property holds `WIDTHxHEIGHT` for two positive numbers (that
fit the `unsigned` members of a resolution), the constructor returns, in
either build, with the override `{WIDTH, HEIGHT}` in force and nothing else
cached; and in every state with that override in force, on the first call and
on every later call, `availableResolutions` returns the single entry
`{WIDTH, HEIGHT}`, sends no request to the kernel (no `open`, no enumeration)
and changes nothing but the cached vector. -/
theorem availableResolutions_override (bits W H : Nat) (hbits : 32 ≤ bits)
    (hW : 0 < W) (hH : 0 < H) (hW32 : W < 2 ^ 32) (hH32 : H < 2 ^ 32) :
    (∀ (openOnce : Bool) (k : V4l2Device.Kernel) (uninit : V4l2Device.Resolution),
      ∃ o, V4l2Device.ctor openOnce bits k uninit
            (V4l2Device.decimal W ++ Char.ofNat 120 :: V4l2Device.decimal H) = some o
        ∧ o.dev.mForcedResolution = { width := W, height := H }
        ∧ (o.dev.mAvailableResolutions = []
            ∨ o.dev.mAvailableResolutions = [{ width := W, height := H }]))
    ∧ (∀ (d : V4l2Device) (k : V4l2Device.Kernel),
        d.mForcedResolution = { width := W, height := H } →
        (d.mAvailableResolutions = [] ∨ d.mAvailableResolutions = [{ width := W, height := H }]) →
        (V4l2Device.availableResolutions d k).val = [{ width := W, height := H }]
        ∧ (V4l2Device.availableResolutions d k).calls = []
        ∧ (V4l2Device.availableResolutions d k).dev
            = { d with mAvailableResolutions := [{ width := W, height := H }] }) := by
  constructor
  · intro openOnce k uninit
    have hparse := V4l2Device.parseForced_decimal bits W H hbits hW32 hH32
    have hlen : (V4l2Device.decimal W ++ Char.ofNat 120 :: V4l2Device.decimal H).length > 0 := by
      simp
    cases openOnce with
    | false =>
      have hctor : V4l2Device.ctor false bits k uninit
            (V4l2Device.decimal W ++ Char.ofNat 120 :: V4l2Device.decimal H)
          = some { val := (), dev := V4l2Device.initial { width := W, height := H }, calls := [] } := by
        simp only [V4l2Device.ctor, hlen, if_true, hparse, Bool.false_eq_true, if_false]
      exact ⟨_, hctor, rfl, Or.inl rfl⟩
    | true =>
      have hctor : V4l2Device.ctor true bits k uninit
            (V4l2Device.decimal W ++ Char.ofNat 120 :: V4l2Device.decimal H)
          = some { val := (),
                   dev := (V4l2Device.connect bits (V4l2Device.initial { width := W, height := H }) k).dev,
                   calls := (V4l2Device.connect bits (V4l2Device.initial { width := W, height := H }) k).calls } := by
        simp only [V4l2Device.ctor, hlen, if_true, hparse]
      exact ⟨_, hctor,
        (V4l2Device.connect_forced bits _ k W H hW hH rfl (Or.inl rfl)).1,
        (V4l2Device.connect_forced bits _ k W H hW hH rfl (Or.inl rfl)).2⟩
  · intro d k hforced hcache
    rw [V4l2Device.availableResolutions_forced d k W H hW hH hforced hcache]
    exact ⟨rfl, rfl, rfl⟩

/-- Witness of C14 (amended): the property value `1280x720` on a 64 bit target. -/
theorem availableResolutions_override_witness :
    V4l2Device.decimal 1280 ++ Char.ofNat 120 :: V4l2Device.decimal 720 = Sample.prop1280x720
    ∧ (∃ o, V4l2Device.ctor false 64 Sample.kernel Sample.zeroed
          (V4l2Device.decimal 1280 ++ Char.ofNat 120 :: V4l2Device.decimal 720) = some o
        ∧ o.dev.mForcedResolution = { width := 1280, height := 720 }
        ∧ (o.dev.mAvailableResolutions = []
            ∨ o.dev.mAvailableResolutions = [{ width := 1280, height := 720 }]))
    ∧ (V4l2Device.availableResolutions (V4l2Device.initial { width := 1280, height := 720 })
        Sample.kernel).val = [{ width := 1280, height := 720 }]
    ∧ (V4l2Device.availableResolutions (V4l2Device.initial { width := 1280, height := 720 })
        Sample.kernel).calls = [] :=
  ⟨by decide,
   (availableResolutions_override 64 1280 720 (by decide) (by decide) (by decide) (by decide)
      (by decide)).1 false Sample.kernel Sample.zeroed,
   ((availableResolutions_override 64 1280 720 (by decide) (by decide) (by decide) (by decide)
      (by decide)).2 (V4l2Device.initial { width := 1280, height := 720 }) Sample.kernel
      rfl (Or.inl rfl)).1,
   ((availableResolutions_override 64 1280 720 (by decide) (by decide) (by decide) (by decide)
      (by decide)).2 (V4l2Device.initial { width := 1280, height := 720 }) Sample.kernel
      rfl (Or.inl rfl)).2.1⟩

/-- C15 (evaluation at malformed property values): for `1280`, which has no
separator, `strchr` returns `NULL` and the constructor reads through the null
pointer in `strtoul`: it does not return. For `12abx720` the leading digits are
taken and the override 12x720 is in force: `availableResolutions` returns it
without any enumeration. For `abcx720` and `1280xabc` the constructor returns
with the forced resolution 0x720 and 1280x0, not 0x0. -/
theorem ctor_malformed_override :
    V4l2Device.ctor false 64 Sample.kernel Sample.zeroed Sample.prop1280 = none
    ∧ V4l2Device.ctor false 32 Sample.kernel Sample.zeroed Sample.prop1280 = none
    ∧ V4l2Device.ctor false 64 Sample.kernel Sample.zeroed Sample.prop12abx720
        = some { val := (), dev := V4l2Device.initial { width := 12, height := 720 }, calls := [] }
    ∧ (V4l2Device.availableResolutions (V4l2Device.initial { width := 12, height := 720 })
        Sample.kernel).val = [{ width := 12, height := 720 }]
    ∧ (V4l2Device.availableResolutions (V4l2Device.initial { width := 12, height := 720 })
        Sample.kernel).calls = []
    ∧ V4l2Device.ctor false 64 Sample.kernel Sample.zeroed Sample.propabcx720
        = some { val := (), dev := V4l2Device.initial { width := 0, height := 720 }, calls := [] }
    ∧ V4l2Device.ctor false 64 Sample.kernel Sample.zeroed Sample.prop1280xabc
        = some { val := (), dev := V4l2Device.initial { width := 1280, height := 0 }, calls := [] } := by
  decide

/-- The `while` loop of `availableResolutions` keeps, in order, the reported
sizes that are at most 1920 wide and 1080 high, and asks for the indices one by
one until the kernel fails. -/
theorem V4l2Device.enumLoop_spec (sizes : List V4l2Device.Resolution) (index : Nat) :
    (V4l2Device.enumLoop sizes index).1
      = sizes.filter (fun s => decide (s.width ≤ 1920) && decide (s.height ≤ 1080))
    ∧ (V4l2Device.enumLoop sizes index).2
      = (List.range (sizes.length + 1)).map (fun j => V4l2Device.DevCall.ENUM_FRAMESIZES (index + j)) := by
  induction sizes generalizing index with
  | nil => exact ⟨rfl, rfl⟩
  | cons s rest ih =>
    obtain ⟨h1, h2⟩ := ih (index + 1)
    have hcalls : V4l2Device.DevCall.ENUM_FRAMESIZES index :: (V4l2Device.enumLoop rest (index + 1)).2
        = (List.range ((s :: rest).length + 1)).map
            (fun j => V4l2Device.DevCall.ENUM_FRAMESIZES (index + j)) := by
      rw [h2, List.length_cons, List.range_succ_eq_map (rest.length + 1), List.map_cons, List.map_map]
      congr 1
      apply List.map_congr_left
      intro j _
      simp only [Function.comp_apply]
      congr 1
      omega
    by_cases hbig : s.width > 1920 ∨ s.height > 1080
    · have hcond : (decide (s.width > 1920) || decide (s.height > 1080)) = true := by simpa using hbig
      have hkeep : (decide (s.width ≤ 1920) && decide (s.height ≤ 1080)) = false := by
        rcases hbig with h | h
        · have : ¬ s.width ≤ 1920 := by omega
          simp [this]
        · have : ¬ s.height ≤ 1080 := by omega
          simp [this]
      simp only [V4l2Device.enumLoop, hcond, if_true, List.filter_cons, hkeep, Bool.false_eq_true,
        if_false]
      exact ⟨h1, hcalls⟩
    · have hcond : (decide (s.width > 1920) || decide (s.height > 1080)) = false := by simpa using hbig
      have hkeep : (decide (s.width ≤ 1920) && decide (s.height ≤ 1080)) = true := by
        have h3 : s.width ≤ 1920 := by omega
        have h4 : s.height ≤ 1080 := by omega
        simp [h3, h4]
      simp only [V4l2Device.enumLoop, hcond, Bool.false_eq_true, if_false, List.filter_cons, hkeep,
        if_true]
      exact ⟨by rw [h1], hcalls⟩

/-- In a state without override and with nothing cached, `availableResolutions`
on a device it can use enumerates: it returns and caches the reported sizes
that are at most 1920 wide and 1080 high, and opens and closes the device
around the enumeration when the object is not connected. -/
theorem V4l2Device.availableResolutions_enum (d : V4l2Device) (k : V4l2Device.Kernel)
    (hcache : d.mAvailableResolutions = [])
    (hnone : d.mForcedResolution.width = 0 ∨ d.mForcedResolution.height = 0)
    (hfd : 0 ≤ d.mFd ∨ 0 ≤ k.openFd) :
    V4l2Device.availableResolutions d k
      = { val := k.frameSizes.filter (fun s => decide (s.width ≤ 1920) && decide (s.height ≤ 1080)),
          dev := { d with mAvailableResolutions :=
            k.frameSizes.filter (fun s => decide (s.width ≤ 1920) && decide (s.height ≤ 1080)) },
          calls := (if d.mFd < 0 then [V4l2Device.DevCall.openDev] else [])
            ++ (List.range (k.frameSizes.length + 1)).map V4l2Device.DevCall.ENUM_FRAMESIZES
            ++ (if d.mFd < 0 then [V4l2Device.DevCall.closeDev k.openFd] else []) } := by
  have hforced : (decide (d.mForcedResolution.width > 0) && decide (d.mForcedResolution.height > 0))
      = false := by
    rcases hnone with h | h <;> simp [h]
  obtain ⟨hval, hcalls⟩ := V4l2Device.enumLoop_spec k.frameSizes 0
  have hcalls2 : (V4l2Device.enumLoop k.frameSizes 0).2
      = (List.range (k.frameSizes.length + 1)).map V4l2Device.DevCall.ENUM_FRAMESIZES := by
    rw [hcalls]
    apply List.map_congr_left
    intro j _
    rw [Nat.zero_add]
  rw [← hval, ← hcalls2]
  unfold V4l2Device.availableResolutions
  simp only [hcache, List.isEmpty_nil, Bool.not_true, Bool.false_eq_true, if_false, hforced]
  by_cases hneg : d.mFd < 0
  · have hopen : 0 ≤ k.openFd := by omega
    have h1 : ¬ d.mFd ≥ 0 := by omega
    have h2 : ¬ k.openFd < 0 := by omega
    simp [hneg, h1, h2]
  · have h1 : d.mFd ≥ 0 := by omega
    simp [hneg, h1]

/-- In a state whose forced width or height is 0 and with nothing cached,
`availableResolutions` on a device it can use (connected, or opened by the
call) returns exactly the sizes that the kernel enumerates with a width of at
most 1920 and a height of at most 1080, in enumeration order; no returned size
exceeds 1920x1080, and the enumeration requests are those for the indices 0,
1, ... up to the first that fails. When the device cannot be opened, nothing
is enumerated and the result is empty. -/
theorem V4l2Device.availableResolutions_enumerates (d : V4l2Device) (k : V4l2Device.Kernel)
    (hcache : d.mAvailableResolutions = [])
    (hnone : d.mForcedResolution.width = 0 ∨ d.mForcedResolution.height = 0) :
    ((0 ≤ d.mFd ∨ 0 ≤ k.openFd) →
      (V4l2Device.availableResolutions d k).val
        = k.frameSizes.filter (fun s => decide (s.width ≤ 1920) && decide (s.height ≤ 1080))
      ∧ (∀ s ∈ (V4l2Device.availableResolutions d k).val, s.width ≤ 1920 ∧ s.height ≤ 1080)
      ∧ (∀ s ∈ k.frameSizes, s.width ≤ 1920 → s.height ≤ 1080 →
          s ∈ (V4l2Device.availableResolutions d k).val)
      ∧ (V4l2Device.availableResolutions d k).calls
          = (if d.mFd < 0 then [V4l2Device.DevCall.openDev] else [])
            ++ (List.range (k.frameSizes.length + 1)).map V4l2Device.DevCall.ENUM_FRAMESIZES
            ++ (if d.mFd < 0 then [V4l2Device.DevCall.closeDev k.openFd] else []))
    ∧ (d.mFd < 0 → k.openFd < 0 →
        (V4l2Device.availableResolutions d k).val = []
        ∧ (V4l2Device.availableResolutions d k).calls = [V4l2Device.DevCall.openDev]) := by
  constructor
  · intro hfd
    rw [V4l2Device.availableResolutions_enum d k hcache hnone hfd]
    refine ⟨rfl, ?_, ?_, rfl⟩
    · intro s hs
      have := (List.mem_filter.mp hs).2
      simpa using this
    · intro s hs hw hh
      exact List.mem_filter.mpr ⟨hs, by simp [hw, hh]⟩
  · intro hneg hfail
    have hforced : (decide (d.mForcedResolution.width > 0) && decide (d.mForcedResolution.height > 0))
        = false := by
      rcases hnone with h | h <;> simp [h]
    have h1 : ¬ d.mFd ≥ 0 := by omega
    unfold V4l2Device.availableResolutions
    simp only [hcache, List.isEmpty_nil, Bool.not_true, Bool.false_eq_true, if_false, hforced]
    simp [hneg, h1, hfail]

/-- An object whose member `mForcedResolution` happens to hold 0x0 enumerates a
kernel that reports 3840x2160, 1920x1080 and 640x480. -/
theorem V4l2Device.availableResolutions_enumerates_sample :
    (V4l2Device.availableResolutions (V4l2Device.initial Sample.zeroed) Sample.kernel).val
      = [{ width := 1920, height := 1080 }, { width := 640, height := 480 }]
    ∧ (V4l2Device.availableResolutions (V4l2Device.initial Sample.zeroed) Sample.kernel).calls
      = [V4l2Device.DevCall.openDev, V4l2Device.DevCall.ENUM_FRAMESIZES 0,
         V4l2Device.DevCall.ENUM_FRAMESIZES 1, V4l2Device.DevCall.ENUM_FRAMESIZES 2,
         V4l2Device.DevCall.ENUM_FRAMESIZES 3, V4l2Device.DevCall.closeDev 3] :=
  ⟨((V4l2Device.availableResolutions_enumerates (V4l2Device.initial Sample.zeroed) Sample.kernel rfl
      (Or.inl rfl)).1 (Or.inr (by decide))).1,
   ((V4l2Device.availableResolutions_enumerates (V4l2Device.initial Sample.zeroed) Sample.kernel rfl
      (Or.inl rfl)).1 (Or.inr (by decide))).2.2.2⟩

/-- In a state whose cached vector is not empty, `availableResolutions` returns
that vector, sends no request and changes nothing. -/
theorem V4l2Device.availableResolutions_of_cached (d : V4l2Device) (k : V4l2Device.Kernel)
    (h : d.mAvailableResolutions ≠ []) :
    V4l2Device.availableResolutions d k = { val := d.mAvailableResolutions, dev := d, calls := [] } := by
  have hne : d.mAvailableResolutions.isEmpty = false := by
    cases hl : d.mAvailableResolutions with
    | nil => exact absurd hl h
    | cons a l => rfl
  simp only [V4l2Device.availableResolutions, hne, Bool.not_false, if_true]

/-- The loop of `sensorResolution`: the result bounds the start value and every
format, and each of its components is that of the start value or of a format. -/
theorem V4l2Device.sensorLoop_spec (formats : List V4l2Device.Resolution) :
    ∀ (max : V4l2Device.Resolution),
      max.width ≤ (V4l2Device.sensorLoop formats max).width
      ∧ max.height ≤ (V4l2Device.sensorLoop formats max).height
      ∧ (∀ f ∈ formats, f.width ≤ (V4l2Device.sensorLoop formats max).width
          ∧ f.height ≤ (V4l2Device.sensorLoop formats max).height)
      ∧ ((V4l2Device.sensorLoop formats max).width = max.width
          ∨ ∃ f ∈ formats, f.width = (V4l2Device.sensorLoop formats max).width)
      ∧ ((V4l2Device.sensorLoop formats max).height = max.height
          ∨ ∃ f ∈ formats, f.height = (V4l2Device.sensorLoop formats max).height) := by
  induction formats with
  | nil =>
    intro max
    exact ⟨Nat.le_refl _, Nat.le_refl _, fun f hf => absurd hf (List.not_mem_nil f),
      Or.inl rfl, Or.inl rfl⟩
  | cons g rest ih =>
    intro max
    obtain ⟨W, hW, hW1, hW2, hW3⟩ : ∃ W, (if g.width > max.width then g.width else max.width) = W
        ∧ max.width ≤ W ∧ g.width ≤ W ∧ (W = max.width ∨ W = g.width) :=
      ⟨_, rfl, by split_ifs <;> omega, by split_ifs <;> omega, by split_ifs <;> simp⟩
    obtain ⟨T, hT, hT1, hT2, hT3⟩ : ∃ T, (if g.height > max.height then g.height else max.height) = T
        ∧ max.height ≤ T ∧ g.height ≤ T ∧ (T = max.height ∨ T = g.height) :=
      ⟨_, rfl, by split_ifs <;> omega, by split_ifs <;> omega, by split_ifs <;> simp⟩
    simp only [V4l2Device.sensorLoop, hW, hT]
    obtain ⟨h1, h2, h3, h4, h5⟩ := ih { width := W, height := T }
    simp only at h1 h2 h4 h5
    refine ⟨by omega, by omega, ?_, ?_, ?_⟩
    · intro f hf
      rcases List.mem_cons.mp hf with rfl | hf
      · exact ⟨by omega, by omega⟩
      · exact h3 f hf
    · rcases h4 with h | ⟨f, hf, hfw⟩
      · rcases hW3 with h6 | h6
        · exact Or.inl (h.trans h6)
        · exact Or.inr ⟨g, List.mem_cons_self _ _, (h.trans h6).symm⟩
      · exact Or.inr ⟨f, List.mem_cons_of_mem _ hf, hfw⟩
    · rcases h5 with h | ⟨f, hf, hfh⟩
      · rcases hT3 with h6 | h6
        · exact Or.inl (h.trans h6)
        · exact Or.inr ⟨g, List.mem_cons_self _ _, (h.trans h6).symm⟩
      · exact Or.inr ⟨f, List.mem_cons_of_mem _ hf, hfh⟩

/-- C18: `sensorResolution` returns the largest width and the largest height,
taken independently, of the entries that `availableResolutions` returns: every
entry fits inside the result, the result width is the width of some entry and
the result height the height of some entry, and the result is 0x0 when there
is no entry. -/
theorem sensorResolution_is_max (d : V4l2Device) (k : V4l2Device.Kernel) :
    (∀ f ∈ (V4l2Device.availableResolutions d k).val,
      f.width ≤ (V4l2Device.sensorResolution d k).val.width
      ∧ f.height ≤ (V4l2Device.sensorResolution d k).val.height)
    ∧ ((V4l2Device.availableResolutions d k).val ≠ [] →
        (∃ f ∈ (V4l2Device.availableResolutions d k).val,
          f.width = (V4l2Device.sensorResolution d k).val.width)
        ∧ (∃ f ∈ (V4l2Device.availableResolutions d k).val,
          f.height = (V4l2Device.sensorResolution d k).val.height))
    ∧ ((V4l2Device.availableResolutions d k).val = [] →
        (V4l2Device.sensorResolution d k).val = { width := 0, height := 0 }) := by
  obtain ⟨_, _, h3, h4, h5⟩ := V4l2Device.sensorLoop_spec (V4l2Device.availableResolutions d k).val
    { width := 0, height := 0 }
  refine ⟨h3, ?_, ?_⟩
  · intro hne
    obtain ⟨g, hg⟩ := List.exists_mem_of_ne_nil _ hne
    have hgb := h3 g hg
    constructor
    · rcases h4 with h | h
      · simp only at h
        exact ⟨g, hg, by unfold V4l2Device.sensorResolution; simp only; omega⟩
      · exact h
    · rcases h5 with h | h
      · simp only at h
        exact ⟨g, hg, by unfold V4l2Device.sensorResolution; simp only; omega⟩
      · exact h
  · intro hnil
    unfold V4l2Device.sensorResolution
    simp only [hnil, V4l2Device.sensorLoop]

/-- Witness of C18: the sizes 1920x1080 and 640x480 give 1920x1080; two sizes
1280x1024 and 1920x1080 would give 1920x1080 as well, while 1600x900 and
1280x1024 give 1600x1024. -/
theorem sensorResolution_is_max_witness :
    (∃ f ∈ (V4l2Device.availableResolutions (V4l2Device.initial Sample.zeroed) Sample.kernel).val,
      f.width = (V4l2Device.sensorResolution (V4l2Device.initial Sample.zeroed) Sample.kernel).val.width)
    ∧ (∃ f ∈ (V4l2Device.availableResolutions (V4l2Device.initial Sample.zeroed) Sample.kernel).val,
      f.height = (V4l2Device.sensorResolution (V4l2Device.initial Sample.zeroed) Sample.kernel).val.height)
    ∧ (V4l2Device.sensorResolution (V4l2Device.initial Sample.zeroed)
        { Sample.kernel with frameSizes := [{ width := 1600, height := 900 },
                                             { width := 1280, height := 1024 }] }).val
      = { width := 1600, height := 1024 } :=
  ⟨((sensorResolution_is_max (V4l2Device.initial Sample.zeroed) Sample.kernel).2.1 (by decide)).1,
   ((sensorResolution_is_max (V4l2Device.initial Sample.zeroed) Sample.kernel).2.1 (by decide)).2,
   by decide⟩

/-- The negotiated sizes of a sequence of requests followed by another. -/
theorem V4l2Device.negotiated_append (a b : List V4l2Device.DevCall) :
    V4l2Device.negotiated (a ++ b) = V4l2Device.negotiated a ++ V4l2Device.negotiated b := by
  induction a with
  | nil => rfl
  | cons c cs ih =>
    cases c <;> simp [V4l2Device.negotiated, ih]

/-- Unmapping a ring buffer negotiates nothing. -/
theorem V4l2Device.negotiated_unmapAt (bufs : List V4l2Device.VBuffer) (i : Nat) :
    V4l2Device.negotiated (V4l2Device.unmapAt bufs i).2 = [] := by
  unfold V4l2Device.unmapAt
  simp only
  split_ifs <;> rfl

/-- Unmapping all ring buffers negotiates nothing. -/
theorem V4l2Device.negotiated_unmapAll (n : Nat) :
    ∀ (bufs : List V4l2Device.VBuffer) (i : Nat),
      V4l2Device.negotiated (V4l2Device.unmapAll bufs n i).2 = [] := by
  induction n with
  | zero => intro bufs i; rfl
  | succ n ih =>
    intro bufs i
    simp only [V4l2Device.unmapAll, V4l2Device.negotiated_append, V4l2Device.negotiated_unmapAt, ih,
      List.append_nil]

/-- Unmapping the ring buffers below an index negotiates nothing. -/
theorem V4l2Device.negotiated_unmapDown (n : Nat) :
    ∀ (bufs : List V4l2Device.VBuffer),
      V4l2Device.negotiated (V4l2Device.unmapDown bufs n).2 = [] := by
  induction n with
  | zero => intro bufs; rfl
  | succ n ih =>
    intro bufs
    simp only [V4l2Device.unmapDown, V4l2Device.negotiated_append, V4l2Device.negotiated_unmapAt, ih,
      List.append_nil]

/-- Queueing a buffer negotiates nothing. -/
theorem V4l2Device.negotiated_queueBuffer (d : V4l2Device) (ret : Int) (id : Nat) :
    V4l2Device.negotiated (V4l2Device.queueBuffer d ret id).2 = [] := by
  unfold V4l2Device.queueBuffer
  split_ifs <;> rfl

/-- The allocation loop negotiates nothing. -/
theorem V4l2Device.negotiated_allocLoop (bits : Nat) (d : V4l2Device) (k : V4l2Device.Kernel)
    (n : Nat) :
    ∀ (bufs : List V4l2Device.VBuffer) (i : Nat),
      V4l2Device.negotiated (V4l2Device.allocLoop bits d k bufs n i).2.2 = [] := by
  induction n with
  | zero => intro bufs i; rfl
  | succ n ih =>
    intro bufs i
    unfold V4l2Device.allocLoop
    simp only
    split_ifs <;>
      simp [V4l2Device.negotiated_append, V4l2Device.negotiated_unmapDown,
        V4l2Device.negotiated_queueBuffer, V4l2Device.negotiated, ih]

/-- The enumeration loop negotiates nothing. -/
theorem V4l2Device.negotiated_enumLoop (sizes : List V4l2Device.Resolution) :
    ∀ (index : Nat), V4l2Device.negotiated (V4l2Device.enumLoop sizes index).2 = [] := by
  induction sizes with
  | nil => intro index; rfl
  | cons s rest ih =>
    intro index
    unfold V4l2Device.enumLoop
    simp only
    split_ifs <;> simp [V4l2Device.negotiated, ih]

/-- The member `availableResolutions` negotiates nothing. -/
theorem V4l2Device.negotiated_availableResolutions (d : V4l2Device) (k : V4l2Device.Kernel) :
    V4l2Device.negotiated (V4l2Device.availableResolutions d k).calls = [] := by
  unfold V4l2Device.availableResolutions
  simp only
  split_ifs <;>
    simp [V4l2Device.negotiated_append, V4l2Device.negotiated_enumLoop, V4l2Device.negotiated]

/-- The member `setResolutionAndAllocateBuffers(width, height)` negotiates
exactly the size it is given. -/
theorem V4l2Device.negotiated_setResolutionAndAllocateBuffers (bits : Nat) (d : V4l2Device)
    (k : V4l2Device.Kernel) (width height : Nat) :
    V4l2Device.negotiated (V4l2Device.setResolutionAndAllocateBuffers bits d k width height).calls
      = [(width, height)] := by
  unfold V4l2Device.setResolutionAndAllocateBuffers V4l2Device.iocSFmt
  simp only
  split_ifs <;>
    simp [V4l2Device.negotiated_append, V4l2Device.negotiated_unmapAll,
      V4l2Device.negotiated_allocLoop, V4l2Device.negotiated]

/-- The size that `connect` negotiates on an object that is not connected, when
the device can be opened: the stored format if one is stored, otherwise the
first entry that `availableResolutions` returns; nothing if there is none. -/
theorem V4l2Device.negotiated_connect (bits : Nat) (d : V4l2Device) (k : V4l2Device.Kernel)
    (hdisc : d.isConnected = false) (hopen : 0 ≤ k.openFd) :
    (d.mFormat.type ≠ 0 →
      V4l2Device.negotiated (V4l2Device.connect bits d k).calls
        = [(d.mFormat.width, d.mFormat.height)])
    ∧ (d.mFormat.type = 0 → ∀ r rest,
        (V4l2Device.availableResolutions { d with mFd := k.openFd } k).val = r :: rest →
        V4l2Device.negotiated (V4l2Device.connect bits d k).calls = [(r.width, r.height)])
    ∧ (d.mFormat.type = 0 →
        (V4l2Device.availableResolutions { d with mFd := k.openFd } k).val = [] →
        V4l2Device.negotiated (V4l2Device.connect bits d k).calls = []) := by
  have hneg : ¬ k.openFd < 0 := by omega
  refine ⟨?_, ?_, ?_⟩
  · intro htype
    unfold V4l2Device.connect
    simp only [hdisc, Bool.false_eq_true, if_false, hneg, htype, ne_eq, not_false_eq_true, if_true]
    split_ifs <;>
      simp [V4l2Device.negotiated_append, V4l2Device.negotiated_setResolutionAndAllocateBuffers,
        V4l2Device.negotiated]
  · intro htype r rest hval
    unfold V4l2Device.connect
    simp only [hdisc, Bool.false_eq_true, if_false, hneg, htype, ne_eq, not_true_eq_false, hval]
    split_ifs <;>
      simp [V4l2Device.negotiated_append, V4l2Device.negotiated_setResolutionAndAllocateBuffers,
        V4l2Device.negotiated_availableResolutions, V4l2Device.negotiated]
  · intro htype hval
    unfold V4l2Device.connect
    simp only [hdisc, Bool.false_eq_true, if_false, hneg, htype, ne_eq, not_true_eq_false, hval]
    simp [V4l2Device.negotiated_append, V4l2Device.negotiated_availableResolutions,
      V4l2Device.negotiated]

/-- Counterexample to C19 as stated: with the override 1280x720 in force, a
`setResolution(1920, 1080)` on the object that is not connected stores that
size, and the following `connect` negotiates 1920x1080, not the override; the
same happens in the `connect` that `setResolution` runs on a connected object.
Without override, for a kernel that enumerates 3840x2160 first, `connect`
negotiates 1920x1080, not the first resolution of the enumeration. -/
theorem connect_target_not_override :
    (V4l2Device.setResolution false 64 (V4l2Device.initial { width := 1280, height := 720 })
        Sample.kernel 1920 1080).dev.mForcedResolution = { width := 1280, height := 720 }
    ∧ V4l2Device.negotiated (V4l2Device.connect 64
        (V4l2Device.setResolution false 64 (V4l2Device.initial { width := 1280, height := 720 })
          Sample.kernel 1920 1080).dev Sample.kernel).calls = [(1920, 1080)]
    ∧ V4l2Device.negotiated (V4l2Device.connect 64
        (V4l2Device.initial { width := 1280, height := 720 }) Sample.kernel).calls = [(1280, 720)]
    ∧ V4l2Device.negotiated (V4l2Device.setResolution false 64
        (V4l2Device.connect 64 (V4l2Device.initial { width := 1280, height := 720 }) Sample.kernel).dev
        Sample.kernel 1920 1080).calls = [(1920, 1080)]
    ∧ Sample.kernel.frameSizes.head? = some { width := 3840, height := 2160 }
    ∧ V4l2Device.negotiated (V4l2Device.connect 64 (V4l2Device.initial Sample.zeroed)
        Sample.kernel).calls = [(1920, 1080)] := by
  decide

/-- C19 (amended): on an object that is not connected, for a device that can
be opened, `connect` negotiates the size stored in `mFormat` when a format is
stored (by `setResolution` or by an earlier negotiation). When none is stored
and nothing is cached, it negotiates the override if one is in force, and
otherwise the first enumerated size that is at most 1920 wide and 1080 high;
when sizes are cached, it negotiates the first of them. -/
theorem connect_target_resolution (bits : Nat) (d : V4l2Device) (k : V4l2Device.Kernel)
    (hdisc : d.isConnected = false) (hopen : 0 ≤ k.openFd) :
    (d.mFormat.type ≠ 0 →
      V4l2Device.negotiated (V4l2Device.connect bits d k).calls
        = [(d.mFormat.width, d.mFormat.height)])
    ∧ (d.mFormat.type = 0 → d.mAvailableResolutions = [] →
        0 < d.mForcedResolution.width → 0 < d.mForcedResolution.height →
        V4l2Device.negotiated (V4l2Device.connect bits d k).calls
          = [(d.mForcedResolution.width, d.mForcedResolution.height)])
    ∧ (d.mFormat.type = 0 → d.mAvailableResolutions = [] →
        (d.mForcedResolution.width = 0 ∨ d.mForcedResolution.height = 0) →
        ∀ r rest,
          k.frameSizes.filter (fun s => decide (s.width ≤ 1920) && decide (s.height ≤ 1080)) = r :: rest →
          V4l2Device.negotiated (V4l2Device.connect bits d k).calls = [(r.width, r.height)])
    ∧ (d.mFormat.type = 0 → ∀ r rest, d.mAvailableResolutions = r :: rest →
        V4l2Device.negotiated (V4l2Device.connect bits d k).calls = [(r.width, r.height)]) := by
  obtain ⟨h1, h2, _⟩ := V4l2Device.negotiated_connect bits d k hdisc hopen
  refine ⟨h1, ?_, ?_, ?_⟩
  · intro htype hcache hw hh
    have hav := V4l2Device.availableResolutions_forced { d with mFd := k.openFd } k
      d.mForcedResolution.width d.mForcedResolution.height hw hh rfl (Or.inl hcache)
    exact h2 htype _ [] (by rw [hav])
  · intro htype hcache hnone r rest hfilter
    have hav := V4l2Device.availableResolutions_enum { d with mFd := k.openFd } k hcache hnone
      (Or.inl hopen)
    exact h2 htype r rest (by rw [hav]; exact hfilter)
  · intro htype r rest hcache
    have hav := V4l2Device.availableResolutions_of_cached { d with mFd := k.openFd } k
      (by simp only [hcache]; exact List.cons_ne_nil _ _)
    exact h2 htype r rest (by rw [hav]; exact hcache)

/-- Witness of C19 (amended): the first `connect` of an object with the override
1280x720, and the first `connect` of an object without override on a kernel
that enumerates 3840x2160, 1920x1080 and 640x480. -/
theorem connect_target_resolution_witness :
    V4l2Device.negotiated (V4l2Device.connect 64
        (V4l2Device.initial { width := 1280, height := 720 }) Sample.kernel).calls = [(1280, 720)]
    ∧ V4l2Device.negotiated (V4l2Device.connect 64 (V4l2Device.initial Sample.zeroed)
        Sample.kernel).calls = [(1920, 1080)] :=
  ⟨(connect_target_resolution 64 (V4l2Device.initial { width := 1280, height := 720 }) Sample.kernel
      rfl (by decide)).2.1 rfl rfl (by decide) (by decide),
   (connect_target_resolution 64 (V4l2Device.initial Sample.zeroed) Sample.kernel
      rfl (by decide)).2.2.1 rfl rfl (Or.inl rfl) _ _ rfl⟩

/-- C20 (evaluation): the object is connected with 1920x1080 and
`setResolution(640, 480)` is called. When the kernel turns the format down,
the reconnect fails and leaves the object disconnected, yet the call returns
`true`. In a build with `V4L2DEVICE_OPEN_ONCE` the call changes nothing, the
resolution stays 1920x1080, and it returns `true` as well. In fact no path of
`setResolution` returns `false`. -/
theorem setResolution_returns_true :
    Sample.device.isConnected = true
    ∧ Sample.device.resolution = { width := 1920, height := 1080 }
    ∧ (V4l2Device.setResolution false 64 Sample.device Sample.kernelNoFormat 640 480).val = true
    ∧ V4l2Device.negotiated
        (V4l2Device.setResolution false 64 Sample.device Sample.kernelNoFormat 640 480).calls
        = [(640, 480)]
    ∧ (V4l2Device.setResolution false 64 Sample.device Sample.kernelNoFormat 640 480).dev.isConnected
        = false
    ∧ (V4l2Device.setResolution true 64 Sample.device Sample.kernel 640 480).val = true
    ∧ (V4l2Device.setResolution true 64 Sample.device Sample.kernel 640 480).dev = Sample.device
    ∧ (∀ (openOnce : Bool) (bits : Nat) (d : V4l2Device) (k : V4l2Device.Kernel) (width height : Nat),
        (V4l2Device.setResolution openOnce bits d k width height).val = true) := by
  refine ⟨by decide, by decide, by decide, by decide, by decide, by decide, by decide, ?_⟩
  intro openOnce bits d k width height
  unfold V4l2Device.setResolution
  split_ifs <;> rfl

/-- C21: `setStreaming(enable)` with `enable` equal to the current streaming
state returns `true`, sends no request and changes nothing. On a connected
object, when the kernel rejects `VIDIOC_STREAMON` (the `ioctl` does not return
0 and sets `errno`), `setStreaming(true)` returns `false` after that one
request and leaves the object as it was, so `isStreaming()` and
`isConnected()` are as before; the same holds for `setStreaming(false)` and a
rejected `VIDIOC_STREAMOFF` in a build without `V4L2DEVICE_OPEN_ONCE`. -/
theorem setStreaming_rejected_unchanged (openOnce : Bool) (d : V4l2Device) (k : V4l2Device.Kernel)
    (enable : Bool) :
    (enable = d.mStreaming →
      V4l2Device.setStreaming openOnce d k enable = { val := true, dev := d, calls := [] })
    ∧ (d.isConnected = true → d.isStreaming = false →
        k.streamOn.ret ≠ 0 → k.streamOn.errno ≠ 0 →
        V4l2Device.setStreaming openOnce d k true
          = { val := false, dev := d, calls := [V4l2Device.DevCall.STREAMON] })
    ∧ (d.isConnected = true → d.isStreaming = true →
        k.streamOff.ret ≠ 0 → k.streamOff.errno ≠ 0 →
        V4l2Device.setStreaming false d k false
          = { val := false, dev := d, calls := [V4l2Device.DevCall.STREAMOFF] }) := by
  refine ⟨?_, ?_, ?_⟩
  · intro h
    simp only [V4l2Device.setStreaming, h, if_true]
  · intro hcon hstr hret herr
    have hs : d.mStreaming = false := hstr
    simp [V4l2Device.setStreaming, V4l2Device.iocStreamOn, hs, hcon, hret, herr]
  · intro hcon hstr hret herr
    have hs : d.mStreaming = true := hstr
    simp [V4l2Device.setStreaming, V4l2Device.iocStreamOff, hs, hcon, hret, herr]

/-- Witness of C21: the sample device is streaming; `setStreaming(true)` is a
no-op, and a rejected stream-off leaves it streaming and connected. -/
theorem setStreaming_rejected_unchanged_witness :
    V4l2Device.setStreaming false Sample.device Sample.kernelStreamFails true
      = { val := true, dev := Sample.device, calls := [] }
    ∧ V4l2Device.setStreaming false Sample.device Sample.kernelStreamFails false
      = { val := false, dev := Sample.device, calls := [V4l2Device.DevCall.STREAMOFF] }
    ∧ V4l2Device.setStreaming true { Sample.device with mStreaming := false } Sample.kernelStreamFails true
      = { val := false, dev := { Sample.device with mStreaming := false },
          calls := [V4l2Device.DevCall.STREAMON] } :=
  ⟨(setStreaming_rejected_unchanged false Sample.device Sample.kernelStreamFails true).1 rfl,
   (setStreaming_rejected_unchanged false Sample.device Sample.kernelStreamFails false).2.2
      (by decide) (by decide) (by decide) (by decide),
   (setStreaming_rejected_unchanged true { Sample.device with mStreaming := false }
      Sample.kernelStreamFails true).2.1 (by decide) (by decide) (by decide) (by decide)⟩

/-- C22 (evaluation on a freshly constructed object, build without
`V4L2DEVICE_OPEN_ONCE`): `connect` and `setStreaming(true)` succeed, so the
object is streaming. Then `disconnect` is called while the kernel rejects
`VIDIOC_STREAMOFF`: `disconnect` ignores the result of `setStreaming(false)`,
runs `cleanup` and returns `true`. Afterwards `isStreaming()` is `true` and
`isConnected()` is `false`. A following `connect` enters
`setResolutionAndAllocateBuffers` with `mStreaming` set, against its
`assert(!mStreaming)`, and the following `setStreaming(true)` returns `true`
without `VIDIOC_STREAMON`. With a kernel that accepts the stream-off, the one
call `disconnect` takes the streaming object to the disconnected state. -/
theorem disconnect_keeps_streaming_flag :
    V4l2Device.ctor false 64 Sample.kernel Sample.zeroed []
      = some { val := (), dev := V4l2Device.initial Sample.zeroed, calls := [] }
    ∧ (V4l2Device.connect 64 (V4l2Device.initial Sample.zeroed) Sample.kernel).val = true
    ∧ (V4l2Device.setStreaming false
        (V4l2Device.connect 64 (V4l2Device.initial Sample.zeroed) Sample.kernel).dev
        Sample.kernel true).val = true
    ∧ Sample.streaming.isStreaming = true
    ∧ Sample.streaming.isConnected = true
    ∧ (V4l2Device.disconnect false Sample.streaming Sample.kernelStreamFails).val = true
    ∧ (V4l2Device.disconnect false Sample.streaming Sample.kernelStreamFails).dev.isStreaming = true
    ∧ (V4l2Device.disconnect false Sample.streaming Sample.kernelStreamFails).dev.isConnected = false
    ∧ (V4l2Device.connect 64
        (V4l2Device.disconnect false Sample.streaming Sample.kernelStreamFails).dev Sample.kernel).val
        = true
    ∧ V4l2Device.setStreaming false
        (V4l2Device.connect 64
          (V4l2Device.disconnect false Sample.streaming Sample.kernelStreamFails).dev Sample.kernel).dev
        Sample.kernel true
      = { val := true,
          dev := (V4l2Device.connect 64
            (V4l2Device.disconnect false Sample.streaming Sample.kernelStreamFails).dev Sample.kernel).dev,
          calls := [] }
    ∧ (V4l2Device.disconnect false Sample.streaming Sample.kernel).dev.isStreaming = false
    ∧ (V4l2Device.disconnect false Sample.streaming Sample.kernel).dev.isConnected = false := by
  decide

/-- C23 (evaluation on a freshly constructed object): when `VIDIOC_QUERYBUF`
fails for ring buffer 1, `connect` returns `false` and closes the device, but
ring buffer 0, mapped in this attempt, is still mapped: no `munmap` was
issued and its `buf` is not `NULL`. When `mmap` fails for ring buffer 1,
buffer 0 is unmapped, but `buf` of ring buffer 1 holds `MAP_FAILED`, which is
not `NULL`. When `VIDIOC_QBUF` fails for ring buffer 1, both buffers are
unmapped and every `buf` is `NULL`. -/
theorem connect_failure_leaves_mapping :
    (V4l2Device.connect 64 (V4l2Device.initial Sample.zeroed) Sample.kernelQueryFails).val = false
    ∧ (V4l2Device.connect 64 (V4l2Device.initial Sample.zeroed) Sample.kernelQueryFails).dev.isConnected
        = false
    ∧ (V4l2Device.connect 64 (V4l2Device.initial Sample.zeroed) Sample.kernelQueryFails).calls
        = [V4l2Device.DevCall.openDev,
           V4l2Device.DevCall.ENUM_FRAMESIZES 0, V4l2Device.DevCall.ENUM_FRAMESIZES 1,
           V4l2Device.DevCall.ENUM_FRAMESIZES 2, V4l2Device.DevCall.ENUM_FRAMESIZES 3,
           V4l2Device.DevCall.S_FMT 1920 1080, V4l2Device.DevCall.REQBUFS 4,
           V4l2Device.DevCall.QUERYBUF 0, V4l2Device.DevCall.mmap 0 4147200, V4l2Device.DevCall.QBUF 0,
           V4l2Device.DevCall.QUERYBUF 1, V4l2Device.DevCall.closeDev 3]
    ∧ (V4l2Device.connect 64 (V4l2Device.initial Sample.zeroed) Sample.kernelQueryFails).dev.mBuf.map
        (fun b => b.buf) = [0x10000, 0, 0, 0]
    ∧ (V4l2Device.connect 64 (V4l2Device.initial Sample.zeroed) Sample.kernelMmapFails).val = false
    ∧ (V4l2Device.connect 64 (V4l2Device.initial Sample.zeroed) Sample.kernelMmapFails).dev.mBuf.map
        (fun b => b.buf) = [0, MAP_FAILED 64, 0, 0]
    ∧ (V4l2Device.connect 64 (V4l2Device.initial Sample.zeroed) Sample.kernelMmapFails).calls.filter
        (fun c => decide (c = V4l2Device.DevCall.munmap 0x10000 4147200))
        = [V4l2Device.DevCall.munmap 0x10000 4147200]
    ∧ (V4l2Device.connect 64 (V4l2Device.initial Sample.zeroed) Sample.kernelQueueFails).val = false
    ∧ (V4l2Device.connect 64 (V4l2Device.initial Sample.zeroed) Sample.kernelQueueFails).dev.mBuf.map
        (fun b => b.buf) = [0, 0, 0, 0] := by
  decide

/-- C24: let `readLock` return ring buffer `k`, a valid index whose buffer is
mapped, and let the mapped ring buffers have pairwise distinct addresses.
Then `unlock` of that frame sends exactly one request, `VIDIOC_QBUF` for index
`k`, returns `true` exactly when the kernel accepts it (the `ioctl` does not
return a negative value), and leaves the object as it was. -/
theorem unlock_requeues_locked_index (d : V4l2Device) (usePoll : Bool)
    (answers : List V4l2Device.DqAttempt) (ret : Int) (k : Nat)
    (hlock : d.readLock usePoll answers = some (some k))
    (hk : k < V4L2DEVICE_BUF_COUNT)
    (hmapped : (d.frameAt k).buf ≠ 0)
    (hdistinct : ∀ i, i < V4L2DEVICE_BUF_COUNT → ∀ j, j < V4L2DEVICE_BUF_COUNT → i ≠ j →
      (d.frameAt i).buf ≠ 0 → (d.frameAt j).buf ≠ 0 → (d.frameAt i).buf ≠ (d.frameAt j).buf) :
    ∃ frame, (d.readLock usePoll answers).map (fun r => r.map d.frameAt) = some (some frame)
      ∧ (d.unlock ret (some frame)).2.2 = [V4l2Device.DevCall.QBUF k]
      ∧ ((d.unlock ret (some frame)).2.1 = true ↔ 0 ≤ ret)
      ∧ (d.unlock ret (some frame)).1 = d := by
  refine ⟨d.frameAt k, by rw [hlock]; rfl, ?_⟩
  have hfirst : ∀ j, j < k → (d.mBuf.getD j default).buf ≠ (d.frameAt k).buf := by
    intro j hj heq
    have hj0 : (d.frameAt j).buf ≠ 0 := by
      intro h0
      apply hmapped
      rw [← heq]
      exact h0
    exact hdistinct j (by omega) k hk (by omega) hj0 hmapped heq
  have hloop := V4l2Device.unlockLoop_found d ret (d.frameAt k).buf V4L2DEVICE_BUF_COUNT 0 k
    (Nat.zero_le k) (by omega) rfl (fun j _ h2 => hfirst j h2)
  simp only [V4l2Device.unlock, hloop, V4l2Device.queueBuffer]
  by_cases hret : ret < 0
  · have : ¬ (0 ≤ ret) := by omega
    simp [hret, this]
  · have : 0 ≤ ret := by omega
    simp [hret, this]

/-- Witness of C24: the kernel has buffer 2 of the sample device ready and
accepts the re-enqueue request. -/
theorem unlock_requeues_locked_index_witness :
    ∃ frame, (Sample.device.readLock true [Sample.ready 2]).map (fun r => r.map Sample.device.frameAt)
        = some (some frame)
      ∧ (Sample.device.unlock 0 (some frame)).2.2 = [V4l2Device.DevCall.QBUF 2]
      ∧ ((Sample.device.unlock 0 (some frame)).2.1 = true ↔ (0 : Int) ≤ 0)
      ∧ (Sample.device.unlock 0 (some frame)).1 = Sample.device :=
  unlock_requeues_locked_index Sample.device true [Sample.ready 2] 0 2 (by decide) (by decide)
    (by decide)
    (by
      intro i hi j hj
      have hi4 : i < 4 := hi
      have hj4 : j < 4 := hj
      interval_cases i <;> interval_cases j <;> decide)

/-- While the exit request is set, a step other than the end of `stop` keeps
it set and removes nothing from the queue. -/
theorem Workers.step_exit (cpus : Nat) (s : Workers.State) (a : Workers.Action)
    (hexit : s.mExitRequest = true) (ha : a ≠ Workers.Action.stopJoined) :
    (Workers.step cpus s a).mExitRequest = true
    ∧ s.mTasks <+: (Workers.step cpus s a).mTasks := by
  cases a with
  | queueTask task =>
    simp only [Workers.step, Workers.queueTask, Workers.start]
    split_ifs <;> exact ⟨hexit, List.prefix_append _ _⟩
  | stopSignal =>
    simp only [Workers.step, Workers.stopSignal]
    split_ifs
    · exact ⟨hexit, List.prefix_refl _⟩
    · exact ⟨rfl, List.prefix_refl _⟩
  | stopJoined => exact absurd rfl ha
  | thread i =>
    simp only [Workers.step, Workers.threadLoop]
    by_cases hi : i < s.threads
    · rw [if_pos hi]
      cases hpc : s.pc i <;>
        simp [Workers.execute, hexit]
    · rw [if_neg hi]
      exact ⟨hexit, List.prefix_refl _⟩
  | waitForCompletion task =>
    simp only [Workers.step, Workers.waitForCompletion]
    split_ifs <;> exact ⟨hexit, List.prefix_refl _⟩
  | wake task =>
    simp only [Workers.step, Workers.wake]
    split_ifs <;> exact ⟨hexit, List.prefix_refl _⟩
  | spuriousWake task =>
    simp only [Workers.step, Workers.spuriousWake]
    split_ifs <;> exact ⟨hexit, List.prefix_refl _⟩

/-- C25: let the exit request be set. A worker thread at the top of its loop
or waiting for a task then leaves the loop at its next step, whatever is
queued, and leaves the queue as it is. A thread that has popped a task
executes it: the function of the task is called and the completion flag is
set. Along every schedule up to the end of `stop` the exit request stays set
and the queue only grows at its end: no task is removed from it. -/
theorem stop_ends_dequeueing (cpus : Nat) (s : Workers.State) (hexit : s.mExitRequest = true) :
    (∀ i, i < s.threads → (s.pc i = Workers.Pc.top ∨ s.pc i = Workers.Pc.waiting) →
      (Workers.threadLoop s i).pc i = Workers.Pc.exited
      ∧ (Workers.threadLoop s i).mTasks = s.mTasks
      ∧ (Workers.threadLoop s i).executed = s.executed)
    ∧ (∀ i task, i < s.threads → s.pc i = Workers.Pc.execute task →
      (Workers.threadLoop s i).mCompleted task = true
      ∧ (Workers.threadLoop s i).executed = s.executed ++ [task]
      ∧ (Workers.threadLoop s i).mTasks = s.mTasks)
    ∧ (∀ schedule, Workers.Action.stopJoined ∉ schedule →
      (Workers.run cpus s schedule).mExitRequest = true
      ∧ s.mTasks <+: (Workers.run cpus s schedule).mTasks) := by
  refine ⟨?_, ?_, ?_⟩
  · intro i hi hpc
    rcases hpc with h | h <;>
      simp [Workers.threadLoop, hi, h, hexit]
  · intro i task hi hpc
    simp [Workers.threadLoop, Workers.execute, hi, hpc]
  · intro schedule
    induction schedule generalizing s with
    | nil => intro _; exact ⟨hexit, List.prefix_refl _⟩
    | cons a rest ih =>
      intro hno
      have ha : a ≠ Workers.Action.stopJoined := fun h => hno (h ▸ List.mem_cons_self _ _)
      obtain ⟨h1, h2⟩ := Workers.step_exit cpus s a hexit ha
      obtain ⟨h3, h4⟩ := ih (Workers.step cpus s a) h1 (fun h => hno (List.mem_cons_of_mem _ h))
      exact ⟨h3, h2.trans h4⟩

/-- Witness of C25: in a pool that is stopping with the tasks 6 and 7 queued,
thread 0 leaves its loop, thread 1 completes the task 5 it had popped, and
after both have run twice the two tasks are still queued. -/
theorem stop_ends_dequeueing_witness :
    (Workers.threadLoop Sample.stopping 0).pc 0 = Workers.Pc.exited
    ∧ (Workers.threadLoop Sample.stopping 1).mCompleted 5 = true
    ∧ [6, 7] <+: (Workers.run 2 Sample.stopping
        [Workers.Action.thread 1, Workers.Action.thread 0, Workers.Action.thread 1,
         Workers.Action.thread 0]).mTasks :=
  ⟨((stop_ends_dequeueing 2 Sample.stopping rfl).1 0 (by decide) (Or.inl rfl)).1,
   ((stop_ends_dequeueing 2 Sample.stopping rfl).2.1 1 5 (by decide) rfl).1,
   ((stop_ends_dequeueing 2 Sample.stopping rfl).2.2 _ (by decide)).2⟩

/-- When no `mCond.wait` returns without a signal, a caller that has returned
from `waitForCompletion` of a task finds its completion flag set. -/
theorem Workers.returned_completed (cpus : Nat) (schedule : List Workers.Action)
    (hno : ∀ a ∈ schedule, ∀ task, a ≠ Workers.Action.spuriousWake task) (task : Nat) :
    (Workers.run cpus Workers.initial schedule).waiter task = Workers.Waiter.returned →
    (Workers.run cpus Workers.initial schedule).mCompleted task = true := by
  have hinv : ∀ (schedule : List Workers.Action) (s : Workers.State),
      (∀ a ∈ schedule, ∀ task, a ≠ Workers.Action.spuriousWake task) →
      (∀ t, (s.waiter t = Workers.Waiter.returned ∨ s.waiter t = Workers.Waiter.signalled) →
        s.mCompleted t = true) →
      ∀ t, ((Workers.run cpus s schedule).waiter t = Workers.Waiter.returned
          ∨ (Workers.run cpus s schedule).waiter t = Workers.Waiter.signalled) →
        (Workers.run cpus s schedule).mCompleted t = true := by
    intro schedule
    induction schedule with
    | nil => intro s _ h; exact h
    | cons a rest ih =>
      intro s hno hs
      apply ih (Workers.step cpus s a) (fun b hb => hno b (List.mem_cons_of_mem _ hb))
      intro t
      cases a with
      | queueTask q =>
        simp only [Workers.step, Workers.queueTask, Workers.start]
        split_ifs <;> exact hs t
      | stopSignal =>
        simp only [Workers.step, Workers.stopSignal]
        split_ifs <;> exact hs t
      | stopJoined =>
        simp only [Workers.step, Workers.stopJoined]
        split_ifs <;> exact hs t
      | thread i =>
        simp only [Workers.step, Workers.threadLoop]
        by_cases hi : i < s.threads
        · rw [if_pos hi]
          cases hpc : s.pc i with
          | exited => exact hs t
          | execute q =>
            simp only [Workers.execute]
            by_cases htq : t = q
            · subst htq
              simp
            · simp only [if_neg htq]
              exact hs t
          | top =>
            simp only []
            split_ifs
            · exact hs t
            · exact hs t
            · cases s.mTasks <;> exact hs t
          | waiting =>
            simp only []
            split_ifs
            · exact hs t
            · exact hs t
            · cases s.mTasks <;> exact hs t
        · rw [if_neg hi]
          exact hs t
      | waitForCompletion q =>
        simp only [Workers.step, Workers.waitForCompletion]
        by_cases hidle : s.waiter q = Workers.Waiter.idle
        · rw [if_pos hidle]
          dsimp only
          by_cases htq : t = q
          · subst htq
            rw [if_pos rfl]
            cases hc : s.mCompleted t <;> simp
          · rw [if_neg htq]
            exact hs t
        · rw [if_neg hidle]
          exact hs t
      | wake q =>
        simp only [Workers.step, Workers.wake]
        by_cases hsig : s.waiter q = Workers.Waiter.signalled
        · rw [if_pos hsig]
          dsimp only
          by_cases htq : t = q
          · subst htq
            intro _
            exact hs t (Or.inr hsig)
          · rw [if_neg htq]
            exact hs t
        · rw [if_neg hsig]
          exact hs t
      | spuriousWake q =>
        exact absurd rfl (hno _ (List.mem_cons_self _ _) q)
  intro h
  exact hinv schedule Workers.initial hno
    (fun t ht => by rcases ht with h | h <;> simp [Workers.initial] at h) task (Or.inl h)

/-- C26 (evaluation at a schedule with a wake-up without signal): two tasks are
queued on a fresh pool of four threads and the caller waits for task 0 and
then for task 1. Each `mCond.wait` returns before any worker has run; as the
flag is tested with `if` and not again, both calls of `waitForCompletion`
return. At that point no task has been executed, no completion flag is set
and both tasks are still queued. -/
theorem waitForCompletion_returns_early :
    (Workers.run 4 Workers.initial
      [Workers.Action.queueTask 0, Workers.Action.queueTask 1,
       Workers.Action.waitForCompletion 0, Workers.Action.spuriousWake 0,
       Workers.Action.waitForCompletion 1, Workers.Action.spuriousWake 1]).waiter 0
      = Workers.Waiter.returned
    ∧ (Workers.run 4 Workers.initial
      [Workers.Action.queueTask 0, Workers.Action.queueTask 1,
       Workers.Action.waitForCompletion 0, Workers.Action.spuriousWake 0,
       Workers.Action.waitForCompletion 1, Workers.Action.spuriousWake 1]).waiter 1
      = Workers.Waiter.returned
    ∧ (Workers.run 4 Workers.initial
      [Workers.Action.queueTask 0, Workers.Action.queueTask 1,
       Workers.Action.waitForCompletion 0, Workers.Action.spuriousWake 0,
       Workers.Action.waitForCompletion 1, Workers.Action.spuriousWake 1]).mCompleted 0 = false
    ∧ (Workers.run 4 Workers.initial
      [Workers.Action.queueTask 0, Workers.Action.queueTask 1,
       Workers.Action.waitForCompletion 0, Workers.Action.spuriousWake 0,
       Workers.Action.waitForCompletion 1, Workers.Action.spuriousWake 1]).mCompleted 1 = false
    ∧ (Workers.run 4 Workers.initial
      [Workers.Action.queueTask 0, Workers.Action.queueTask 1,
       Workers.Action.waitForCompletion 0, Workers.Action.spuriousWake 0,
       Workers.Action.waitForCompletion 1, Workers.Action.spuriousWake 1]).executed = []
    ∧ (Workers.run 4 Workers.initial
      [Workers.Action.queueTask 0, Workers.Action.queueTask 1,
       Workers.Action.waitForCompletion 0, Workers.Action.spuriousWake 0,
       Workers.Action.waitForCompletion 1, Workers.Action.spuriousWake 1]).mTasks = [0, 1]
    ∧ (Workers.run 4 Workers.initial
      [Workers.Action.queueTask 0, Workers.Action.waitForCompletion 0, Workers.Action.thread 0,
       Workers.Action.thread 0, Workers.Action.wake 0]).waiter 0 = Workers.Waiter.returned
    ∧ (Workers.run 4 Workers.initial
      [Workers.Action.queueTask 0, Workers.Action.waitForCompletion 0, Workers.Action.thread 0,
       Workers.Action.thread 0, Workers.Action.wake 0]).executed = [0] := by
  decide

/-- The row counts of the tasks queued by the first loop of `splitRunWait` are
the values `linesNum` of the successive indices. -/
theorem ImageConverter.splitLoop_linesNum (bits width height : Nat) (n : Nat) :
    ∀ (i srcPtr dstPtr : Nat),
      (ImageConverter.splitLoop bits width height n i srcPtr dstPtr).1.map (fun d => d.linesNum)
        = (List.range' i n).map (ImageConverter.linesNum bits height) := by
  induction n with
  | zero => intro i srcPtr dstPtr; rfl
  | succ n ih =>
    intro i srcPtr dstPtr
    simp only [ImageConverter.splitLoop, List.map_cons, List.range'_succ, ih]

/-- The value of `linesNum` when `height + 29` fits `unsigned` and `size_t` has
at least 32 bits: the products stay below `2 ^ 32`, and only the subtraction
can wrap. -/
theorem ImageConverter.linesNum_closed (bits height i : Nat) (hbits : 32 ≤ bits)
    (hmax : height + 29 < 2 ^ 32) (hi : i < 30) :
    ImageConverter.linesPerTask height = (height + 29) / 30
    ∧ ImageConverter.linesNum bits height i
      = if (i + 1) * ((height + 29) / 30) ≥ height then
          (if i * ((height + 29) / 30) ≤ height then height - i * ((height + 29) / 30)
           else 2 ^ bits + height - i * ((height + 29) / 30))
        else (height + 29) / 30 := by
  have hP : 2 ^ 32 ≤ 2 ^ bits := Nat.pow_le_pow_right (by decide) hbits
  have hL : ImageConverter.linesPerTask height = (height + 29) / 30 := by
    unfold ImageConverter.linesPerTask u32 ImageConverter.WORKERS_TASKS_NUM
    rw [Nat.mod_eq_of_lt (by omega : height < 2 ^ 32)]
    rw [Nat.mod_eq_of_lt (by omega : height + 30 - 1 < 2 ^ 32)]
    rfl
  refine ⟨hL, ?_⟩
  generalize hLdef : (height + 29) / 30 = L at hL ⊢
  have hL30 : 30 * L ≤ height + 29 := by omega
  have h1 : (i + 1) * L ≤ 30 * L := Nat.mul_le_mul_right L (by omega)
  have h0 : i * L ≤ (i + 1) * L := Nat.mul_le_mul_right L (by omega)
  generalize hA : (i + 1) * L = A at h1 h0 ⊢
  generalize hB : i * L = B at h0 ⊢
  generalize hPdef : 2 ^ bits = P at hP ⊢
  have e1 : ImageConverter.linesNum bits height i
      = if A % P ≥ (height % 2 ^ 32) % P then ((height % 2 ^ 32) % P + P - (B % P) % P) % P else L := by
    unfold ImageConverter.linesNum usizeSub usize u32
    rw [hL, hA, hB, hPdef]
  rw [e1]
  have hH : height % 2 ^ 32 = height := Nat.mod_eq_of_lt (by omega)
  have hHP : height % P = height := Nat.mod_eq_of_lt (by omega)
  have hAP : A % P = A := Nat.mod_eq_of_lt (by omega)
  have hBP : B % P = B := Nat.mod_eq_of_lt (by omega)
  rw [hH, hHP, hAP, hBP, hBP]
  by_cases hc : A ≥ height
  · rw [if_pos hc, if_pos hc]
    by_cases hb : B ≤ height
    · rw [if_pos hb]
      have : height + P - B = (height - B) + P := by omega
      rw [this, Nat.add_mod_right]
      exact Nat.mod_eq_of_lt (by omega)
    · rw [if_neg hb]
      have : height + P - B = P + height - B := by omega
      rw [this]
      exact Nat.mod_eq_of_lt (by omega)
  · rw [if_neg hc, if_neg hc]

/-- Counterexample to C27 as stated: for the height `2 ^ 32 - 1` the sum
`height + 29` wraps in `unsigned`, `linesPerTask` is 0 and not
`ceil(height / 30) = 143165577`, and all 30 row counts are 0. None of them
has wrapped and each is at most `ceil(height / 30)`, but they do not sum to
the height, although `29 * ceil(height / 30) <= height`. -/
theorem splitRunWait_counts_huge_height :
    ImageConverter.linesPerTask (2 ^ 32 - 1) = 0
    ∧ (2 ^ 32 - 1 + 29) / 30 = 143165577
    ∧ (ImageConverter.splitRunWait 64 0x10000 0x200000 1920 (2 ^ 32 - 1)).1.map (fun d => d.linesNum)
        = List.replicate 30 0
    ∧ ((ImageConverter.splitRunWait 64 0x10000 0x200000 1920 (2 ^ 32 - 1)).1.map
        (fun d => d.linesNum)).sum ≠ 2 ^ 32 - 1
    ∧ 29 * ((2 ^ 32 - 1 + 29) / 30) ≤ 2 ^ 32 - 1 := by
  decide

/-- C27 (amended): let `height + 29` fit `unsigned` and `size_t` have at least
32 bits, and let `L` be `linesPerTask`, which is `ceil(height / 30)`. The 30
row counts queued by `splitRunWait` are all at most `L` and sum to `height`
if and only if `29 * L <= height`. When `29 * L > height`, the count of band
29 is `height - 29 * L` wrapped around in `size_t`, that is
`2 ^ bits + height - 29 * L`, which is larger than `L`. -/
theorem splitRunWait_counts (bits src dst width height : Nat) (hbits : 32 ≤ bits)
    (hpos : 0 < height) (hmax : height + 29 < 2 ^ 32) :
    ImageConverter.linesPerTask height = (height + 29) / 30
    ∧ (ImageConverter.splitRunWait bits src dst width height).1.map (fun d => d.linesNum)
        = (List.range 30).map (ImageConverter.linesNum bits height)
    ∧ (((∀ n ∈ (ImageConverter.splitRunWait bits src dst width height).1.map (fun d => d.linesNum),
            n ≤ ImageConverter.linesPerTask height)
          ∧ ((ImageConverter.splitRunWait bits src dst width height).1.map (fun d => d.linesNum)).sum
              = height)
        ↔ 29 * ImageConverter.linesPerTask height ≤ height)
    ∧ (height < 29 * ImageConverter.linesPerTask height →
        ImageConverter.linesNum bits height 29
          = 2 ^ bits + height - 29 * ImageConverter.linesPerTask height
        ∧ ImageConverter.linesPerTask height < ImageConverter.linesNum bits height 29) := by
  have hP : 2 ^ 32 ≤ 2 ^ bits := Nat.pow_le_pow_right (by decide) hbits
  have hL := (ImageConverter.linesNum_closed bits height 0 hbits hmax (by decide)).1
  have hcounts : (ImageConverter.splitRunWait bits src dst width height).1.map (fun d => d.linesNum)
      = (List.range 30).map (ImageConverter.linesNum bits height) := by
    unfold ImageConverter.splitRunWait ImageConverter.WORKERS_TASKS_NUM
    rw [ImageConverter.splitLoop_linesNum, List.range_eq_range']
  have h29 := (ImageConverter.linesNum_closed bits height 29 hbits hmax (by decide)).2
  rw [hcounts, hL]
  generalize hLdef : (height + 29) / 30 = L at h29 ⊢
  have hL30 : 30 * L ≤ height + 29 := by omega
  have hL30' : height ≤ 30 * L := by omega
  have hwrap : height < 29 * L →
      ImageConverter.linesNum bits height 29 = 2 ^ bits + height - 29 * L
      ∧ L < ImageConverter.linesNum bits height 29 := by
    intro hlt
    rw [h29, if_pos (by omega), if_neg (by omega)]
    exact ⟨rfl, by omega⟩
  refine ⟨rfl, rfl, ?_, hwrap⟩
  constructor
  · rintro ⟨hall, _⟩
    by_contra hlt
    have hmem : ImageConverter.linesNum bits height 29
        ∈ (List.range 30).map (ImageConverter.linesNum bits height) :=
      List.mem_map.mpr ⟨29, List.mem_range.mpr (by decide), rfl⟩
    have := hall _ hmem
    have := (hwrap (by omega)).2
    omega
  · intro hle
    have hlow : ∀ i, i < 29 → ImageConverter.linesNum bits height i = L := by
      intro i hi
      have hc := (ImageConverter.linesNum_closed bits height i hbits hmax (by omega)).2
      rw [hLdef] at hc
      have h1 : (i + 1) * L ≤ 29 * L := Nat.mul_le_mul_right L (by omega)
      have h0 : (i + 1) * L = i * L + L := by ring
      rw [hc]
      split_ifs <;> omega
    have hlast : ImageConverter.linesNum bits height 29 = height - 29 * L := by
      rw [h29, if_pos (by omega), if_pos hle]
    constructor
    · intro n hn
      obtain ⟨i, hi, rfl⟩ := List.mem_map.mp hn
      have hi30 := List.mem_range.mp hi
      by_cases h : i < 29
      · rw [hlow i h]
      · have : i = 29 := by omega
        subst this
        rw [hlast]
        omega
    · have hsplit : List.range 30 = List.range 29 ++ [29] := List.range_succ 29
      rw [hsplit, List.map_append, List.sum_append]
      have hconst : (List.range 29).map (ImageConverter.linesNum bits height)
          = (List.range 29).map (fun _ => L) :=
        List.map_congr_left (fun i hi => hlow i (List.mem_range.mp hi))
      rw [hconst]
      simp only [List.map_const', List.length_range, List.sum_replicate, smul_eq_mul, List.map_cons,
        List.map_nil, List.sum_cons, List.sum_nil, hlast]
      omega

/-- Witness of C27 (amended): height 1080 on a 64 bit target, where every band
has 36 rows, and height 31, where band 29 wraps. -/
theorem splitRunWait_counts_witness :
    (((∀ n ∈ (ImageConverter.splitRunWait 64 0x10000 0x200000 1920 1080).1.map (fun d => d.linesNum),
          n ≤ ImageConverter.linesPerTask 1080)
        ∧ ((ImageConverter.splitRunWait 64 0x10000 0x200000 1920 1080).1.map (fun d => d.linesNum)).sum
            = 1080)
      ↔ 29 * ImageConverter.linesPerTask 1080 ≤ 1080)
    ∧ ImageConverter.linesNum 64 31 29 = 2 ^ 64 + 31 - 29 * ImageConverter.linesPerTask 31 :=
  ⟨(splitRunWait_counts 64 0x10000 0x200000 1920 1080 (by decide) (by decide) (by decide)).2.2.1,
   ((splitRunWait_counts 64 0x10000 0x200000 1920 31 (by decide) (by decide) (by decide)).2.2.2
      (by decide)).1⟩

/-- C28 (evaluation at the streams 1280x720 RGBA and 1920x1080 BLOB):
`configureStreams` accepts the list and asks the device for 1920x1080, the
larger area, which the device then reports as its resolution. The following
request has one buffer of each stream. The buffer of the 1280x720 stream,
mapped at `0x200000`, holds `1280 * 720 * 4 = 3686400` bytes, but the
conversion into it is called with 1920x1080: its tasks store
`1920 * 1080 * 4 = 8294400` bytes from `0x200000` on. Task 13, for one, stores
36 rows of 7680 bytes from `0x200000 + 3594240` on, among them the byte at
`0x200000 + 3686400`, the first one behind the buffer. -/
theorem processCaptureRequest_rgba_overruns_stream :
    Camera.configureStreams Sample.configEnv [Sample.stream720, Sample.stream1080Blob]
      = { status := NO_ERROR, streams := [Sample.configured720, Sample.configured1080Blob],
          events := [Camera.ConfigEvent.setStreaming false, Camera.ConfigEvent.setResolution 1920 1080,
                     Camera.ConfigEvent.setStreaming true] }
    ∧ (V4l2Device.setResolution false 64
        (V4l2Device.setStreaming false Sample.streaming Sample.kernel false).dev
        Sample.kernel 1920 1080).dev.resolution = Sample.env.resolution
    ∧ (Camera.processCaptureRequest 64 Sample.camera Sample.env Sample.requestMixed).status = NO_ERROR
    ∧ ((Camera.processCaptureRequest 64 Sample.camera Sample.env Sample.requestMixed).events.filter
        Camera.Event.isBufferStep).take 3
      = [Camera.Event.fenceWait 0 9, Camera.Event.mapperLock 0 501,
         Camera.Event.toRGBA true 0x10000 0x200000 1920 1080]
    ∧ Sample.buffer720.stream.width * Sample.buffer720.stream.height * 4 = 3686400
    ∧ ((ImageConverter.splitRunWait 64 0x10000 0x200000 1920 1080).1.map
        (fun d => d.linesNum * (d.width * 4))).sum = 8294400
    ∧ (ImageConverter.splitRunWait 64 0x10000 0x200000 1920 1080).1.get? 13
      = some { src := 0x10000 + 1797120, dst := 0x200000 + 3594240, width := 1920, linesNum := 36 }
    ∧ 0x200000 + 3594240 ≤ 0x200000 + 3686400
    ∧ 0x200000 + 3686400 < 0x200000 + 3594240 + 36 * (1920 * 4) := by
  decide

/-- The mask `~(PAGE_SIZE - 1u)` clears the twelve low bits of a value that
fits the type of the mask. -/
theorem and_page_mask (x m : Nat) (hm : 12 ≤ m) (hx : x < 2 ^ m) :
    x &&& (2 ^ m - 1 - (PAGE_SIZE - 1)) = x / 4096 * 4096 := by
  have hmask : 2 ^ m - 1 - (PAGE_SIZE - 1) = (2 ^ (m - 12) - 1) <<< 12 := by
    have h2 : 2 ^ m = 2 ^ (m - 12) * 4096 := by
      rw [show (4096 : Nat) = 2 ^ 12 by norm_num, ← Nat.pow_add]
      congr 1
      omega
    have hpos : 0 < 2 ^ (m - 12) := Nat.pow_pos (by decide)
    rw [Nat.shiftLeft_eq, h2]
    unfold PAGE_SIZE
    generalize 2 ^ (m - 12) = K at hpos ⊢
    have : (K - 1) * 2 ^ 12 = K * 4096 - 4096 := by
      rw [Nat.sub_mul]; norm_num
    omega
  rw [hmask]
  apply Nat.eq_of_testBit_eq
  intro j
  have hdiv : x / 4096 * 4096 = (x >>> 12) <<< 12 := by
    rw [Nat.shiftLeft_eq, Nat.shiftRight_eq_div_pow]
  rw [hdiv, Nat.testBit_and, Nat.testBit_shiftLeft, Nat.testBit_shiftLeft, Nat.testBit_shiftRight,
    Nat.testBit_two_pow_sub_one]
  by_cases hj : 12 ≤ j
  · have e : 12 + (j - 12) = j := by omega
    rw [e]
    by_cases hjm : j < m
    · have : j - 12 < m - 12 := by omega
      simp [hj, this]
    · have hlt : x < 2 ^ j := lt_of_lt_of_le hx (Nat.pow_le_pow_right (by decide) (by omega))
      rw [Nat.testBit_lt_two_pow hlt]
      simp
  · simp [hj]

/-- Without overflow `mJpegBufferSize` is `width * height * 9 + 8` rounded up
to a multiple of the page size. -/
theorem Camera.jpegBufferSize_closed (bits maskBits : Nat) (sensorRes : V4l2Device.Resolution)
    (hbits : 32 ≤ bits) (hmask : 32 ≤ maskBits)
    (hfit : sensorRes.width * sensorRes.height * 9 + sizeofJpegBlob + PAGE_SIZE - 1 < 2 ^ 32) :
    Camera.jpegBufferSize bits maskBits sensorRes
      = (sensorRes.width * sensorRes.height * 9 + sizeofJpegBlob + PAGE_SIZE - 1) / PAGE_SIZE
          * PAGE_SIZE := by
  have hP : 2 ^ 32 ≤ 2 ^ bits := Nat.pow_le_pow_right (by decide) hbits
  have hM : 2 ^ 32 ≤ 2 ^ maskBits := Nat.pow_le_pow_right (by decide) hmask
  unfold sizeofJpegBlob PAGE_SIZE at hfit
  generalize hA : sensorRes.width * sensorRes.height = A at hfit
  have h1 : u32 A = A := Nat.mod_eq_of_lt (by omega)
  have h2 : u32 (A * 9) = A * 9 := Nat.mod_eq_of_lt (by omega)
  have h3 : usize bits (A * 9 + 8) = A * 9 + 8 := Nat.mod_eq_of_lt (by omega)
  have h4 : usize bits (A * 9 + 8 + 4096 - 1) = A * 9 + 8 + 4096 - 1 := Nat.mod_eq_of_lt (by omega)
  unfold Camera.jpegBufferSize
  simp only [hA, h1, h2]
  unfold sizeofJpegBlob
  rw [h3]
  have h5 : PAGE_SIZE = 4096 := rfl
  rw [h5, h4, ← h5, and_page_mask _ maskBits (by omega) (by omega), h5]

/-- The trailer written for a mapped BLOB buffer: its place, its content and
the encoded bytes stored before it. -/
theorem Camera.convertOutput_trailer (bits : Nat) (c : Camera) (env : Camera.CaptureEnv)
    (cm : CameraMetadata) (frame : V4l2Device.VBuffer) (srcBuf : camera3_stream_buffer)
    (buf rgbaBuffer : Nat) (hbits : 32 ≤ bits) (hlo : sizeofJpegBlob ≤ c.mJpegBufferSize)
    (hhi : c.mJpegBufferSize < 2 ^ 32) (addr id size : Nat)
    (h : Camera.Event.jpegBlob addr id size
      ∈ (Camera.convertOutput bits c env cm frame srcBuf buf rgbaBuffer).1) :
    id = CAMERA3_JPEG_BLOB_ID
    ∧ addr = buf + (c.mJpegBufferSize - sizeofJpegBlob)
    ∧ 0 < size ∧ size ≤ c.mJpegBufferSize - sizeofJpegBlob
    ∧ ∃ uyvy quality stream,
        stream = (if uyvy = true then env.encodeUYVY else env.encodeYUY2) frame.buf
            env.resolution.width env.resolution.height quality
        ∧ stream.length = size
        ∧ (Camera.convertOutput bits c env cm frame srcBuf buf rgbaBuffer).1
          = [Camera.Event.toJPEG uyvy frame.buf buf env.resolution.width env.resolution.height
               (c.mJpegBufferSize - sizeofJpegBlob) quality (ImageConverter.copyTo buf stream),
             Camera.Event.jpegBlob addr id size]
        ∧ (ImageConverter.copyTo buf stream).map Prod.fst = (List.range size).map (fun j => buf + j) := by
  have hP : 2 ^ 32 ≤ 2 ^ bits := Nat.pow_le_pow_right (by decide) hbits
  have hmax : usizeSub bits c.mJpegBufferSize sizeofJpegBlob = c.mJpegBufferSize - sizeofJpegBlob := by
    unfold usizeSub usize
    unfold sizeofJpegBlob at hlo ⊢
    rw [Nat.mod_eq_of_lt (by omega : c.mJpegBufferSize < 2 ^ bits),
      Nat.mod_eq_of_lt (by omega : 8 < 2 ^ bits)]
    have : c.mJpegBufferSize + 2 ^ bits - 8 = (c.mJpegBufferSize - 8) + 2 ^ bits := by omega
    rw [this, Nat.add_mod_right]
    exact Nat.mod_eq_of_lt (by omega)
  unfold Camera.convertOutput at h ⊢
  by_cases hrgba : srcBuf.stream.format = HAL_PIXEL_FORMAT_RGBA_8888
  · simp only [if_pos hrgba] at h
    split_ifs at h <;> simp at h
  · simp only [if_neg hrgba] at h ⊢
    by_cases hblob : srcBuf.stream.format = HAL_PIXEL_FORMAT_BLOB
    · simp only [if_pos hblob, hmax] at h ⊢
      generalize hq : (if cm.existsEntry ANDROID_JPEG_QUALITY = true then
          ((((cm.find ANDROID_JPEG_QUALITY).getD []).headD 0) % 256).toNat else 95) = q at h ⊢
      generalize hM : c.mJpegBufferSize - sizeofJpegBlob = M at h ⊢
      have hM32 : M < 2 ^ 32 := by omega
      by_cases hu : frame.pixFmt = V4L2_PIX_FMT_UYVY
      · simp only [hu, decide_True, if_true, ImageConverter.UYVYToJPEG] at h ⊢
        generalize hst : env.encodeUYVY frame.buf env.resolution.width env.resolution.height q = stream at h ⊢
        by_cases hlen : stream.length > M
        · simp [hlen] at h
        · by_cases hzero : stream.length = 0
          · simp [hlen, hzero] at h
          · have hne : buf + stream.length ≠ buf := by omega
            have h32 : u32 stream.length = stream.length :=
              Nat.mod_eq_of_lt (by omega)
            simp only [hlen, if_false, hne, ne_eq, not_false_eq_true, if_true, Nat.add_sub_cancel_left,
              h32, List.mem_cons, List.mem_singleton, Camera.Event.jpegBlob.injEq, reduceCtorEq,
              false_or, List.not_mem_nil, or_false] at h ⊢
            obtain ⟨h1, h2, h3⟩ := h
            subst h1 h2 h3
            refine ⟨rfl, rfl, by omega, by omega, true, q, stream, ?_, rfl, rfl, ?_⟩
            · simp only [if_true, hst]
            · exact ImageConverter.copyTo_addresses stream buf
      · simp only [hu, decide_False, Bool.false_eq_true, if_false, ImageConverter.YUY2ToJPEG] at h ⊢
        generalize hst : env.encodeYUY2 frame.buf env.resolution.width env.resolution.height q = stream at h ⊢
        by_cases hlen : stream.length > M
        · simp [hlen] at h
        · by_cases hzero : stream.length = 0
          · simp [hlen, hzero] at h
          · have hne : buf + stream.length ≠ buf := by omega
            have h32 : u32 stream.length = stream.length :=
              Nat.mod_eq_of_lt (by omega)
            simp only [hlen, if_false, hne, ne_eq, not_false_eq_true, if_true, Nat.add_sub_cancel_left,
              h32, List.mem_cons, List.mem_singleton, Camera.Event.jpegBlob.injEq, reduceCtorEq,
              false_or, List.not_mem_nil, or_false] at h ⊢
            obtain ⟨h1, h2, h3⟩ := h
            subst h1 h2 h3
            refine ⟨rfl, rfl, by omega, by omega, false, q, stream, ?_, rfl, rfl, ?_⟩
            · simp only [Bool.false_eq_true, if_false, hst]
            · exact ImageConverter.copyTo_addresses stream buf
    · simp only [if_neg hblob] at h
      simp at h

/-- Every trailer written by the first loop over the output buffers belongs to
one of the buffers of the loop and lies at offset `maxImageSize` of its
mapping. -/
theorem Camera.outputLoop_trailer (bits : Nat) (c : Camera) (env : Camera.CaptureEnv)
    (cm : CameraMetadata) (frame : V4l2Device.VBuffer) (request : camera3_capture_request)
    (hbits : 32 ≤ bits) (hlo : sizeofJpegBlob ≤ c.mJpegBufferSize)
    (hhi : c.mJpegBufferSize < 2 ^ 32) (addr id size : Nat) :
    ∀ (bufs : List camera3_stream_buffer) (i rgbaBuffer : Nat),
      Camera.Event.jpegBlob addr id size
        ∈ (Camera.outputLoop bits c env cm frame request bufs i rgbaBuffer).2 →
      id = CAMERA3_JPEG_BLOB_ID ∧ 0 < size ∧ size ≤ c.mJpegBufferSize - sizeofJpegBlob
      ∧ ∃ k, i ≤ k ∧ k < i + bufs.length
          ∧ addr = env.lockAddr k + (c.mJpegBufferSize - sizeofJpegBlob) := by
  intro bufs
  induction bufs with
  | nil =>
    intro i rgbaBuffer h
    simp [Camera.outputLoop] at h
  | cons srcBuf rest ih =>
    intro i rgbaBuffer h
    have hab : Camera.Event.jpegBlob addr id size ∉ Camera.abortUnlock request i := by
      intro hmem
      have := Camera.abortUnlock_isUnmap request i _ hmem
      simp [Camera.Event.isUnmap] at this
    unfold Camera.outputLoop at h
    by_cases hf : env.fenceWait i = NO_ERROR
    · simp only [if_pos hf] at h
      by_cases hl : env.lockStatus i ≠ NO_ERROR
      · simp only [if_pos hl, List.mem_cons, reduceCtorEq, false_or] at h
        exact absurd h hab
      · simp only [if_neg hl, List.mem_cons, reduceCtorEq, false_or, List.mem_append] at h
        rcases h with h | h
        · obtain ⟨h1, h2, h3, h4, _⟩ := Camera.convertOutput_trailer bits c env cm frame srcBuf
            (env.lockAddr i) rgbaBuffer hbits hlo hhi addr id size h
          exact ⟨h1, h3, h4, i, Nat.le_refl i, by simp, h2⟩
        · obtain ⟨h1, h3, h4, k, hk1, hk2, hk3⟩ := ih _ _ h
          exact ⟨h1, h3, h4, k, by omega, by simp only [List.length_cons]; omega, hk3⟩
    · simp only [if_neg hf, List.mem_cons, reduceCtorEq, false_or] at h
      exact absurd h hab

/-- C29: let `mJpegBufferSize` be the value that `staticCharacteristics`
computes from the sensor resolution, where `width * height * 9 + 8`, rounded up
to the page size, fits 32 bits. Then it is that rounded value, and whenever
`processCaptureRequest` writes a trailer, the trailer carries the blob id and
a `jpeg_size` that is greater than 0 and at most
`maxImageSize = mJpegBufferSize - sizeof(camera3_jpeg_blob)`, and it lies at
offset `maxImageSize` of the mapping of one of the output buffers, so that it
ends exactly `mJpegBufferSize` bytes into the mapping. The encoded bytes
stored for that buffer are the `jpeg_size` bytes from the start of the mapping
on, all before the trailer. When both encoders produce more than
`maxImageSize` bytes, no trailer is written. -/
theorem jpeg_trailer_inside_buffer (bits maskBits : Nat) (c : Camera) (env : Camera.CaptureEnv)
    (request : camera3_capture_request) (sensorRes : V4l2Device.Resolution)
    (hbits : 32 ≤ bits) (hmask : 32 ≤ maskBits)
    (hfit : sensorRes.width * sensorRes.height * 9 + sizeofJpegBlob + PAGE_SIZE - 1 < 2 ^ 32)
    (hsize : c.mJpegBufferSize = Camera.jpegBufferSize bits maskBits sensorRes) :
    (c.mJpegBufferSize
        = (sensorRes.width * sensorRes.height * 9 + sizeofJpegBlob + PAGE_SIZE - 1) / PAGE_SIZE
            * PAGE_SIZE
      ∧ sensorRes.width * sensorRes.height * 9 + sizeofJpegBlob ≤ c.mJpegBufferSize)
    ∧ (∀ addr id size,
        Camera.Event.jpegBlob addr id size ∈ (Camera.processCaptureRequest bits c env request).events →
        id = CAMERA3_JPEG_BLOB_ID ∧ 0 < size ∧ size ≤ c.mJpegBufferSize - sizeofJpegBlob
        ∧ ∃ k, k < request.output_buffers.length
            ∧ addr = env.lockAddr k + (c.mJpegBufferSize - sizeofJpegBlob)
            ∧ addr + sizeofJpegBlob = env.lockAddr k + c.mJpegBufferSize)
    ∧ (∀ (cm : CameraMetadata) (frame : V4l2Device.VBuffer) (srcBuf : camera3_stream_buffer)
        (buf rgbaBuffer addr id size : Nat),
        Camera.Event.jpegBlob addr id size
          ∈ (Camera.convertOutput bits c env cm frame srcBuf buf rgbaBuffer).1 →
        ∃ uyvy quality stream,
          stream = (if uyvy = true then env.encodeUYVY else env.encodeYUY2) frame.buf
              env.resolution.width env.resolution.height quality
          ∧ stream.length = size
          ∧ (Camera.convertOutput bits c env cm frame srcBuf buf rgbaBuffer).1
            = [Camera.Event.toJPEG uyvy frame.buf buf env.resolution.width env.resolution.height
                 (c.mJpegBufferSize - sizeofJpegBlob) quality (ImageConverter.copyTo buf stream),
               Camera.Event.jpegBlob (buf + (c.mJpegBufferSize - sizeofJpegBlob))
                 CAMERA3_JPEG_BLOB_ID size]
          ∧ (ImageConverter.copyTo buf stream).map Prod.fst = (List.range size).map (fun j => buf + j)
          ∧ buf + size ≤ buf + (c.mJpegBufferSize - sizeofJpegBlob))
    ∧ (∀ (cm : CameraMetadata) (frame : V4l2Device.VBuffer) (srcBuf : camera3_stream_buffer)
        (buf rgbaBuffer : Nat),
        (∀ quality, c.mJpegBufferSize - sizeofJpegBlob
          < (env.encodeUYVY frame.buf env.resolution.width env.resolution.height quality).length) →
        (∀ quality, c.mJpegBufferSize - sizeofJpegBlob
          < (env.encodeYUY2 frame.buf env.resolution.width env.resolution.height quality).length) →
        ∀ addr id size, Camera.Event.jpegBlob addr id size
          ∉ (Camera.convertOutput bits c env cm frame srcBuf buf rgbaBuffer).1) := by
  have hclosed := Camera.jpegBufferSize_closed bits maskBits sensorRes hbits hmask hfit
  rw [← hsize] at hclosed
  have hge : sensorRes.width * sensorRes.height * 9 + sizeofJpegBlob ≤ c.mJpegBufferSize := by
    rw [hclosed]
    unfold PAGE_SIZE sizeofJpegBlob
    omega
  have hlo : sizeofJpegBlob ≤ c.mJpegBufferSize := by omega
  have hhi : c.mJpegBufferSize < 2 ^ 32 := by
    rw [hclosed]
    unfold PAGE_SIZE sizeofJpegBlob at hfit ⊢
    omega
  refine ⟨⟨hclosed, hge⟩, ?_, ?_, ?_⟩
  · intro addr id size h
    have hc1 : (Camera.afterAcquire c request).mJpegBufferSize = c.mJpegBufferSize := by
      unfold Camera.afterAcquire
      cases request.settings <;> rfl
    have key : ∀ frame, Camera.Event.jpegBlob addr id size
        ∈ (Camera.outputLoop bits (Camera.afterAcquire c request) env (Camera.requestSettings c request)
            frame (Camera.ignoreInput request) (Camera.ignoreInput request).output_buffers 0 0).2 →
        id = CAMERA3_JPEG_BLOB_ID ∧ 0 < size ∧ size ≤ c.mJpegBufferSize - sizeofJpegBlob
        ∧ ∃ k, k < request.output_buffers.length
            ∧ addr = env.lockAddr k + (c.mJpegBufferSize - sizeofJpegBlob)
            ∧ addr + sizeofJpegBlob = env.lockAddr k + c.mJpegBufferSize := by
      intro frame hmem
      obtain ⟨h1, h2, h3, k, _, hk2, hk3⟩ := Camera.outputLoop_trailer bits
        (Camera.afterAcquire c request) env (Camera.requestSettings c request) frame
        (Camera.ignoreInput request) hbits (by rw [hc1]; exact hlo) (by rw [hc1]; exact hhi)
        addr id size _ 0 0 hmem
      rw [hc1] at h3 hk3
      have hlen : (Camera.ignoreInput request).output_buffers.length = request.output_buffers.length := rfl
      exact ⟨h1, h2, h3, k, by omega, hk3, by omega⟩
    unfold Camera.processCaptureRequest at h
    simp only at h
    split_ifs at h with h0
    · simp at h
    · cases hfr : env.frame with
      | none =>
        rw [hfr] at h
        simp at h
      | some frame =>
        rw [hfr] at h
        simp only at h
        split_ifs at h with hout
        · simp only [List.mem_cons, reduceCtorEq, false_or] at h
          exact key frame h
        · simp only [List.mem_cons, reduceCtorEq, false_or, List.mem_append, List.mem_singleton,
            List.not_mem_nil, or_false] at h
          rcases h with h | h
          · exact key frame h
          · have := (Camera.releaseLoop_spec (Camera.ignoreInput request).output_buffers 0).1 _ h
            simp [Camera.Event.isUnmap] at this
  · intro cm frame srcBuf buf rgbaBuffer addr id size h
    obtain ⟨h1, h2, _, h4, uyvy, quality, stream, hs1, hs2, hs3, hs4⟩ :=
      Camera.convertOutput_trailer bits c env cm frame srcBuf buf rgbaBuffer hbits hlo hhi addr id size h
    subst h1 h2
    exact ⟨uyvy, quality, stream, hs1, hs2, hs3, hs4, by omega⟩
  · intro cm frame srcBuf buf rgbaBuffer hU hY addr id size h
    obtain ⟨_, _, _, h4, uyvy, quality, stream, hs1, hs2, _, _⟩ :=
      Camera.convertOutput_trailer bits c env cm frame srcBuf buf rgbaBuffer hbits hlo hhi addr id size h
    cases uyvy
    · have := hY quality
      simp only [Bool.false_eq_true, if_false] at hs1
      rw [← hs1, hs2] at this
      omega
    · have := hU quality
      simp only [if_true] at hs1
      rw [← hs1, hs2] at this
      omega

/-- Witness of C29: the sensor is 1920x1080, `mJpegBufferSize` is 18665472, and
the request has one BLOB buffer, for which the encoder emits three bytes: the
trailer records `jpeg_size = 3` at offset 18665464 of the mapping. -/
theorem jpeg_trailer_inside_buffer_witness :
    Camera.Event.jpegBlob (0x200000 + 18665464) CAMERA3_JPEG_BLOB_ID 3
      ∈ (Camera.processCaptureRequest 64 Sample.camera Sample.env Sample.requestBlob).events
    ∧ (0 < 3 ∧ 3 ≤ Sample.camera.mJpegBufferSize - sizeofJpegBlob) :=
  ⟨by decide,
   ((jpeg_trailer_inside_buffer 64 32 Sample.camera Sample.env Sample.requestBlob
      { width := 1920, height := 1080 } (by decide) (by decide) (by decide) (by decide)).2.1
      (0x200000 + 18665464) CAMERA3_JPEG_BLOB_ID 3 (by decide)).2.1,
   ((jpeg_trailer_inside_buffer 64 32 Sample.camera Sample.env Sample.requestBlob
      { width := 1920, height := 1080 } (by decide) (by decide) (by decide) (by decide)).2.1
      (0x200000 + 18665464) CAMERA3_JPEG_BLOB_ID 3 (by decide)).2.2.1⟩

/-- The inner loop of `deinterleave`: `n` pixel pairs from pair `i` on are
taken from the source in the order U, Y0, V, Y1. -/
theorem Yuv422UyvyToJpegEncoder.pairLoop_spec (yuv : Nat → Nat) (row width : Nat) (n : Nat) :
    ∀ (i yuvSeg : Nat) (p : Yuv422UyvyToJpegEncoder.Planes),
      row * width + 2 * (i + n) < 2 ^ 31 + 1 →
      row * (width / 2) + (i + n) < 2 ^ 31 + 1 →
      ∃ q, Yuv422UyvyToJpegEncoder.pairLoop yuv row width n i yuvSeg p = some q
        ∧ (∀ k, k < n →
            q.uRows (row * (width / 2) + i + k) = yuv (yuvSeg + 4 * k)
            ∧ q.yRows (row * width + 2 * i + 2 * k) = yuv (yuvSeg + 4 * k + 1)
            ∧ q.vRows (row * (width / 2) + i + k) = yuv (yuvSeg + 4 * k + 2)
            ∧ q.yRows (row * width + 2 * i + 2 * k + 1) = yuv (yuvSeg + 4 * k + 3))
        ∧ (∀ idx, (idx < row * width + 2 * i ∨ row * width + 2 * (i + n) ≤ idx) →
            q.yRows idx = p.yRows idx)
        ∧ (∀ idx, (idx < row * (width / 2) + i ∨ row * (width / 2) + (i + n) ≤ idx) →
            q.uRows idx = p.uRows idx ∧ q.vRows idx = p.vRows idx) := by
  generalize hA : row * width = A
  generalize hB : row * (width / 2) = B
  induction n with
  | zero =>
    intro i yuvSeg p _ _
    exact ⟨p, rfl, fun k hk => absurd hk (Nat.not_lt_zero k), fun _ _ => rfl, fun _ _ => ⟨rfl, rfl⟩⟩
  | succ n ih =>
    intro i yuvSeg p hY hU
    have hfY : Yuv422UyvyToJpegEncoder.intFits (A + i * 2 + 1) = true := by
      unfold Yuv422UyvyToJpegEncoder.intFits
      exact decide_eq_true (by omega)
    have hfU : Yuv422UyvyToJpegEncoder.intFits (B + i) = true := by
      unfold Yuv422UyvyToJpegEncoder.intFits
      exact decide_eq_true (by omega)
    obtain ⟨q, hq, hvals, hy, huv⟩ := ih (i + 1) (yuvSeg + 4)
      { yRows := Yuv422UyvyToJpegEncoder.store
          (Yuv422UyvyToJpegEncoder.store p.yRows (A + i * 2) (yuv (yuvSeg + 1)))
          (A + i * 2 + 1) (yuv (yuvSeg + 3)),
        uRows := Yuv422UyvyToJpegEncoder.store p.uRows (B + i) (yuv yuvSeg),
        vRows := Yuv422UyvyToJpegEncoder.store p.vRows (B + i) (yuv (yuvSeg + 2)) }
      (by omega) (by omega)
    refine ⟨q, ?_, ?_, ?_, ?_⟩
    · simp only [Yuv422UyvyToJpegEncoder.pairLoop, Nat.shiftLeft_eq, Nat.shiftRight_eq_div_pow,
        pow_one, hA, hB, hfY, hfU, Bool.and_self, if_true]
      exact hq
    · intro k hk
      cases k with
      | zero =>
        have h1 := hy (A + 2 * i) (Or.inl (by omega))
        have h2 := hy (A + 2 * i + 1) (Or.inl (by omega))
        have h3 := huv (B + i) (Or.inl (by omega))
        simp only [Yuv422UyvyToJpegEncoder.store] at h1 h2 h3
        have e1 : A + 2 * i = A + i * 2 := by omega
        have e2 : ¬ (A + i * 2 = A + i * 2 + 1) := by omega
        simp only [e1, e2, if_true, if_false] at h1 h2
        simp only [if_true] at h3
        simp only [Nat.mul_zero, Nat.add_zero, e1]
        exact ⟨h3.1, h1, h3.2, h2⟩
      | succ k =>
        obtain ⟨a1, a2, a3, a4⟩ := hvals k (by omega)
        have e1 : B + i + (k + 1) = B + (i + 1) + k := by omega
        have e2 : A + 2 * i + 2 * (k + 1) = A + 2 * (i + 1) + 2 * k := by omega
        have e3 : yuvSeg + 4 * (k + 1) = yuvSeg + 4 + 4 * k := by omega
        rw [e1, e2, e3]
        exact ⟨a1, a2, a3, a4⟩
    · intro idx hidx
      have h1 := hy idx (by omega)
      rw [h1]
      simp only [Yuv422UyvyToJpegEncoder.store]
      have e1 : ¬ (idx = A + i * 2 + 1) := by omega
      have e2 : ¬ (idx = A + i * 2) := by omega
      simp only [e1, e2, if_false]
    · intro idx hidx
      have h1 := huv idx (by omega)
      rw [h1.1, h1.2]
      simp only [Yuv422UyvyToJpegEncoder.store]
      have e1 : ¬ (idx = B + i) := by omega
      simp only [e1, if_false]
      exact ⟨trivial, trivial⟩

/-- The outer loop of `deinterleave` for an even width: the rows from `row` on
are taken apart, and nothing outside their places in the row arrays changes. -/
theorem Yuv422UyvyToJpegEncoder.rowLoop_spec (stride : Nat) (yuv : Nat → Nat)
    (rowIndex width : Nat) (heven : width % 2 = 0) (n : Nat) :
    ∀ (row : Nat) (p : Yuv422UyvyToJpegEncoder.Planes),
      (row + n) * width < 2 ^ 31 + 1 →
      (∀ r, r < row + n → (rowIndex + r) * stride < 2 ^ 31) →
      ∃ q, Yuv422UyvyToJpegEncoder.rowLoop stride yuv rowIndex width n row p = some q
        ∧ (∀ r i, row ≤ r → r < row + n → i < width / 2 →
            q.uRows (r * (width / 2) + i) = yuv ((rowIndex + r) * stride + 4 * i)
            ∧ q.yRows (r * width + 2 * i) = yuv ((rowIndex + r) * stride + 4 * i + 1)
            ∧ q.vRows (r * (width / 2) + i) = yuv ((rowIndex + r) * stride + 4 * i + 2)
            ∧ q.yRows (r * width + 2 * i + 1) = yuv ((rowIndex + r) * stride + 4 * i + 3))
        ∧ (∀ idx, (idx < row * width ∨ (row + n) * width ≤ idx) → q.yRows idx = p.yRows idx)
        ∧ (∀ idx, (idx < row * (width / 2) ∨ (row + n) * (width / 2) ≤ idx) →
            q.uRows idx = p.uRows idx ∧ q.vRows idx = p.vRows idx) := by
  induction n with
  | zero =>
    intro row p _ _
    exact ⟨p, rfl, fun r i h1 h2 => absurd h2 (by omega), fun _ _ => rfl, fun _ _ => ⟨rfl, rfl⟩⟩
  | succ n ih =>
    intro row p hY hS
    have eW : (row + (n + 1)) * width = row * width + width + n * width := by ring
    have eH : (row + (n + 1)) * (width / 2) = row * (width / 2) + width / 2 + n * (width / 2) := by ring
    have eW1 : (row + 1 + n) * width = row * width + width + n * width := by ring
    have eH1 : (row + 1 + n) * (width / 2) = row * (width / 2) + width / 2 + n * (width / 2) := by ring
    have eW2 : (row + 1) * width = row * width + width := by ring
    have eH2 : (row + 1) * (width / 2) = row * (width / 2) + width / 2 := by ring
    have hhalf : row * (width / 2) ≤ row * width := Nat.mul_le_mul_left row (Nat.div_le_self width 2)
    have hfS : Yuv422UyvyToJpegEncoder.intFits ((rowIndex + row) * stride) = true := by
      unfold Yuv422UyvyToJpegEncoder.intFits
      exact decide_eq_true (hS row (by omega))
    obtain ⟨p1, hp1, hvals1, hy1, huv1⟩ := Yuv422UyvyToJpegEncoder.pairLoop_spec yuv row width
      (width / 2) 0 ((rowIndex + row) * stride) p (by omega) (by omega)
    obtain ⟨q, hq, hvals, hy, huv⟩ := ih (row + 1) p1 (by rw [eW1]; omega)
      (fun r hr => hS r (by omega))
    refine ⟨q, ?_, ?_, ?_, ?_⟩
    · simp only [Yuv422UyvyToJpegEncoder.rowLoop, hfS, if_true, Nat.shiftRight_eq_div_pow, pow_one,
        hp1]
      exact hq
    · intro r i h1 h2 hi
      by_cases hr : r = row
      · subst hr
        obtain ⟨a1, a2, a3, a4⟩ := hvals1 i hi
        have b1 := huv (r * (width / 2) + i) (Or.inl (by rw [eH2]; omega))
        have b2 := hy (r * width + 2 * i) (Or.inl (by rw [eW2]; omega))
        have b3 := hy (r * width + 2 * i + 1) (Or.inl (by rw [eW2]; omega))
        simp only [Nat.mul_zero, Nat.add_zero] at a1 a2 a3 a4
        rw [b1.1, b1.2, b2, b3]
        exact ⟨a1, a2, a3, a4⟩
      · exact hvals r i (by omega) (by omega) hi
    · intro idx hidx
      rw [eW] at hidx
      rw [hy idx (by rw [eW1, eW2]; omega)]
      exact hy1 idx (by omega)
    · intro idx hidx
      rw [eH] at hidx
      have c1 := huv idx (by rw [eH1, eH2]; omega)
      have c2 := huv1 idx (by omega)
      rw [c1.1, c1.2]
      exact c2

/-- C30: let the width be even, `rowIndex < height`, and let `16 * width` and
the size of the image, `height * stride`, fit `int`. Then `deinterleave`
returns, and with `n = min(16, height - rowIndex)`: for every row `r < n` and
every pixel pair `i < width / 2` the four source bytes at
`(rowIndex + r) * stride + 4 * i` are found, in this order, in
`uRows[r * (width / 2) + i]`, `yRows[r * width + 2 * i]`,
`vRows[r * (width / 2) + i]` and `yRows[r * width + 2 * i + 1]`; the row
arrays are unchanged from index `n * width` (`yRows`) and `n * (width / 2)`
(`uRows`, `vRows`) on, so exactly `n` rows are processed; and interleaving the
row arrays again gives back the first `2 * width` bytes of each of these
source rows. -/
theorem deinterleave_layout (stride : Nat) (yuv : Nat → Nat) (p : Yuv422UyvyToJpegEncoder.Planes)
    (rowIndex width height : Nat) (heven : width % 2 = 0) (hrow : rowIndex < height)
    (hwidth : 16 * width < 2 ^ 31) (hsize : height * stride < 2 ^ 31) :
    ∃ q, Yuv422UyvyToJpegEncoder.deinterleave stride yuv p rowIndex width height = some q
      ∧ (∀ r i, r < min 16 (height - rowIndex) → i < width / 2 →
          q.uRows (r * (width / 2) + i) = yuv ((rowIndex + r) * stride + 4 * i)
          ∧ q.yRows (r * width + 2 * i) = yuv ((rowIndex + r) * stride + 4 * i + 1)
          ∧ q.vRows (r * (width / 2) + i) = yuv ((rowIndex + r) * stride + 4 * i + 2)
          ∧ q.yRows (r * width + 2 * i + 1) = yuv ((rowIndex + r) * stride + 4 * i + 3))
      ∧ (∀ idx, min 16 (height - rowIndex) * width ≤ idx → q.yRows idx = p.yRows idx)
      ∧ (∀ idx, min 16 (height - rowIndex) * (width / 2) ≤ idx →
          q.uRows idx = p.uRows idx ∧ q.vRows idx = p.vRows idx)
      ∧ (∀ r j, r < min 16 (height - rowIndex) → j < 2 * width →
          Yuv422UyvyToJpegEncoder.reinterleave q width r j = yuv ((rowIndex + r) * stride + j)) := by
  have hnum : (if height - rowIndex > 16 then 16 else height - rowIndex) = min 16 (height - rowIndex) := by
    split_ifs <;> omega
  generalize hn : min 16 (height - rowIndex) = n at hnum
  have hn16 : n ≤ 16 := by omega
  have hnh : rowIndex + n ≤ height := by omega
  have hnw : n * width ≤ 16 * width := Nat.mul_le_mul_right width hn16
  obtain ⟨q, hq, hvals, hy, huv⟩ := Yuv422UyvyToJpegEncoder.rowLoop_spec stride yuv rowIndex width
    heven n 0 p (by rw [Nat.zero_add]; omega)
    (fun r hr => lt_of_le_of_lt (Nat.mul_le_mul_right stride (by omega : rowIndex + r ≤ height)) hsize)
  refine ⟨q, ?_, ?_, ?_, ?_, ?_⟩
  · unfold Yuv422UyvyToJpegEncoder.deinterleave
    simp only [hnum]
    exact hq
  · intro r i hr hi
    exact hvals r i (Nat.zero_le r) (by omega) hi
  · intro idx hidx
    exact hy idx (Or.inr (by rw [Nat.zero_add]; exact hidx))
  · intro idx hidx
    exact huv idx (Or.inr (by rw [Nat.zero_add]; exact hidx))
  · intro r j hr hj
    obtain ⟨a1, a2, a3, a4⟩ := hvals r (j / 4) (Nat.zero_le r) (by omega) (by omega)
    unfold Yuv422UyvyToJpegEncoder.reinterleave
    have hj4 : j = 4 * (j / 4) + j % 4 := (Nat.div_add_mod j 4).symm
    split_ifs with h0 h1 h2
    · rw [a1]; congr 1; omega
    · rw [a2]; congr 1; omega
    · rw [a3]; congr 1; omega
    · rw [a4]; congr 1; omega

/-- Witness of C30: a 4x3 image with a stride of 8 bytes whose byte at offset
`a` is `a % 251`, taken apart from row 1 on: two rows are processed. -/
theorem deinterleave_layout_witness :
    ∃ q, Yuv422UyvyToJpegEncoder.deinterleave 8 (fun a => a % 251) Sample.planes 1 4 3 = some q
      ∧ q.uRows (1 * (4 / 2) + 1) = (fun a => a % 251) ((1 + 1) * 8 + 4 * 1)
      ∧ q.yRows (2 * 4) = Sample.planes.yRows (2 * 4) := by
  obtain ⟨q, h1, h2, h3, _⟩ := deinterleave_layout 8 (fun a => a % 251) Sample.planes 1 4 3
    (by decide) (by decide) (by decide) (by decide)
  exact ⟨q, h1, (h2 1 1 (by decide) (by decide)).1, h3 (2 * 4) (by decide)⟩

/-- Counterexample to C14 as stated: the override `4294967296x720` has two
numbers greater than 0. On a 64 bit target `strtoul` returns `2 ^ 32` for the
width, which the `unsigned` member stores as 0: the constructor leaves the
forced resolution 0x720, and `availableResolutions` opens the device and
enumerates instead of returning the one entry. On a 32 bit target `strtoul`
reports `ERANGE` and the override is reset to 0x0. For `4294968576x720` the
member holds 1280 and the entry returned is 1280x720. -/
theorem availableResolutions_override_wraps :
    V4l2Device.ctor false 64 Sample.kernel Sample.zeroed Sample.prop4294967296x720
      = some { val := (), dev := V4l2Device.initial { width := 0, height := 720 }, calls := [] }
    ∧ (V4l2Device.availableResolutions (V4l2Device.initial { width := 0, height := 720 })
        Sample.kernel).val = [{ width := 1920, height := 1080 }, { width := 640, height := 480 }]
    ∧ (V4l2Device.availableResolutions (V4l2Device.initial { width := 0, height := 720 })
        Sample.kernel).calls
      = [V4l2Device.DevCall.openDev, V4l2Device.DevCall.ENUM_FRAMESIZES 0,
         V4l2Device.DevCall.ENUM_FRAMESIZES 1, V4l2Device.DevCall.ENUM_FRAMESIZES 2,
         V4l2Device.DevCall.ENUM_FRAMESIZES 3, V4l2Device.DevCall.closeDev 3]
    ∧ V4l2Device.ctor false 32 Sample.kernel Sample.zeroed Sample.prop4294967296x720
      = some { val := (), dev := V4l2Device.initial { width := 0, height := 0 }, calls := [] }
    ∧ V4l2Device.ctor false 64 Sample.kernel Sample.zeroed Sample.prop4294968576x720
      = some { val := (), dev := V4l2Device.initial { width := 1280, height := 720 }, calls := [] }
    ∧ (V4l2Device.availableResolutions (V4l2Device.initial { width := 1280, height := 720 })
        Sample.kernel).val = [{ width := 1280, height := 720 }] := by
  decide

/-- C16 (evaluation at an object whose memory is not zero): the property is
not set, so the constructor skips the block that assigns `mForcedResolution`;
the member has no initialiser and keeps what the memory of the object held,
here `0xABABABAB` twice. `availableResolutions` finds both numbers greater
than 0, takes them for an override and returns the one entry
2880154539x2880154539 without opening the device or enumerating, although the
kernel reports 3840x2160, 1920x1080 and 640x480. Only when the memory
happens to be zero are the sizes within 1920x1080 enumerated. -/
theorem availableResolutions_uninitialised_override :
    V4l2Device.ctor false 64 Sample.kernel Sample.filled []
      = some { val := (), dev := V4l2Device.initial Sample.filled, calls := [] }
    ∧ (V4l2Device.availableResolutions (V4l2Device.initial Sample.filled) Sample.kernel).val
      = [{ width := 2880154539, height := 2880154539 }]
    ∧ (V4l2Device.availableResolutions (V4l2Device.initial Sample.filled) Sample.kernel).calls = []
    ∧ Sample.kernel.frameSizes
      = [{ width := 3840, height := 2160 }, { width := 1920, height := 1080 },
         { width := 640, height := 480 }]
    ∧ V4l2Device.ctor false 64 Sample.kernel Sample.zeroed []
      = some { val := (), dev := V4l2Device.initial Sample.zeroed, calls := [] }
    ∧ (V4l2Device.availableResolutions (V4l2Device.initial Sample.zeroed) Sample.kernel).val
      = [{ width := 1920, height := 1080 }, { width := 640, height := 480 }] := by
  decide

/-- C8 (evaluation at a run in which `mCond.wait` returns without a signal):
the sample request, with one RGBA output buffer mapped at `0x200000`,
completes with `NO_ERROR`. Its conversion call queues 30 tasks, the first of
which stores 36 rows from `0x200000` on. The thread enters
`waitForCompletion` of each task, every wait returns before a worker thread
has run, and the flag is not tested again, so the conversion call returns; the
thread then unmaps the buffer, releases the frame with `unlock` and delivers
the result, and has no step left. At that time no task has been executed and
all 30 are still queued. Worker thread 0 then pops task 0 and executes it: the
stores into the output buffer come after the release of the frame and after
the result callback. -/
theorem processCaptureRequest_stores_after_release :
    (Camera.processCaptureRequest 64 Sample.camera Sample.env Sample.request).status = NO_ERROR
    ∧ (Camera.processCaptureRequest 64 Sample.camera Sample.env Sample.request).events
      = [Camera.Event.notifyShutter 7 1000000, Camera.Event.readLock (some Sample.frame),
         Camera.Event.fenceWait 0 9, Camera.Event.mapperLock 0 501,
         Camera.Event.toRGBA true 0x10000 0x200000 1920 1080,
         Camera.Event.mapperUnlock 0 501, Camera.Event.unlock Sample.frame,
         Camera.Event.processCaptureResult 7
           [(ANDROID_JPEG_QUALITY, [90]), (ANDROID_SENSOR_TIMESTAMP, [1000000]),
            (ANDROID_SYNC_FRAME_NUMBER, [7])]
           [Camera.resultBuffer Sample.rgbaBuffer]]
    ∧ (ImageConverter.splitRunWait 64 0x10000 0x200000 1920 1080).1.head?
      = some { src := 0x10000, dst := 0x200000, width := 1920, linesNum := 36 }
    ∧ (Camera.runProcess 4
        (Camera.processStart 4
          (Camera.processCaptureRequest 64 Sample.camera Sample.env Sample.request).events)
        Sample.earlyWakeups).todo = []
    ∧ (Camera.runProcess 4
        (Camera.processStart 4
          (Camera.processCaptureRequest 64 Sample.camera Sample.env Sample.request).events)
        Sample.earlyWakeups).log
      = (Camera.processCaptureRequest 64 Sample.camera Sample.env Sample.request).events.map
          Camera.Occurrence.call
    ∧ (Camera.runProcess 4
        (Camera.processStart 4
          (Camera.processCaptureRequest 64 Sample.camera Sample.env Sample.request).events)
        Sample.earlyWakeups).pool.executed = []
    ∧ (Camera.runProcess 4
        (Camera.processStart 4
          (Camera.processCaptureRequest 64 Sample.camera Sample.env Sample.request).events)
        Sample.earlyWakeups).pool.mTasks = List.range 30
    ∧ (Camera.runProcess 4
        (Camera.processStart 4
          (Camera.processCaptureRequest 64 Sample.camera Sample.env Sample.request).events)
        (Sample.earlyWakeups ++ [Camera.Turn.thread 0, Camera.Turn.thread 0])).log
      = (Camera.processCaptureRequest 64 Sample.camera Sample.env Sample.request).events.map
          Camera.Occurrence.call ++ [Camera.Occurrence.execute 0] := by
  set_option maxRecDepth 100000 in
  decide

end android
